import Mathlib

/-!
Verification of the LOTUSim UI frontend core against its specification.

The development shallowly embeds the two verification-relevant components:

* `Lotus.generateLotusParamXML` — the vessel parameter serializer from the
  Add-Vessel dialog (template assembly followed by the four-step
  whitespace-normalization chain `.replace(/[\n\r\t]/g,'')`,
  `.replace(/\s{2,}/g,' ')`, `.replace(/>\s+</g,'><')`, `.trim()`).
* `Lotus.handleMessage` / `Lotus.connectStep` / `Lotus.disconnectStep` — the
  WebSocket telemetry client (message validation and connection lifecycle).
* `Lotus.getIconSize` — the map marker icon sizing function.

JavaScript strings are modelled as Lean `String`s; the regex replacements are
modelled by structurally recursive scanners over `List Char` whose semantics
match a single left-to-right global-replace pass.  JavaScript numbers are
modelled as `ℚ` with a concrete decimal renderer `Lotus.jsNum`.
-/

namespace Lotus

/-- Character class of the JavaScript regex `\s` (and of `String.prototype.trim`):
space, tab, LF, VT, FF, CR, NBSP, Ogham space mark, the U+2000–U+200A range,
LS, PS, NNBSP, MMSP, ideographic space and the BOM. -/
def jsWs (c : Char) : Bool :=
  let n := c.toNat
  n == 32 || n == 9 || n == 10 || n == 13 || n == 11 || n == 12 ||
  n == 160 || n == 5760 || (decide (8192 ≤ n) && decide (n ≤ 8202)) ||
  n == 8232 || n == 8233 || n == 8239 || n == 8287 || n == 12288 || n == 65279

/-- Character class of the regex `[\n\r\t]` used by the first normalization step. -/
def isNlTab (c : Char) : Bool :=
  c == '\n' || c == '\r' || c == '\t'

/-- State of the run-collapsing scanner: either scanning normally, holding one
pending whitespace character (a run of length 1 so far), or inside a run of
length ≥ 2 whose single replacement space has already been emitted. -/
inductive CMode where
  | norm : CMode
  | pend : Char → CMode
  | inRun : CMode

/-- Scanner for `.replace(/\s{2,}/g, ' ')`: every maximal whitespace run of
length ≥ 2 becomes a single space; runs of length 1 are kept verbatim. -/
def collapseGo : CMode → List Char → List Char
  | .norm, [] => []
  | .pend w, [] => [w]
  | .inRun, [] => []
  | .norm, c :: t => if jsWs c then collapseGo (.pend c) t else c :: collapseGo .norm t
  | .pend w, c :: t => if jsWs c then ' ' :: collapseGo .inRun t else w :: c :: collapseGo .norm t
  | .inRun, c :: t => if jsWs c then collapseGo .inRun t else c :: collapseGo .norm t

/-- Global replacement of `\s{2,}` by a single space. -/
def collapse (l : List Char) : List Char := collapseGo .norm l

/-- State of the tag-gap scanner: either scanning normally or having read a `>`
followed by the buffered (reversed) whitespace characters seen since. -/
inductive TMode where
  | norm : TMode
  | gt : List Char → TMode

/-- Scanner for `.replace(/>\s+</g, '><')`: a `>` followed by one or more
whitespace characters followed by `<` loses the whitespace; on a failed match
the buffered characters are emitted verbatim and scanning resumes (skipped
whitespace cannot start a new match, so resuming after it is equivalent to the
regex engine's resuming at the next position). -/
def tagJoinGo : TMode → List Char → List Char
  | .norm, [] => []
  | .gt acc, [] => '>' :: acc.reverse
  | .norm, c :: t => if c = '>' then tagJoinGo (.gt []) t else c :: tagJoinGo .norm t
  | .gt acc, c :: t =>
    if jsWs c then tagJoinGo (.gt (c :: acc)) t
    else if c = '<' then '>' :: '<' :: tagJoinGo .norm t
    else if c = '>' then '>' :: acc.reverse ++ tagJoinGo (.gt []) t
    else '>' :: acc.reverse ++ c :: tagJoinGo .norm t

/-- Global replacement of `>\s+<` by `><`. -/
def tagJoin (l : List Char) : List Char := tagJoinGo .norm l

/-- Leading-whitespace removal, as in `String.prototype.trim`. -/
def trimLeft (l : List Char) : List Char := l.dropWhile jsWs

/-- Trailing-whitespace removal, as in `String.prototype.trim`. -/
def trimRight (l : List Char) : List Char := (l.reverse.dropWhile jsWs).reverse

/-- Both-ends whitespace removal, as in `String.prototype.trim`. -/
def jsTrimList (l : List Char) : List Char := trimRight (trimLeft l)

/-- The serializer's `.replace(/[\n\r\t]/g, '')` step. -/
def replaceNewlines (s : String) : String := ⟨s.data.filter (fun c => !isNlTab c)⟩

/-- The serializer's `.replace(/\s{2,}/g, ' ')` step. -/
def collapseWsRuns (s : String) : String := ⟨collapse s.data⟩

/-- The serializer's `.replace(/>\s+</g, '><')` step. -/
def joinTagGaps (s : String) : String := ⟨tagJoin s.data⟩

/-- The serializer's `.trim()` step. -/
def jsTrim (s : String) : String := ⟨jsTrimList s.data⟩

/-- The whole four-step normalization chain applied to the assembled document,
in the source's order. -/
def normalizeXml (s : String) : String :=
  jsTrim (joinTagGaps (collapseWsRuns (replaceNewlines s)))

/-- Replacement of every occurrence of the single character `c` by `rep`,
modelling `String.prototype.replace` with a global single-character regex. -/
def jsReplaceChar (c : Char) (rep : String) (s : String) : String :=
  ⟨s.data.flatMap (fun x => if x = c then rep.data else [x])⟩

/-- The serializer's `escapeXml` helper: the five chained global replaces, in
source order (`&` first, so later entity ampersands are not re-escaped). -/
def escapeXml (str : String) : String :=
  jsReplaceChar '\'' "&apos;"
    (jsReplaceChar '"' "&quot;"
      (jsReplaceChar '>' "&gt;"
        (jsReplaceChar '<' "&lt;"
          (jsReplaceChar '&' "&amp;" str))))

/-- Decimal digits of a natural number, most significant first (fuel-driven so
that the definition is structural and kernel-computable). -/
def natDigitsGo : ℕ → ℕ → List Char
  | 0, _ => []
  | fuel + 1, n =>
    if n < 10 then [Nat.digitChar n]
    else natDigitsGo fuel (n / 10) ++ [Nat.digitChar (n % 10)]

/-- Decimal digits of a natural number. -/
def natDigits (n : ℕ) : List Char := natDigitsGo (n + 1) n

/-- Decimal rendering of a natural number, modelling `${idx + 1}` interpolation. -/
def natStr (n : ℕ) : String := ⟨natDigits n⟩

/-- Fractional decimal digits of `r / den` (`r < den`) by long division,
truncated at the given fuel. -/
def fracDigitsGo : ℕ → ℕ → ℕ → List Char
  | 0, _, _ => []
  | fuel + 1, r, den =>
    if r = 0 then []
    else Nat.digitChar (r * 10 / den) :: fracDigitsGo fuel (r * 10 % den) den

/-- Modelled from the source's template interpolation of JavaScript numbers:
the exact decimal expansion of the rational (sign, integer part, then the
fraction digits, truncated at 20 places for non-terminating expansions).  On
the decimal literals entered through the UI this agrees with JavaScript's
number-to-string conversion; its only property used below is that it never
produces whitespace or markup characters. -/
def jsNum (q : ℚ) : String :=
  let sign : String := if q < 0 then "-" else ""
  let n : ℕ := q.num.natAbs
  let den : ℕ := q.den
  let r : ℕ := n % den
  sign ++ (⟨natDigits (n / den)⟩ : String) ++
    (if r = 0 then "" else "." ++ (⟨fracDigitsGo 20 r den⟩ : String))

/-- Template interpolation of a JavaScript boolean. -/
def jsBool (b : Bool) : String := if b then "true" else "false"

/-- Per-physics-mode configuration, from the `physicsConfig` state. -/
structure PhysicsModeConfig where
  connectionType : String
  uri : String
  thrusters : List String

/-- The `physicsModes` checkbox state. -/
structure PhysicsModes where
  aerial : Bool
  surface : Bool
  underwater : Bool

/-- One waypoint `{ lat, lng }`. -/
structure WaypointLatLng where
  lat : ℚ
  lng : ℚ

/-- The `line` sub-state of the waypoint follower. -/
structure LineConfig where
  direction : ℚ
  length : ℚ

/-- The `circle` sub-state of the waypoint follower. -/
structure CircleConfig where
  radius : ℚ

/-- The `waypointFollower` state object. -/
structure WaypointFollowerState where
  enabled : Bool
  loop : Bool
  linearAccLimit : ℚ
  angularAccLimit : ℚ
  angularVelLimit : ℚ
  mode : String
  waypoints : List WaypointLatLng
  line : LineConfig
  circle : CircleConfig

/-- The complete state consulted by `generateLotusParamXML`: the two plugin
flags, the render block fields, the per-mode physics configuration, the chosen
initial state, and the waypoint-follower block. -/
structure VesselSpawnConfig where
  physicsEnabled : Bool
  renderEnabled : Bool
  rendererType : String
  publishRender : Bool
  physicsModes : PhysicsModes
  aerialConfig : PhysicsModeConfig
  surfaceConfig : PhysicsModeConfig
  underwaterConfig : PhysicsModeConfig
  initState : String
  waypointFollower : WaypointFollowerState

/-- The `physicsConfig[mode]` lookup. -/
def physicsConfigOf (cfg : VesselSpawnConfig) (mode : String) : PhysicsModeConfig :=
  if mode = "aerial" then cfg.aerialConfig
  else if mode = "surface" then cfg.surfaceConfig
  else cfg.underwaterConfig

/-- The names of the enabled physics modes, in the fixed key order of the
`physicsModes` object literal (`Object.entries` preserves insertion order):
aerial, surface, underwater. -/
def enabledModeNames (m : PhysicsModes) : List String :=
  (([("aerial", m.aerial), ("surface", m.surface), ("underwater", m.underwater)].filter
      (fun e => e.2)).map (fun e => e.1))

/-- JavaScript `Array.prototype.join("")`. -/
def strJoin : List String → String
  | [] => ""
  | s :: rest => s ++ strJoin rest

/-- JavaScript `Array.prototype.join(sep)`. -/
def strIntercalate (sep : String) : List String → String
  | [] => ""
  | [s] => s
  | s :: rest => s ++ sep ++ strIntercalate sep rest

/-- The `config.thrusters.map((thruster, idx) => ...)` lines; the source starts
`idx` at 0 and emits `idx + 1` in the element names.  The template literal
`        <thrusters${idx + 1}>${escapeXml(thruster)}</thrusters${idx + 1}>` is
written as a concatenation split at tag boundaries (the string value is
unchanged). -/
def thrusterLines (idx : ℕ) : List String → List String
  | [] => []
  | thruster :: rest =>
    ("        " ++ ("<thrusters" ++ natStr (idx + 1) ++ ">") ++ escapeXml thruster ++
        ("</thrusters" ++ natStr (idx + 1) ++ ">")) :: thrusterLines (idx + 1) rest

/-- One enabled physics mode's template block; the 24 spaces after
`</ConnectionType>` are in the source template.  Each template literal is split
at tag boundaries with its value unchanged. -/
def modeBlock (mode : String) (config : PhysicsModeConfig) : String :=
  let thrusters := strIntercalate "\n" (thrusterLines 0 config.thrusters)
  "\n        " ++ ("<" ++ mode ++ ">") ++ "\n          " ++ "<ConnectionType>" ++
    escapeXml config.connectionType ++ "</ConnectionType>" ++ "                        " ++
    "\n          " ++ "<uri>" ++ escapeXml config.uri ++ "</uri>" ++ "\n          " ++
    "<thrusters>" ++ "\n    " ++ thrusters ++ "\n          " ++ "</thrusters>" ++
    "\n        " ++ ("</" ++ mode ++ ">")

/-- The `physicsParts` join over the enabled modes. -/
def physicsPartsOf (cfg : VesselSpawnConfig) : String :=
  strJoin ((enabledModeNames cfg.physicsModes).map
    (fun mode => modeBlock mode (physicsConfigOf cfg mode)))

/-- The `commonLimits` template string of the waypoint follower. -/
def commonLimits (wf : WaypointFollowerState) : String :=
  "\n      " ++ "<loop>" ++ jsBool wf.loop ++ "</loop>" ++ "\n      " ++
    "<linear_acceleration_limit>" ++ jsNum wf.linearAccLimit ++ "</linear_acceleration_limit>" ++
    "\n      " ++ "<angular_acceleration_limit>" ++ jsNum wf.angularAccLimit ++
    "</angular_acceleration_limit>" ++ "\n      " ++ "<angular_velocity_limit>" ++
    jsNum wf.angularVelLimit ++ "</angular_velocity_limit>" ++ "\n    "

/-- The `waypointsXml` join of `<waypoint>` elements. -/
def waypointsXml (wps : List WaypointLatLng) : String :=
  strJoin (wps.map (fun wp =>
    "<waypoint>" ++ (jsNum wp.lat ++ " " ++ jsNum wp.lng) ++ "</waypoint>"))

/-- The `followers` array: the three `if` pushes, in source order.  The string
field `mode` makes the three conditions mutually exclusive. -/
def followersOf (wf : WaypointFollowerState) : List String :=
  (if wf.mode = "waypoints" ∧ wf.waypoints.length > 0 then
    ["\n        " ++ "<follower>" ++ "\n          " ++ commonLimits wf ++ "\n          " ++
      "<waypoints>" ++ "\n            " ++ waypointsXml wf.waypoints ++ "\n          " ++
      "</waypoints>" ++ "\n        " ++ "</follower>"]
  else []) ++
  (if wf.mode = "line" then
    ["\n        " ++ "<follower>" ++ "\n          " ++ commonLimits wf ++ "\n          " ++
      "<line>" ++ "\n            " ++ "<direction>" ++ jsNum wf.line.direction ++
      "</direction>" ++ "\n            " ++ "<length>" ++ jsNum wf.line.length ++
      "</length>" ++ "\n          " ++ "</line>" ++ "\n        " ++ "</follower>"]
  else []) ++
  (if wf.mode = "circle" then
    ["\n        " ++ "<follower>" ++ "\n          " ++ commonLimits wf ++ "\n          " ++
      "<circle>" ++ "\n            " ++ "<radius>" ++ jsNum wf.circle.radius ++
      "</radius>" ++ "\n          " ++ "</circle>" ++ "\n        " ++ "</follower>"]
  else [])

/-- The `renderInterface` string of the serializer. -/
def renderInterfaceOf (cfg : VesselSpawnConfig) : String :=
  if cfg.renderEnabled then
    "\n      " ++ "<render_interface>" ++ "\n        " ++ "<publish_render>" ++
      jsBool cfg.publishRender ++ "</publish_render>" ++ "\n        " ++
      "<renderer_type_name>" ++ escapeXml cfg.rendererType ++ "</renderer_type_name>" ++
      "\n      " ++ "</render_interface>"
  else ""

/-- The `physicsEngineInterface` string of the serializer. -/
def physicsInterfaceOf (cfg : VesselSpawnConfig) : String :=
  if cfg.physicsEnabled then
    "\n      " ++ "<physics_engine_interface>" ++ physicsPartsOf cfg ++ "\n        " ++
      "<init_state>" ++ escapeXml cfg.initState ++ "</init_state>" ++ "\n      " ++
      "</physics_engine_interface>"
  else ""

/-- The `waypointFollowerInterface` string of the serializer. -/
def wfInterfaceOf (cfg : VesselSpawnConfig) : String :=
  if cfg.waypointFollower.enabled then
    "\n      " ++ "<waypoint_follower>" ++ "\n        " ++
      strJoin (followersOf cfg.waypointFollower) ++ "\n      " ++ "</waypoint_follower>"
  else ""

/-- The assembled (pre-normalization) document. -/
def rawLotusParamXML (cfg : VesselSpawnConfig) : String :=
  "<lotus_param>" ++ renderInterfaceOf cfg ++ physicsInterfaceOf cfg ++
    wfInterfaceOf cfg ++ "</lotus_param>"

/-- The serializer: template assembly followed by the four-step normalization
chain, exactly as in the source. -/
def generateLotusParamXML (cfg : VesselSpawnConfig) : String :=
  normalizeXml (rawLotusParamXML cfg)

/-- Filter used by the first normalization step, at the character-list level. -/
def listStrip (l : List Char) : List Char := l.filter (fun c => !isNlTab c)

/-- Normalization of a string that ends up as element content directly between
a `>` and a `<` of the surrounding tags: newlines and tabs are deleted,
whitespace runs of length ≥ 2 collapse to one space, and content that is then
entirely whitespace is swallowed by the `>\s+<` replacement. -/
def contentNorm (s : String) : String :=
  if (collapse (listStrip s.data)).all jsWs then "" else ⟨collapse (listStrip s.data)⟩

/-- Compact (post-normalization) form of the render section. -/
def renderCompact (cfg : VesselSpawnConfig) : String :=
  if cfg.renderEnabled then
    "<render_interface>" ++ "<publish_render>" ++ jsBool cfg.publishRender ++
      "</publish_render>" ++ "<renderer_type_name>" ++ contentNorm (escapeXml cfg.rendererType) ++
      "</renderer_type_name>" ++ "</render_interface>"
  else ""

/-- Compact form of the 1-based, order-preserving thruster elements. -/
def thrustersCompact (idx : ℕ) : List String → String
  | [] => ""
  | thruster :: rest =>
    ("<thrusters" ++ natStr (idx + 1) ++ ">") ++ contentNorm (escapeXml thruster) ++
      ("</thrusters" ++ natStr (idx + 1) ++ ">") ++ thrustersCompact (idx + 1) rest

/-- Compact form of one enabled physics mode's block. -/
def modeBlockCompact (mode : String) (config : PhysicsModeConfig) : String :=
  ("<" ++ mode ++ ">") ++ "<ConnectionType>" ++ contentNorm (escapeXml config.connectionType) ++
    "</ConnectionType>" ++ "<uri>" ++ contentNorm (escapeXml config.uri) ++ "</uri>" ++
    "<thrusters>" ++ thrustersCompact 0 config.thrusters ++ "</thrusters>" ++
    ("</" ++ mode ++ ">")

/-- Compact form of the physics section. -/
def physicsCompact (cfg : VesselSpawnConfig) : String :=
  if cfg.physicsEnabled then
    "<physics_engine_interface>" ++
      strJoin ((enabledModeNames cfg.physicsModes).map
        (fun mode => modeBlockCompact mode (physicsConfigOf cfg mode))) ++
      "<init_state>" ++ contentNorm (escapeXml cfg.initState) ++ "</init_state>" ++
      "</physics_engine_interface>"
  else ""

/-- Compact form of the common kinematic limits. -/
def commonLimitsCompact (wf : WaypointFollowerState) : String :=
  "<loop>" ++ jsBool wf.loop ++ "</loop>" ++ "<linear_acceleration_limit>" ++
    jsNum wf.linearAccLimit ++ "</linear_acceleration_limit>" ++
    "<angular_acceleration_limit>" ++ jsNum wf.angularAccLimit ++
    "</angular_acceleration_limit>" ++ "<angular_velocity_limit>" ++
    jsNum wf.angularVelLimit ++ "</angular_velocity_limit>"

/-- Compact form of the waypoint list. -/
def waypointsCompact (wps : List WaypointLatLng) : String :=
  strJoin (wps.map (fun wp =>
    "<waypoint>" ++ (jsNum wp.lat ++ " " ++ jsNum wp.lng) ++ "</waypoint>"))

/-- Compact form of the follower list (still at most one element, as the mode
conditions are mutually exclusive). -/
def followersCompactOf (wf : WaypointFollowerState) : List String :=
  (if wf.mode = "waypoints" ∧ wf.waypoints.length > 0 then
    ["<follower>" ++ commonLimitsCompact wf ++ "<waypoints>" ++
      waypointsCompact wf.waypoints ++ "</waypoints>" ++ "</follower>"]
  else []) ++
  (if wf.mode = "line" then
    ["<follower>" ++ commonLimitsCompact wf ++ "<line>" ++ "<direction>" ++
      jsNum wf.line.direction ++ "</direction>" ++ "<length>" ++ jsNum wf.line.length ++
      "</length>" ++ "</line>" ++ "</follower>"]
  else []) ++
  (if wf.mode = "circle" then
    ["<follower>" ++ commonLimitsCompact wf ++ "<circle>" ++ "<radius>" ++
      jsNum wf.circle.radius ++ "</radius>" ++ "</circle>" ++ "</follower>"]
  else [])

/-- Compact form of the waypoint-follower section.  Note that when the section
is enabled but no follower condition fires, an empty
`<waypoint_follower></waypoint_follower>` element remains. -/
def wfCompact (cfg : VesselSpawnConfig) : String :=
  if cfg.waypointFollower.enabled then
    "<waypoint_follower>" ++ strJoin (followersCompactOf cfg.waypointFollower) ++
      "</waypoint_follower>"
  else ""

/-- Compact characterization of the whole serializer output: the document with
all inter-tag whitespace removed, each string field escaped and
content-normalized, and numeric and boolean fields rendered verbatim. -/
def serializeCompact (cfg : VesselSpawnConfig) : String :=
  "<lotus_param>" ++ renderCompact cfg ++ physicsCompact cfg ++ wfCompact cfg ++
    "</lotus_param>"

/-- A character that may appear inside a tag name: not a bracket, not whitespace. -/
def plainChar (c : Char) : Bool := !(c == '<' || c == '>' || jsWs c)

/-- Decidable check of tag well-formedness, used to discharge the concrete
tag obligations by computation. -/
def tagOkCheck : List Char → Bool
  | c0 :: c :: rest =>
    (c0 == '<') && ((c :: rest).dropLast.all plainChar) && ((c :: rest).getLast? == some '>')
  | _ => false

/-- Atomic building block of the stripped document: a literal tag (no inner
whitespace, brackets only at the ends), a whitespace run, or text content
(free of brackets, arbitrary otherwise). -/
inductive Piece where
  | tag : List Char → Piece
  | ws : List Char → Piece
  | txt : List Char → Piece

/-- Raw characters of a piece. -/
def pieceRaw : Piece → List Char
  | .tag s => s
  | .ws w => w
  | .txt x => x

/-- Concatenation of a piece list. -/
def flatPieces (ps : List Piece) : List Char := (ps.map pieceRaw).flatten

/-- Per-piece effect of the whitespace-run collapse (tags contain no whitespace
and are untouched). -/
def cPiece : Piece → List Char
  | .tag s => s
  | .ws w => collapse w
  | .txt x => collapse x

/-- Per-piece compact (post-`>\s+<`-replacement) contribution: tags survive,
inter-tag whitespace disappears, content survives unless it collapses to
whitespace only. -/
def tjPiece : Piece → List Char
  | .tag s => s
  | .ws _ => []
  | .txt x => if (collapse x).all jsWs then [] else collapse x

/-- Tag well-formedness: one `<`, a nonempty-or-empty run of plain characters,
one `>`. -/
def TagOk (s : List Char) : Prop :=
  ∃ mid, s = '<' :: mid ++ ['>'] ∧ ∀ c ∈ mid, plainChar c = true

/-- Whitespace piece well-formedness. -/
def WsOk (w : List Char) : Prop := ∀ c ∈ w, jsWs c = true

/-- Content well-formedness: no markup brackets. -/
def TxtOk (x : List Char) : Prop := ∀ c ∈ x, c ≠ '<' ∧ c ≠ '>'

/-- Head-of-list discriminator used by the document grammar. -/
def HeadIsTag : List Piece → Prop
  | .tag _ :: _ => True
  | _ => False

/-- Grammar of a document tail (the part after some tag): whitespace and text
pieces are always followed directly by a tag. -/
def VTailGo : List Piece → Prop
  | [] => True
  | .tag s :: ps => TagOk s ∧ VTailGo ps
  | .ws w :: ps => WsOk w ∧ HeadIsTag ps ∧ VTailGo ps
  | .txt x :: ps => TxtOk x ∧ HeadIsTag ps ∧ VTailGo ps

/-- Text piece for an interpolated value, after the newline/tab strip. -/
def strippedTxt (s : String) : Piece := .txt (listStrip s.data)

/-- Pieces of the render section. -/
def renderPieces (cfg : VesselSpawnConfig) : List Piece :=
  if cfg.renderEnabled then
    [.ws "      ".data, .tag "<render_interface>".data, .ws "        ".data,
     .tag "<publish_render>".data, strippedTxt (jsBool cfg.publishRender),
     .tag "</publish_render>".data, .ws "        ".data, .tag "<renderer_type_name>".data,
     strippedTxt (escapeXml cfg.rendererType), .tag "</renderer_type_name>".data,
     .ws "      ".data, .tag "</render_interface>".data]
  else []

/-- Pieces of the non-first thruster lines (each preceded by the stripped
line separator and the line's 8-space indent). -/
def thrusterPiecesRest (idx : ℕ) : List String → List Piece
  | [] => []
  | thruster :: rest =>
    .ws "        ".data :: .tag ("<thrusters" ++ natStr (idx + 1) ++ ">").data ::
      strippedTxt (escapeXml thruster) :: .tag ("</thrusters" ++ natStr (idx + 1) ++ ">").data ::
      thrusterPiecesRest (idx + 1) rest

/-- Pieces of the region between `<thrusters>` and `</thrusters>`. -/
def thrustersRegionPieces (idx : ℕ) : List String → List Piece
  | [] => [.ws ("    ".data ++ "          ".data)]
  | thruster :: rest =>
    .ws ("    ".data ++ "        ".data) :: .tag ("<thrusters" ++ natStr (idx + 1) ++ ">").data ::
      strippedTxt (escapeXml thruster) :: .tag ("</thrusters" ++ natStr (idx + 1) ++ ">").data ::
      (thrusterPiecesRest (idx + 1) rest ++ [.ws "          ".data])

/-- Pieces of one enabled physics mode's block. -/
def modePieces (mode : String) (config : PhysicsModeConfig) : List Piece :=
  [.ws "        ".data, .tag ("<" ++ mode ++ ">").data, .ws "          ".data,
   .tag "<ConnectionType>".data, strippedTxt (escapeXml config.connectionType),
   .tag "</ConnectionType>".data, .ws ("                        ".data ++ "          ".data),
   .tag "<uri>".data, strippedTxt (escapeXml config.uri), .tag "</uri>".data,
   .ws "          ".data, .tag "<thrusters>".data] ++
  thrustersRegionPieces 0 config.thrusters ++
  [.tag "</thrusters>".data, .ws "        ".data, .tag ("</" ++ mode ++ ">").data]

/-- Pieces of the physics section. -/
def physPieces (cfg : VesselSpawnConfig) : List Piece :=
  if cfg.physicsEnabled then
    [.ws "      ".data, .tag "<physics_engine_interface>".data] ++
    ((enabledModeNames cfg.physicsModes).map
      (fun mode => modePieces mode (physicsConfigOf cfg mode))).flatten ++
    [.ws "        ".data, .tag "<init_state>".data, strippedTxt (escapeXml cfg.initState),
     .tag "</init_state>".data, .ws "      ".data, .tag "</physics_engine_interface>".data]
  else []

/-- Pieces of the common kinematic limits (without their outer whitespace). -/
def commonLimitsCorePieces (wf : WaypointFollowerState) : List Piece :=
  [.tag "<loop>".data, strippedTxt (jsBool wf.loop), .tag "</loop>".data,
   .ws "      ".data, .tag "<linear_acceleration_limit>".data,
   strippedTxt (jsNum wf.linearAccLimit), .tag "</linear_acceleration_limit>".data,
   .ws "      ".data, .tag "<angular_acceleration_limit>".data,
   strippedTxt (jsNum wf.angularAccLimit), .tag "</angular_acceleration_limit>".data,
   .ws "      ".data, .tag "<angular_velocity_limit>".data,
   strippedTxt (jsNum wf.angularVelLimit), .tag "</angular_velocity_limit>".data]

/-- Pieces of the waypoint elements. -/
def waypointPieces : List WaypointLatLng → List Piece
  | [] => []
  | wp :: rest =>
    .tag "<waypoint>".data :: strippedTxt (jsNum wp.lat ++ " " ++ jsNum wp.lng) ::
      .tag "</waypoint>".data :: waypointPieces rest

/-- Shared opening pieces of every follower. -/
def followerHeadPieces (wf : WaypointFollowerState) : List Piece :=
  [.ws ("        ".data ++ "        ".data), .tag "<follower>".data,
   .ws ("          ".data ++ "      ".data)] ++ commonLimitsCorePieces wf

/-- Pieces of the region between `<waypoint_follower>` and
`</waypoint_follower>` (covering the joined follower list and the surrounding
template whitespace). -/
def wfInnerPieces (wf : WaypointFollowerState) : List Piece :=
  if wf.mode = "waypoints" ∧ wf.waypoints.length > 0 then
    followerHeadPieces wf ++
      [.ws ("    ".data ++ "          ".data), .tag "<waypoints>".data, .ws "            ".data] ++
      waypointPieces wf.waypoints ++
      [.ws "          ".data, .tag "</waypoints>".data, .ws "        ".data,
       .tag "</follower>".data, .ws "      ".data]
  else if wf.mode = "line" then
    followerHeadPieces wf ++
      [.ws ("    ".data ++ "          ".data), .tag "<line>".data, .ws "            ".data,
       .tag "<direction>".data, strippedTxt (jsNum wf.line.direction), .tag "</direction>".data,
       .ws "            ".data, .tag "<length>".data, strippedTxt (jsNum wf.line.length),
       .tag "</length>".data, .ws "          ".data, .tag "</line>".data, .ws "        ".data,
       .tag "</follower>".data, .ws "      ".data]
  else if wf.mode = "circle" then
    followerHeadPieces wf ++
      [.ws ("    ".data ++ "          ".data), .tag "<circle>".data, .ws "            ".data,
       .tag "<radius>".data, strippedTxt (jsNum wf.circle.radius), .tag "</radius>".data,
       .ws "          ".data, .tag "</circle>".data, .ws "        ".data,
       .tag "</follower>".data, .ws "      ".data]
  else [.ws ("        ".data ++ "      ".data)]

/-- Pieces of the waypoint-follower section. -/
def wfPieces (cfg : VesselSpawnConfig) : List Piece :=
  if cfg.waypointFollower.enabled then
    [.ws "      ".data, .tag "<waypoint_follower>".data] ++
      wfInnerPieces cfg.waypointFollower ++ [.tag "</waypoint_follower>".data]
  else []

/-- Pieces of the document body following the root opening tag. -/
def bodyPieces (cfg : VesselSpawnConfig) : List Piece :=
  renderPieces cfg ++ physPieces cfg ++ wfPieces cfg ++ [.tag "</lotus_param>".data]

/-- Number of occurrences of the pattern `p` in `l` (positions at which `p` is
a prefix of the remaining suffix). -/
def countOcc (p : List Char) : List Char → ℕ
  | [] => if p.isPrefixOf ([] : List Char) then 1 else 0
  | c :: t => (if p.isPrefixOf (c :: t) then 1 else 0) + countOcc p t

/-- Discriminator for the follower opening tag among document pieces. -/
def isFolTag : Piece → Bool
  | .tag s => decide (s = ("<follower>").data)
  | .ws _ => false
  | .txt _ => false

/-- A character list in which the five XML-reserved characters occur only as
the leading ampersand of a complete escape sequence. -/
inductive EscapedOk : List Char → Prop where
  | nil : EscapedOk []
  | safe (c : Char) (t : List Char) : c ≠ '&' → c ≠ '<' → c ≠ '>' → c ≠ '"' → c ≠ '\'' →
      EscapedOk t → EscapedOk (c :: t)
  | amp (t : List Char) : EscapedOk t → EscapedOk ('&' :: 'a' :: 'm' :: 'p' :: ';' :: t)
  | lt (t : List Char) : EscapedOk t → EscapedOk ('&' :: 'l' :: 't' :: ';' :: t)
  | gt (t : List Char) : EscapedOk t → EscapedOk ('&' :: 'g' :: 't' :: ';' :: t)
  | quot (t : List Char) : EscapedOk t → EscapedOk ('&' :: 'q' :: 'u' :: 'o' :: 't' :: ';' :: t)
  | apos (t : List Char) : EscapedOk t → EscapedOk ('&' :: 'a' :: 'p' :: 'o' :: 's' :: ';' :: t)

/-- Per-character escape map; the chained global replaces of `escapeXml`
amount to mapping this over the string. -/
def escChar (c : Char) : List Char :=
  if c = '&' then "&amp;".data
  else if c = '<' then "&lt;".data
  else if c = '>' then "&gt;".data
  else if c = '"' then "&quot;".data
  else if c = '\'' then "&apos;".data
  else [c]

/-- Character-list form of the escape map. -/
def escList : List Char → List Char
  | [] => []
  | c :: t => escChar c ++ escList t

/-- No-adjacent-whitespace predicate (no run of length ≥ 2). -/
def NoWW : List Char → Prop
  | [] => True
  | [_] => True
  | a :: b :: t => ¬(jsWs a = true ∧ jsWs b = true) ∧ NoWW (b :: t)

/-- No `>\s+<` match begins right here. -/
def NoStart (t : List Char) : Prop :=
  ¬(t.takeWhile jsWs ≠ [] ∧ (t.dropWhile jsWs).head? = some '<')

/-- No `>\s+<` match anywhere. -/
def NoMatch : List Char → Prop
  | [] => True
  | c :: t => (c = '>' → NoStart t) ∧ NoMatch t

/-- Free of carriage control characters (output invariant of the first
normalization step). -/
def NoNlTab (l : List Char) : Prop := ∀ c ∈ l, isNlTab c = false

/-- A JavaScript value as delivered by `JSON.parse` (with `undefined` for
missing properties). -/
inductive JsValue where
  | undefv : JsValue
  | nullv : JsValue
  | boolv : Bool → JsValue
  | numv : ℚ → JsValue
  | strv : String → JsValue
  | arr : List JsValue → JsValue
  | obj : List (String × JsValue) → JsValue

/-- JavaScript truthiness (rationals model the numbers reachable here; the
only falsy number is 0). -/
def truthy : JsValue → Bool
  | .undefv => false
  | .nullv => false
  | .boolv b => b
  | .numv q => decide (q ≠ 0)
  | .strv s => decide (s ≠ "")
  | .arr _ => true
  | .obj _ => true

/-- Property access `item.key`: throws (models the TypeError) on `null` and
`undefined`, yields the field on objects, and `undefined` on other primitives
and arrays. -/
def getProp : JsValue → String → Except Unit JsValue
  | .undefv, _ => .error ()
  | .nullv, _ => .error ()
  | .obj fields, key => .ok ((fields.lookup key).getD .undefv)
  | _, _ => .ok .undefv

/-- Evaluation of `item.vessel_name && item.pose` under truthiness, including
its exception behavior and short-circuiting. -/
def elemOk (item : JsValue) : Except Unit Bool := do
  let vn ← getProp item "vessel_name"
  if truthy vn then do
    let p ← getProp item "pose"
    pure (truthy p)
  else pure false

/-- Evaluation of `data.every(item => item.vessel_name && item.pose)`:
short-circuits on the first falsy element, propagates a thrown access. -/
def everyOk : List JsValue → Except Unit Bool
  | [] => .ok true
  | item :: rest =>
    match elemOk item with
    | .error e => .error e
    | .ok true => everyOk rest
    | .ok false => .ok false

/-- An inbound WebSocket message: either not valid JSON (so `JSON.parse`
throws) or a parsed value. -/
inductive InMessage where
  | malformed : InMessage
  | value : JsValue → InMessage

/-- Observable outcome of `handleMessage`: the batch passed to the registered
callback (if any) and the number of `console.warn` / `console.error`
diagnostics emitted. -/
structure HandleResult where
  callback : Option (List JsValue)
  warns : ℕ
  errors : ℕ

/-- The `handleMessage` handler: parse errors are caught and logged with
`console.error`; a parsed non-array or an array with a falsy element is logged
with `console.warn`; a property access throwing inside `every` is caught by
the same `catch`; only a fully valid array reaches the callback. -/
def handleMessage : InMessage → HandleResult
  | .malformed => ⟨none, 0, 1⟩
  | .value v =>
    match v with
    | .arr elems =>
      match everyOk elems with
      | .ok true => ⟨some elems, 0, 0⟩
      | .ok false => ⟨none, 1, 0⟩
      | .error _ => ⟨none, 0, 1⟩
    | _ => ⟨none, 1, 0⟩

/-- Spec-side validity of one element, following the claim's words: the
element has a truthy `vessel_name` and a truthy `pose` field. -/
def hasTruthyField (item : JsValue) (key : String) : Bool :=
  match item with
  | .obj fields => truthy ((fields.lookup key).getD .undefv)
  | _ => false

/-- Spec-side validity of a message, following the claim's words: it parses to
an array in which every element has a truthy `vessel_name` and a truthy `pose`
field. -/
def specValidMessage : InMessage → Bool
  | .value (.arr elems) =>
    elems.all (fun item => hasTruthyField item "vessel_name" && hasTruthyField item "pose")
  | _ => false

/-- The parsed batch of a message (empty for non-batches; only used under
validity). -/
def batchOf : InMessage → List JsValue
  | .value (.arr elems) => elems
  | _ => []

/-- The batch displayed after handling a message, given the previously
delivered batch. -/
def deliveredAfter (prev : List JsValue) (r : HandleResult) : List JsValue :=
  match r.callback with
  | some batch => batch
  | none => prev

/-- The underlying browser WebSocket object; `close()` marks it closed but the
object itself persists. -/
structure WsConn where
  closed : Bool
  deriving DecidableEq

/-- The `WebSocketClient` instance state: its private `ws` field, `null` until
the first `connect()`. -/
structure WSClientState where
  ws : Option WsConn
  deriving DecidableEq

/-- A freshly constructed client. -/
def initialClientState : WSClientState := ⟨none⟩

/-- Observable outcome of one `connect()` call. -/
structure ConnectResult where
  state : WSClientState
  created : Bool
  log : List String
  deriving DecidableEq

/-- The `connect()` method: logs, and if `this.ws` is set, logs again and
returns without touching the state; otherwise creates the WebSocket and
stores it. -/
def connectStep (st : WSClientState) : ConnectResult :=
  if st.ws.isSome then
    ⟨st, false, ["WebSocket connecting.", "WebSocket is already connected."]⟩
  else
    ⟨⟨some ⟨false⟩⟩, true, ["WebSocket connecting."]⟩

/-- The `disconnect()` method: closes the connection if present but never
clears the `ws` field. -/
def disconnectStep (st : WSClientState) : WSClientState :=
  match st.ws with
  | some conn => ⟨some { conn with closed := true }⟩
  | none => st

/-- Externally invokable client operations. -/
inductive ClientOp where
  | connect : ClientOp
  | disconnect : ClientOp

/-- One operation step, returning the number of WebSockets created by it. -/
def stepOp (st : WSClientState) : ClientOp → WSClientState × ℕ
  | .connect => ((connectStep st).state, if (connectStep st).created then 1 else 0)
  | .disconnect => (disconnectStep st, 0)

/-- Run a sequence of operations, counting created WebSockets. -/
def runOps : WSClientState → List ClientOp → WSClientState × ℕ
  | st, [] => (st, 0)
  | st, op :: ops =>
    ((runOps (stepOp st op).1 ops).1, (stepOp st op).2 + (runOps (stepOp st op).1 ops).2)

/-- WebSockets created over the lifetime of one client instance by a given
operation sequence. -/
def socketsCreated (ops : List ClientOp) : ℕ := (runOps initialClientState ops).2

/-- The marker component's `getIconSize`: width scales linearly with zoom from
a base size of 0.5, height is the width times the sprite aspect ratio 1.625. -/
def getIconSize (zoomLevel : ℚ) : List ℚ :=
  let baseSize : ℚ := 0.5
  let scaledSize := baseSize + zoomLevel
  [scaledSize, scaledSize * 1.625]

/-- The configuration with the waypoint-follower block disabled and everything
else untouched. -/
def disableWF (cfg : VesselSpawnConfig) : VesselSpawnConfig :=
  { cfg with waypointFollower := { cfg.waypointFollower with enabled := false } }

/-- The rational 1/2, given in normal form so that it is kernel-computable
(the UI default `linearAccLimit`). -/
def rHalf : ℚ := ⟨1, 2, by decide, by decide⟩

/-- The rational 1/200 = 0.005 (the UI default `angularAccLimit`). -/
def rAcc : ℚ := ⟨1, 200, by decide, by decide⟩

/-- The rational 1/100 = 0.01 (the UI default `angularVelLimit`). -/
def rVel : ℚ := ⟨1, 100, by decide, by decide⟩

/-- The rational 0 in normal form. -/
def rZero : ℚ := ⟨0, 1, by decide, by decide⟩

/-- The waypoint-follower state as initialized by the dialog. -/
def defaultWF : WaypointFollowerState :=
  ⟨false, true, rHalf, rAcc, rVel, "", [], ⟨rZero, rZero⟩, ⟨rZero⟩⟩

/-- The spawn configuration as initialized by the dialog: every optional block
disabled, every text field empty. -/
def defaultCfg : VesselSpawnConfig :=
  ⟨false, false, "", false, ⟨false, false, false⟩, ⟨"", "", []⟩, ⟨"", "", []⟩,
    ⟨"", "", []⟩, "", defaultWF⟩

/-- Concrete input for the empty-waypoint-list comparison: follower enabled,
waypoints mode, no waypoints. -/
def emptyWaypointsCfg : VesselSpawnConfig :=
  { defaultCfg with waypointFollower := { defaultWF with enabled := true, mode := "waypoints" } }

/-- Concrete input with the follower enabled but no mode selected. -/
def noModeCfg : VesselSpawnConfig :=
  { defaultCfg with waypointFollower := { defaultWF with enabled := true } }

/-- Concrete input with a thruster name containing a reserved markup
character. -/
def ampThrusterCfg : VesselSpawnConfig :=
  { defaultCfg with
    physicsEnabled := true
    physicsModes := ⟨true, false, false⟩
    aerialConfig := ⟨"TCPIP", "", ["&"]⟩ }

theorem listStrip_append (a b : List Char) :
    listStrip (a ++ b) = listStrip a ++ listStrip b :=
  List.filter_append ..

theorem data_replaceNewlines (s : String) :
    (replaceNewlines s).data = listStrip s.data := rfl

/-- Distribution of the run collapse over an append whose left part ends in a
non-whitespace character. -/
theorem collapseGo_append_last_nonws (u : List Char) (a : Char) (ha : jsWs a = false)
    (v : List Char) (m : CMode) :
    collapseGo m (u ++ a :: v) = collapseGo m (u ++ [a]) ++ collapseGo .norm v := by
  induction u generalizing m with
  | nil => cases m <;> simp [collapseGo, ha]
  | cons c u ih => cases m <;> cases hc : jsWs c <;> simp [collapseGo, hc, ih]

/-- Distribution of the run collapse over an append whose right part starts
with a non-whitespace character. -/
theorem collapseGo_append_head_nonws (u : List Char) (c : Char) (hc : jsWs c = false)
    (v : List Char) (m : CMode) :
    collapseGo m (u ++ c :: v) = collapseGo m u ++ collapseGo .norm (c :: v) := by
  induction u generalizing m with
  | nil => cases m <;> simp [collapseGo, hc]
  | cons d u ih => cases m <;> cases hd : jsWs d <;> simp [collapseGo, hd, ih]

theorem collapseGo_norm_of_no_ws (l : List Char) (h : ∀ c ∈ l, jsWs c = false) :
    collapseGo .norm l = l := by
  induction l with
  | nil => rfl
  | cons c t ih =>
    simp [collapseGo, h c (List.mem_cons_self c t)]
    exact ih fun d hd => h d (List.mem_cons_of_mem c hd)

theorem collapseGo_inRun_all_ws (t : List Char) (h : ∀ c ∈ t, jsWs c = true) :
    collapseGo .inRun t = [] := by
  induction t with
  | nil => rfl
  | cons c t ih =>
    simp [collapseGo, h c (List.mem_cons_self c t)]
    exact ih fun d hd => h d (List.mem_cons_of_mem c hd)

/-- The collapse of an all-whitespace list is empty or a single whitespace
character. -/
theorem collapse_all_ws (w : List Char) (h : ∀ c ∈ w, jsWs c = true) :
    collapse w = [] ∨ ∃ c, jsWs c = true ∧ collapse w = [c] := by
  match w with
  | [] => exact Or.inl rfl
  | [c] =>
    refine Or.inr ⟨c, h c (List.mem_cons_self c []), ?_⟩
    simp [collapse, collapseGo, h c (List.mem_cons_self c [])]
  | c :: d :: t =>
    refine Or.inr ⟨' ', by decide, ?_⟩
    have hc := h c (by simp)
    have hd := h d (by simp)
    simp [collapse, collapseGo, hc, hd]
    exact collapseGo_inRun_all_ws t fun e he => h e (by simp [he])

/-- Characters of the collapse output come from the input, are the replacement
space, or are the pending character of the starting mode. -/
theorem mem_collapseGo (m : CMode) (l : List Char) (c : Char) (hc : c ∈ collapseGo m l) :
    c ∈ l ∨ c = ' ' ∨ ∃ w, m = .pend w ∧ c = w := by
  induction l generalizing m with
  | nil =>
    cases m with
    | norm => simp [collapseGo] at hc
    | pend w => simp [collapseGo] at hc; exact Or.inr (Or.inr ⟨w, rfl, hc⟩)
    | inRun => simp [collapseGo] at hc
  | cons d t ih =>
    cases m with
    | norm =>
      by_cases hd : jsWs d = true
      · simp [collapseGo, hd] at hc
        rcases ih _ hc with h | h | ⟨w, hw, rfl⟩
        · exact Or.inl (List.mem_cons_of_mem d h)
        · exact Or.inr (Or.inl h)
        · cases hw; exact Or.inl (List.mem_cons_self _ _)
      · simp [collapseGo, hd] at hc
        rcases hc with rfl | hc
        · exact Or.inl (List.mem_cons_self _ _)
        · rcases ih _ hc with h | h | ⟨w, hw, rfl⟩
          · exact Or.inl (List.mem_cons_of_mem d h)
          · exact Or.inr (Or.inl h)
          · cases hw
    | pend w =>
      by_cases hd : jsWs d = true
      · simp [collapseGo, hd] at hc
        rcases hc with rfl | hc
        · exact Or.inr (Or.inl rfl)
        · rcases ih _ hc with h | h | ⟨w', hw, rfl⟩
          · exact Or.inl (List.mem_cons_of_mem d h)
          · exact Or.inr (Or.inl h)
          · cases hw
      · simp [collapseGo, hd] at hc
        rcases hc with rfl | rfl | hc
        · exact Or.inr (Or.inr ⟨c, rfl, rfl⟩)
        · exact Or.inl (List.mem_cons_self _ _)
        · rcases ih _ hc with h | h | ⟨w', hw, rfl⟩
          · exact Or.inl (List.mem_cons_of_mem d h)
          · exact Or.inr (Or.inl h)
          · cases hw
    | inRun =>
      by_cases hd : jsWs d = true
      · simp [collapseGo, hd] at hc
        rcases ih _ hc with h | h | ⟨w', hw, rfl⟩
        · exact Or.inl (List.mem_cons_of_mem d h)
        · exact Or.inr (Or.inl h)
        · cases hw
      · simp [collapseGo, hd] at hc
        rcases hc with rfl | hc
        · exact Or.inl (List.mem_cons_self _ _)
        · rcases ih _ hc with h | h | ⟨w', hw, rfl⟩
          · exact Or.inl (List.mem_cons_of_mem d h)
          · exact Or.inr (Or.inl h)
          · cases hw

/-- Non-whitespace characters survive the collapse. -/
theorem mem_collapseGo_of_nonws (l : List Char) (c : Char) (hc : c ∈ l)
    (hws : jsWs c = false) (m : CMode) : c ∈ collapseGo m l := by
  induction l generalizing m with
  | nil => cases hc
  | cons d t ih =>
    rcases List.mem_cons.mp hc with rfl | hmem
    · cases m <;> simp [collapseGo, hws]
    · cases m <;> by_cases hd : jsWs d = true <;>
        simp [collapseGo, hd] <;> first
          | exact Or.inr (Or.inr (ih hmem _))
          | exact Or.inr (ih hmem _)
          | exact ih hmem _

theorem jsWs_of_plainChar {c : Char} (h : plainChar c = true) : jsWs c = false := by
  simp [plainChar] at h
  exact h.2

theorem ne_lt_of_plainChar {c : Char} (h : plainChar c = true) : ¬ c = '<' := by
  simp [plainChar] at h
  exact h.1.1

theorem ne_gt_of_plainChar {c : Char} (h : plainChar c = true) : ¬ c = '>' := by
  simp [plainChar] at h
  exact h.1.2

/-- Characters other than `>` pass through the tag-gap scanner unchanged. -/
theorem tagJoinGo_norm_append_no_gt (w : List Char) (h : ∀ c ∈ w, ¬ c = '>') (z : List Char) :
    tagJoinGo .norm (w ++ z) = w ++ tagJoinGo .norm z := by
  induction w with
  | nil => rfl
  | cons c w ih =>
    simp only [List.cons_append]
    rw [tagJoinGo, if_neg (h c (List.mem_cons_self c w))]
    rw [ih fun d hd => h d (List.mem_cons_of_mem c hd)]

/-- Whitespace after a pending `>` is buffered. -/
theorem tagJoinGo_gt_append_ws (w : List Char) (h : ∀ c ∈ w, jsWs c = true)
    (acc z : List Char) :
    tagJoinGo (.gt acc) (w ++ z) = tagJoinGo (.gt (w.reverse ++ acc)) z := by
  induction w generalizing acc with
  | nil => rfl
  | cons c w ih =>
    simp only [List.cons_append]
    rw [tagJoinGo, if_pos (h c (List.mem_cons_self c w))]
    rw [ih (fun d hd => h d (List.mem_cons_of_mem c hd)) (c :: acc)]
    simp

/-- A `<` resolves a pending `>`: buffered whitespace (if any) is the match and
is dropped; with no buffered whitespace there is no match and the two
characters are emitted as they stand.  Both cases produce `><`. -/
theorem tagJoinGo_gt_lt (acc X : List Char) :
    tagJoinGo (.gt acc) ('<' :: X) = '>' :: '<' :: tagJoinGo .norm X := by
  rw [tagJoinGo, if_neg (by decide), if_pos rfl]

theorem tagJoinGo_norm_gtChar (X : List Char) :
    tagJoinGo .norm ('>' :: X) = tagJoinGo (.gt []) X := by
  rw [tagJoinGo, if_pos rfl]

theorem tagJoinGo_norm_lt (X : List Char) :
    tagJoinGo .norm ('<' :: X) = '<' :: tagJoinGo .norm X := by
  rw [tagJoinGo, if_neg (by decide)]

/-- A pending `>` resolved by an ordinary character: everything buffered is
emitted verbatim. -/
theorem tagJoinGo_gt_other (acc : List Char) (d : Char) (t : List Char)
    (h1 : jsWs d = false) (h2 : ¬ d = '<') (h3 : ¬ d = '>') :
    tagJoinGo (.gt acc) (d :: t) = '>' :: acc.reverse ++ d :: tagJoinGo .norm t := by
  rw [tagJoinGo, if_neg (by simp [h1]), if_neg h2, if_neg h3]

theorem headIsTag_elim {ps : List Piece} (h2 : HeadIsTag ps) :
    ∃ s ps', ps = .tag s :: ps' := by
  match ps with
  | [] => exact h2.elim
  | .tag s :: ps' => exact ⟨s, ps', rfl⟩
  | .ws _ :: _ => exact h2.elim
  | .txt _ :: _ => exact h2.elim

theorem flatPieces_cons (p : Piece) (ps : List Piece) :
    flatPieces (p :: ps) = pieceRaw p ++ flatPieces ps := by
  simp [flatPieces]

theorem flatPieces_head (ps : List Piece) (h : VTailGo ps) (h2 : HeadIsTag ps) :
    ∃ Y, flatPieces ps = '<' :: Y := by
  obtain ⟨s, ps', rfl⟩ := headIsTag_elim h2
  have h' : TagOk s ∧ VTailGo ps' := h
  obtain ⟨mid, rfl, -⟩ := h'.1
  exact ⟨mid ++ ['>'] ++ flatPieces ps', by simp [flatPieces, pieceRaw]⟩

theorem flatC_head (ps : List Piece) (h : VTailGo ps) (h2 : HeadIsTag ps) :
    ∃ Y, (ps.map cPiece).flatten = '<' :: Y := by
  obtain ⟨s, ps', rfl⟩ := headIsTag_elim h2
  have h' : TagOk s ∧ VTailGo ps' := h
  obtain ⟨mid, rfl, -⟩ := h'.1
  exact ⟨mid ++ ['>'] ++ (ps'.map cPiece).flatten, by simp [cPiece]⟩

/-- The whitespace-run collapse acts piecewise on a well-formed document tail. -/
theorem collapse_pieces (ps : List Piece) (h : VTailGo ps) :
    collapse (flatPieces ps) = (ps.map cPiece).flatten := by
  induction ps with
  | nil => rfl
  | cons p ps ih =>
    match p with
    | .tag s =>
      have h' : TagOk s ∧ VTailGo ps := h
      obtain ⟨⟨mid, rfl, hmid⟩, hps⟩ := h'
      have hws : ∀ c ∈ '<' :: mid ++ ['>'], jsWs c = false := by
        intro c hc
        rcases List.mem_cons.mp hc with rfl | hc'
        · decide
        · rcases List.mem_append.mp hc' with hc'' | hc''
          · exact jsWs_of_plainChar (hmid c hc'')
          · simp at hc''; subst hc''; decide
      have hflat : flatPieces (Piece.tag ('<' :: mid ++ ['>']) :: ps) =
          ('<' :: mid) ++ '>' :: flatPieces ps := by
        rw [flatPieces_cons]; simp [pieceRaw]
      rw [hflat]
      show collapseGo .norm (('<' :: mid) ++ '>' :: flatPieces ps) = _
      rw [collapseGo_append_last_nonws ('<' :: mid) '>' (by decide) (flatPieces ps) .norm]
      rw [show (('<' :: mid) ++ ['>'] : List Char) = '<' :: mid ++ ['>'] from by simp]
      rw [collapseGo_norm_of_no_ws ('<' :: mid ++ ['>']) hws]
      rw [show collapseGo CMode.norm (flatPieces ps) = collapse (flatPieces ps) from rfl,
        ih hps]
      simp [cPiece]
    | .ws w =>
      have h' : WsOk w ∧ HeadIsTag ps ∧ VTailGo ps := h
      obtain ⟨hw, hh, hps⟩ := h'
      obtain ⟨Y, hY⟩ := flatPieces_head ps hps hh
      rw [flatPieces_cons]
      show collapseGo .norm (w ++ flatPieces ps) = _
      rw [hY]
      rw [collapseGo_append_head_nonws w '<' (by decide) Y .norm]
      rw [show ('<' :: Y) = flatPieces ps from hY.symm]
      rw [show collapseGo CMode.norm (flatPieces ps) = collapse (flatPieces ps) from rfl, ih hps]
      simp [cPiece, collapse, pieceRaw]
    | .txt x =>
      have h' : TxtOk x ∧ HeadIsTag ps ∧ VTailGo ps := h
      obtain ⟨hx, hh, hps⟩ := h'
      obtain ⟨Y, hY⟩ := flatPieces_head ps hps hh
      rw [flatPieces_cons]
      show collapseGo .norm (x ++ flatPieces ps) = _
      rw [hY]
      rw [collapseGo_append_head_nonws x '<' (by decide) Y .norm]
      rw [show ('<' :: Y) = flatPieces ps from hY.symm]
      rw [show collapseGo CMode.norm (flatPieces ps) = collapse (flatPieces ps) from rfl, ih hps]
      simp [cPiece, collapse, pieceRaw]

/-- The tag-gap replacement acts piecewise on a collapsed well-formed document
tail read from a pending `>`. -/
theorem tagJoin_pieces (ps : List Piece) (h : VTailGo ps) :
    tagJoinGo (.gt []) ((ps.map cPiece).flatten) = '>' :: (ps.map tjPiece).flatten := by
  induction ps with
  | nil => rfl
  | cons p ps ih =>
    match p with
    | .tag s =>
      have h' : TagOk s ∧ VTailGo ps := h
      obtain ⟨⟨mid, rfl, hmid⟩, hps⟩ := h'
      have hflat : ((Piece.tag ('<' :: mid ++ ['>']) :: ps).map cPiece).flatten =
          '<' :: (mid ++ '>' :: (ps.map cPiece).flatten) := by
        simp [cPiece]
      rw [hflat, tagJoinGo_gt_lt]
      rw [tagJoinGo_norm_append_no_gt mid (fun c hc => ne_gt_of_plainChar (hmid c hc))]
      rw [tagJoinGo_norm_gtChar, ih hps]
      simp [tjPiece]
    | .ws w =>
      have h' : WsOk w ∧ HeadIsTag ps ∧ VTailGo ps := h
      obtain ⟨hw, hh, hps⟩ := h'
      have hall : ∀ c ∈ collapse w, jsWs c = true := by
        intro c hc
        rcases mem_collapseGo _ _ _ hc with h1 | h1 | ⟨w', hw', -⟩
        · exact hw c h1
        · subst h1; decide
        · cases hw'
      have hflat : ((Piece.ws w :: ps).map cPiece).flatten =
          collapse w ++ (ps.map cPiece).flatten := by simp [cPiece]
      rw [hflat, tagJoinGo_gt_append_ws (collapse w) hall [] _]
      obtain ⟨Y, hY⟩ := flatC_head ps hps hh
      rw [hY, tagJoinGo_gt_lt]
      rw [show ('>' :: '<' :: tagJoinGo .norm Y : List Char) = tagJoinGo (.gt []) ('<' :: Y) from
        (tagJoinGo_gt_lt [] Y).symm]
      rw [← hY, ih hps]
      simp [tjPiece]
    | .txt x =>
      have h' : TxtOk x ∧ HeadIsTag ps ∧ VTailGo ps := h
      obtain ⟨hx, hh, hps⟩ := h'
      have hflat : ((Piece.txt x :: ps).map cPiece).flatten =
          collapse x ++ (ps.map cPiece).flatten := by simp [cPiece]
      rw [hflat]
      have hnb : ∀ c ∈ collapse x, ¬ c = '<' ∧ ¬ c = '>' := by
        intro c hc
        rcases mem_collapseGo _ _ _ hc with h1 | h1 | ⟨w', hw', -⟩
        · exact hx c h1
        · subst h1; exact ⟨by decide, by decide⟩
        · cases hw'
      obtain ⟨Y, hY⟩ := flatC_head ps hps hh
      by_cases hall : (collapse x).all jsWs = true
      · have hallWs : ∀ c ∈ collapse x, jsWs c = true :=
          fun c hc => List.all_eq_true.mp hall c hc
        rw [tagJoinGo_gt_append_ws (collapse x) hallWs [] _]
        rw [hY, tagJoinGo_gt_lt]
        rw [show ('>' :: '<' :: tagJoinGo .norm Y : List Char) = tagJoinGo (.gt []) ('<' :: Y)
          from (tagJoinGo_gt_lt [] Y).symm]
        rw [← hY, ih hps]
        simp [tjPiece, hall]
      · have hsplit := List.takeWhile_append_dropWhile (p := jsWs) (l := collapse x)
        have hdrop : (collapse x).dropWhile jsWs ≠ [] := by
          intro hnil
          refine hall (List.all_eq_true.mpr ?_)
          intro c hc
          rcases List.mem_append.mp (by rw [hsplit]; exact hc :
              c ∈ (collapse x).takeWhile jsWs ++ (collapse x).dropWhile jsWs) with h1 | h1
          · exact List.mem_takeWhile_imp h1
          · rw [hnil] at h1; cases h1
        obtain ⟨d, rest, hd⟩ := List.exists_cons_of_ne_nil hdrop
        have hdws : jsWs d = false := by
          have h0 := List.head?_dropWhile_not jsWs (collapse x)
          rw [hd] at h0
          simpa using h0
        have hpres : ∀ c ∈ (collapse x).takeWhile jsWs, jsWs c = true :=
          fun c hc => List.mem_takeWhile_imp hc
        have hcx : collapse x = (collapse x).takeWhile jsWs ++ d :: rest := by
          conv_lhs => rw [← hsplit, hd]
        have hmemd : d ∈ collapse x := by rw [hcx]; simp
        have hmemrest : ∀ c ∈ rest, c ∈ collapse x := by
          intro c hc; rw [hcx]; simp [hc]
        have hdecomp : collapse x ++ (ps.map cPiece).flatten =
            (collapse x).takeWhile jsWs ++ (d :: (rest ++ (ps.map cPiece).flatten)) := by
          conv_lhs => rw [hcx]
          simp
        rw [hdecomp, tagJoinGo_gt_append_ws _ hpres [] _]
        rw [tagJoinGo_gt_other _ d _ hdws (hnb d hmemd).1 (hnb d hmemd).2]
        rw [tagJoinGo_norm_append_no_gt rest (fun c hc => (hnb c (hmemrest c hc)).2)]
        have hnormps : tagJoinGo .norm ((ps.map cPiece).flatten) = (ps.map tjPiece).flatten := by
          have h1 := ih hps
          rw [hY, tagJoinGo_gt_lt] at h1
          have h2 : '<' :: tagJoinGo .norm Y = (ps.map tjPiece).flatten := by
            injection h1
          rw [hY, tagJoinGo_norm_lt, h2]
        rw [hnormps]
        have htj : tjPiece (Piece.txt x) = collapse x := by simp [tjPiece, hall]
        simp only [List.map_cons, List.flatten_cons, htj]
        conv_rhs => rw [hcx]
        simp

theorem tagOk_mk (mid : List Char) (hmid : mid.all plainChar = true) :
    TagOk ('<' :: mid ++ ['>']) :=
  ⟨mid, rfl, fun c hc => List.all_eq_true.mp hmid c hc⟩

theorem tagOk_of_check {s : List Char} (h : tagOkCheck s = true) : TagOk s := by
  match s with
  | [] => simp [tagOkCheck] at h
  | [c] => simp [tagOkCheck] at h
  | c0 :: c :: rest =>
    simp only [tagOkCheck, Bool.and_eq_true, beq_iff_eq] at h
    obtain ⟨⟨hc0, hall⟩, hlast⟩ := h
    subst hc0
    have hne : (c :: rest) ≠ [] := by simp
    have hlast' : (c :: rest).getLast hne = '>' := by
      have := List.getLast?_eq_getLast (c :: rest) hne
      rw [this] at hlast
      injection hlast
    refine ⟨(c :: rest).dropLast, ?_, fun d hd => List.all_eq_true.mp hall d hd⟩
    have hdecomp : (c :: rest).dropLast ++ [(c :: rest).getLast hne] = c :: rest :=
      List.dropLast_append_getLast hne
    rw [hlast'] at hdecomp
    simp only [List.cons_append]
    rw [hdecomp]
theorem tagOk_open_render_interface : TagOk ("<render_interface>").data := tagOk_of_check (by decide)

theorem tagOk_close_render_interface : TagOk ("</render_interface>").data := tagOk_of_check (by decide)

theorem tagOk_open_publish_render : TagOk ("<publish_render>").data := tagOk_of_check (by decide)

theorem tagOk_close_publish_render : TagOk ("</publish_render>").data := tagOk_of_check (by decide)

theorem tagOk_open_renderer_type_name : TagOk ("<renderer_type_name>").data := tagOk_of_check (by decide)

theorem tagOk_close_renderer_type_name : TagOk ("</renderer_type_name>").data := tagOk_of_check (by decide)

theorem tagOk_open_physics_engine_interface : TagOk ("<physics_engine_interface>").data := tagOk_of_check (by decide)

theorem tagOk_close_physics_engine_interface : TagOk ("</physics_engine_interface>").data := tagOk_of_check (by decide)

theorem tagOk_open_init_state : TagOk ("<init_state>").data := tagOk_of_check (by decide)

theorem tagOk_close_init_state : TagOk ("</init_state>").data := tagOk_of_check (by decide)

theorem tagOk_open_ConnectionType : TagOk ("<ConnectionType>").data := tagOk_of_check (by decide)

theorem tagOk_close_ConnectionType : TagOk ("</ConnectionType>").data := tagOk_of_check (by decide)

theorem tagOk_open_uri : TagOk ("<uri>").data := tagOk_of_check (by decide)

theorem tagOk_close_uri : TagOk ("</uri>").data := tagOk_of_check (by decide)

theorem tagOk_open_thrusters : TagOk ("<thrusters>").data := tagOk_of_check (by decide)

theorem tagOk_close_thrusters : TagOk ("</thrusters>").data := tagOk_of_check (by decide)

theorem tagOk_open_waypoint_follower : TagOk ("<waypoint_follower>").data := tagOk_of_check (by decide)

theorem tagOk_close_waypoint_follower : TagOk ("</waypoint_follower>").data := tagOk_of_check (by decide)

theorem tagOk_open_follower : TagOk ("<follower>").data := tagOk_of_check (by decide)

theorem tagOk_close_follower : TagOk ("</follower>").data := tagOk_of_check (by decide)

theorem tagOk_open_loop : TagOk ("<loop>").data := tagOk_of_check (by decide)

theorem tagOk_close_loop : TagOk ("</loop>").data := tagOk_of_check (by decide)

theorem tagOk_open_linear_acceleration_limit : TagOk ("<linear_acceleration_limit>").data := tagOk_of_check (by decide)

theorem tagOk_close_linear_acceleration_limit : TagOk ("</linear_acceleration_limit>").data := tagOk_of_check (by decide)

theorem tagOk_open_angular_acceleration_limit : TagOk ("<angular_acceleration_limit>").data := tagOk_of_check (by decide)

theorem tagOk_close_angular_acceleration_limit : TagOk ("</angular_acceleration_limit>").data := tagOk_of_check (by decide)

theorem tagOk_open_angular_velocity_limit : TagOk ("<angular_velocity_limit>").data := tagOk_of_check (by decide)

theorem tagOk_close_angular_velocity_limit : TagOk ("</angular_velocity_limit>").data := tagOk_of_check (by decide)

theorem tagOk_open_waypoints : TagOk ("<waypoints>").data := tagOk_of_check (by decide)

theorem tagOk_close_waypoints : TagOk ("</waypoints>").data := tagOk_of_check (by decide)

theorem tagOk_open_waypoint : TagOk ("<waypoint>").data := tagOk_of_check (by decide)

theorem tagOk_close_waypoint : TagOk ("</waypoint>").data := tagOk_of_check (by decide)

theorem tagOk_open_line : TagOk ("<line>").data := tagOk_of_check (by decide)

theorem tagOk_close_line : TagOk ("</line>").data := tagOk_of_check (by decide)

theorem tagOk_open_direction : TagOk ("<direction>").data := tagOk_of_check (by decide)

theorem tagOk_close_direction : TagOk ("</direction>").data := tagOk_of_check (by decide)

theorem tagOk_open_length : TagOk ("<length>").data := tagOk_of_check (by decide)

theorem tagOk_close_length : TagOk ("</length>").data := tagOk_of_check (by decide)

theorem tagOk_open_circle : TagOk ("<circle>").data := tagOk_of_check (by decide)

theorem tagOk_close_circle : TagOk ("</circle>").data := tagOk_of_check (by decide)

theorem tagOk_open_radius : TagOk ("<radius>").data := tagOk_of_check (by decide)

theorem tagOk_close_radius : TagOk ("</radius>").data := tagOk_of_check (by decide)

theorem tagOk_open_lotus_param : TagOk ("<lotus_param>").data := tagOk_of_check (by decide)

theorem tagOk_close_lotus_param : TagOk ("</lotus_param>").data := tagOk_of_check (by decide)

theorem tagOk_open_aerial : TagOk ("<aerial>").data := tagOk_of_check (by decide)

theorem tagOk_close_aerial : TagOk ("</aerial>").data := tagOk_of_check (by decide)

theorem tagOk_open_surface : TagOk ("<surface>").data := tagOk_of_check (by decide)

theorem tagOk_close_surface : TagOk ("</surface>").data := tagOk_of_check (by decide)

theorem tagOk_open_underwater : TagOk ("<underwater>").data := tagOk_of_check (by decide)

theorem tagOk_close_underwater : TagOk ("</underwater>").data := tagOk_of_check (by decide)

theorem digitChar_mem (m : ℕ) (h : m < 10) : Nat.digitChar m ∈ ("0123456789").data := by
  interval_cases m <;> decide

theorem mem_natDigitsGo (fuel n : ℕ) :
    ∀ c ∈ natDigitsGo fuel n, c ∈ ("0123456789").data := by
  induction fuel generalizing n with
  | zero => intro c hc; cases hc
  | succ fuel ih =>
    intro c hc
    rw [natDigitsGo] at hc
    by_cases hn : n < 10
    · rw [if_pos hn] at hc
      simp at hc
      subst hc
      exact digitChar_mem n hn
    · rw [if_neg hn] at hc
      rcases List.mem_append.mp hc with hc' | hc'
      · exact ih (n / 10) c hc'
      · simp at hc'
        subst hc'
        exact digitChar_mem (n % 10) (Nat.mod_lt n (by norm_num))

theorem mem_natDigits (n : ℕ) : ∀ c ∈ natDigits n, c ∈ ("0123456789").data :=
  mem_natDigitsGo (n + 1) n

theorem natDigits_ne_nil (n : ℕ) : natDigits n ≠ [] := by
  unfold natDigits natDigitsGo
  by_cases hn : n < 10
  · simp [hn]
  · simp [hn]

theorem mem_fracDigitsGo (fuel r den : ℕ) (hden : 0 < den) (hr : r < den) :
    ∀ c ∈ fracDigitsGo fuel r den, c ∈ ("0123456789").data := by
  induction fuel generalizing r with
  | zero => intro c hc; cases hc
  | succ fuel ih =>
    intro c hc
    rw [fracDigitsGo] at hc
    by_cases hr0 : r = 0
    · rw [if_pos hr0] at hc; cases hc
    · rw [if_neg hr0] at hc
      rcases List.mem_cons.mp hc with rfl | hc'
      · refine digitChar_mem _ ?_
        rw [Nat.div_lt_iff_lt_mul hden]
        omega
      · exact ih (r * 10 % den) (Nat.mod_lt _ hden) c hc'

/-- Every character of a rendered number is a digit, the decimal point, or the
minus sign. -/
theorem mem_jsNum (q : ℚ) : ∀ c ∈ (jsNum q).data, c ∈ ("0123456789.-").data := by
  intro c hc
  unfold jsNum at hc
  simp only [String.data_append] at hc
  rcases List.mem_append.mp hc with hc' | hc'
  · rcases List.mem_append.mp hc' with hc'' | hc''
    · by_cases hq : q < 0
      · rw [if_pos hq] at hc''
        simp at hc''
        subst hc''
        decide
      · rw [if_neg hq] at hc''
        cases hc''
    · have hmem := mem_natDigits (q.num.natAbs / q.den) c hc''
      have hsub : ∀ x ∈ ("0123456789").data, x ∈ ("0123456789.-").data := by decide
      exact hsub c hmem
  · by_cases hr : q.num.natAbs % q.den = 0
    · rw [if_pos hr] at hc'
      cases hc'
    · rw [if_neg hr] at hc'
      rw [String.data_append] at hc'
      rcases List.mem_append.mp hc' with hc'' | hc''
      · simp at hc''
        subst hc''
        decide
      · have hden : 0 < q.den := q.pos
        have hmem := mem_fracDigitsGo 20 (q.num.natAbs % q.den) q.den hden
          (Nat.mod_lt _ hden) c hc''
        have hsub : ∀ x ∈ ("0123456789").data, x ∈ ("0123456789.-").data := by decide
        exact hsub c hmem

theorem jsNum_ne_nil (q : ℚ) : (jsNum q).data ≠ [] := by
  unfold jsNum
  simp only [String.data_append]
  intro h
  rcases List.append_eq_nil.mp h with ⟨h1, -⟩
  rcases List.append_eq_nil.mp h1 with ⟨-, h2⟩
  exact natDigits_ne_nil _ h2

theorem mem_jsReplaceChar {c p : Char} {rep s : String}
    (h : c ∈ (jsReplaceChar p rep s).data) : (c ∈ s.data ∧ ¬ c = p) ∨ c ∈ rep.data := by
  simp only [jsReplaceChar] at h
  rcases List.mem_flatMap.mp h with ⟨x, hx, hcx⟩
  by_cases hxp : x = p
  · rw [if_pos hxp] at hcx
    exact Or.inr hcx
  · rw [if_neg hxp] at hcx
    simp at hcx
    subst hcx
    exact Or.inl ⟨hx, hxp⟩

/-- The escaped form of a string contains no markup brackets. -/
theorem escapeXml_no_lt_gt (s : String) :
    ∀ c ∈ (escapeXml s).data, ¬ c = '<' ∧ ¬ c = '>' := by
  intro c hc
  unfold escapeXml at hc
  rcases mem_jsReplaceChar hc with ⟨hc, -⟩ | hc
  · rcases mem_jsReplaceChar hc with ⟨hc, -⟩ | hc
    · rcases mem_jsReplaceChar hc with ⟨hc, hgt⟩ | hc
      · rcases mem_jsReplaceChar hc with ⟨hc, hlt⟩ | hc
        · exact ⟨hlt, hgt⟩
        · exact (by decide : ∀ x ∈ ("&lt;").data, ¬ x = '<' ∧ ¬ x = '>') c hc
      · exact (by decide : ∀ x ∈ ("&gt;").data, ¬ x = '<' ∧ ¬ x = '>') c hc
    · exact (by decide : ∀ x ∈ ("&quot;").data, ¬ x = '<' ∧ ¬ x = '>') c hc
  · exact (by decide : ∀ x ∈ ("&apos;").data, ¬ x = '<' ∧ ¬ x = '>') c hc

theorem txtOk_escape (s : String) : TxtOk (listStrip (escapeXml s).data) := by
  intro c hc
  exact escapeXml_no_lt_gt s c (List.mem_of_mem_filter hc)

theorem txtOk_jsBool (b : Bool) : TxtOk (listStrip (jsBool b).data) := by
  cases b
  · exact (by decide : ∀ x ∈ listStrip (jsBool false).data, ¬ x = '<' ∧ ¬ x = '>')
  · exact (by decide : ∀ x ∈ listStrip (jsBool true).data, ¬ x = '<' ∧ ¬ x = '>')

theorem numChar_safe : ∀ c ∈ ("0123456789.-").data,
    jsWs c = false ∧ isNlTab c = false ∧ ¬ c = '<' ∧ ¬ c = '>' := by
  decide

theorem txtOk_jsNum (q : ℚ) : TxtOk (listStrip (jsNum q).data) := by
  intro c hc
  have := numChar_safe c (mem_jsNum q c (List.mem_of_mem_filter hc))
  exact ⟨this.2.2.1, this.2.2.2⟩

theorem txtOk_pair (a b : ℚ) : TxtOk (listStrip (jsNum a ++ " " ++ jsNum b).data) := by
  intro c hc
  have hc' := List.mem_of_mem_filter hc
  simp only [String.data_append] at hc'
  rcases List.mem_append.mp hc' with hc'' | hc''
  · rcases List.mem_append.mp hc'' with h3 | h3
    · have := numChar_safe c (mem_jsNum a c h3)
      exact ⟨this.2.2.1, this.2.2.2⟩
    · simp at h3
      subst h3
      exact ⟨by decide, by decide⟩
  · have := numChar_safe c (mem_jsNum b c hc'')
    exact ⟨this.2.2.1, this.2.2.2⟩

theorem listStrip_eq_self (l : List Char) (h : ∀ c ∈ l, isNlTab c = false) :
    listStrip l = l := by
  unfold listStrip
  refine List.filter_eq_self.mpr ?_
  intro c hc
  simp [h c hc]

theorem collapseGo_pend_of_no_ws (w : Char) (l : List Char)
    (h : ∀ c ∈ l, jsWs c = false) : collapseGo (.pend w) l = w :: l := by
  cases l with
  | nil => rfl
  | cons c t =>
    rw [collapseGo, if_neg (by simp [h c (List.mem_cons_self c t)])]
    rw [collapseGo_norm_of_no_ws t fun d hd => h d (List.mem_cons_of_mem c hd)]

/-- Content without whitespace or carriage control survives normalization
verbatim. -/
theorem contentNorm_eq_self (s : String) (hws : ∀ c ∈ s.data, jsWs c = false)
    (hnl : ∀ c ∈ s.data, isNlTab c = false) (hne : s.data ≠ []) :
    contentNorm s = s := by
  have hall : (s.data.all jsWs) = false := by
    rcases List.exists_cons_of_ne_nil hne with ⟨c, t, heq⟩
    refine Bool.eq_false_iff.mpr ?_
    intro hall
    have hc : c ∈ s.data := by rw [heq]; exact List.mem_cons_self c t
    have h1 := List.all_eq_true.mp hall c hc
    rw [hws c hc] at h1
    cases h1
  unfold contentNorm
  rw [listStrip_eq_self _ hnl,
    show collapse s.data = s.data from collapseGo_norm_of_no_ws _ hws, hall]
  exact String.ext rfl

theorem contentNorm_jsBool (b : Bool) : contentNorm (jsBool b) = jsBool b := by
  cases b <;> decide

theorem contentNorm_jsNum (q : ℚ) : contentNorm (jsNum q) = jsNum q := by
  refine contentNorm_eq_self _ ?_ ?_ (jsNum_ne_nil q)
  · exact fun c hc => (numChar_safe c (mem_jsNum q c hc)).1
  · exact fun c hc => (numChar_safe c (mem_jsNum q c hc)).2.1

/-- The `lat lng` waypoint payload survives normalization verbatim: both
number renderings are nonempty and whitespace-free, so the single separating
space is not part of any 2-character whitespace run. -/
theorem contentNorm_pair (a b : ℚ) :
    contentNorm (jsNum a ++ " " ++ jsNum b) = jsNum a ++ " " ++ jsNum b := by
  have hdata : (jsNum a ++ " " ++ jsNum b).data = (jsNum a).data ++ ' ' :: (jsNum b).data := by
    simp [String.data_append, show (" " : String).data = [' '] from by decide]
  have hwsA : ∀ c ∈ (jsNum a).data, jsWs c = false :=
    fun c hc => (numChar_safe c (mem_jsNum a c hc)).1
  have hwsB : ∀ c ∈ (jsNum b).data, jsWs c = false :=
    fun c hc => (numChar_safe c (mem_jsNum b c hc)).1
  have hnl : ∀ c ∈ (jsNum a).data ++ ' ' :: (jsNum b).data, isNlTab c = false := by
    intro c hc
    rcases List.mem_append.mp hc with h1 | h1
    · exact (numChar_safe c (mem_jsNum a c h1)).2.1
    · rcases List.mem_cons.mp h1 with rfl | h2
      · decide
      · exact (numChar_safe c (mem_jsNum b c h2)).2.1
  rcases List.eq_nil_or_concat (jsNum a).data with hnil | ⟨u, la, hu⟩
  · exact absurd hnil (jsNum_ne_nil a)
  rw [List.concat_eq_append] at hu
  have hla : jsWs la = false := hwsA la (by rw [hu]; simp)
  have hcol : collapse ((jsNum a).data ++ ' ' :: (jsNum b).data) =
      (jsNum a).data ++ ' ' :: (jsNum b).data := by
    rw [hu]
    rw [show (u ++ [la]) ++ ' ' :: (jsNum b).data = u ++ la :: (' ' :: (jsNum b).data) from by
      simp]
    show collapseGo .norm _ = _
    rw [collapseGo_append_last_nonws u la hla (' ' :: (jsNum b).data) .norm]
    rw [show collapseGo CMode.norm (u ++ [la]) = collapse (u ++ [la]) from rfl, ← hu]
    rw [show collapse (jsNum a).data = (jsNum a).data from collapseGo_norm_of_no_ws _ hwsA]
    rw [show collapseGo CMode.norm (' ' :: (jsNum b).data) =
      collapseGo (.pend ' ') (jsNum b).data from by rw [collapseGo, if_pos (by decide)]]
    rw [collapseGo_pend_of_no_ws ' ' _ hwsB]
    simp [hu]
  have hall : (((jsNum a).data ++ ' ' :: (jsNum b).data).all jsWs) = false := by
    refine Bool.eq_false_iff.mpr ?_
    intro hall
    have hmem : la ∈ (jsNum a).data ++ ' ' :: (jsNum b).data := by
      rw [hu]; simp
    have h1 := List.all_eq_true.mp hall la hmem
    rw [hla] at h1
    cases h1
  unfold contentNorm
  rw [hdata, listStrip_eq_self _ hnl, hcol, hall]
  apply String.ext
  simp [hdata]

theorem strip_nlsp4 : listStrip ['\n', ' ', ' ', ' ', ' '] = [' ', ' ', ' ', ' '] := by decide

theorem strip_nlsp6 : listStrip ['\n', ' ', ' ', ' ', ' ', ' ', ' '] = [' ', ' ', ' ', ' ', ' ', ' '] := by decide

theorem strip_nlsp8 : listStrip ['\n', ' ', ' ', ' ', ' ', ' ', ' ', ' ', ' '] = [' ', ' ', ' ', ' ', ' ', ' ', ' ', ' '] := by decide

theorem strip_nlsp10 : listStrip ['\n', ' ', ' ', ' ', ' ', ' ', ' ', ' ', ' ', ' ', ' '] = [' ', ' ', ' ', ' ', ' ', ' ', ' ', ' ', ' ', ' '] := by decide

theorem strip_nlsp12 : listStrip ['\n', ' ', ' ', ' ', ' ', ' ', ' ', ' ', ' ', ' ', ' ', ' ', ' '] = [' ', ' ', ' ', ' ', ' ', ' ', ' ', ' ', ' ', ' ', ' ', ' '] := by decide

theorem strip_nlc : listStrip ['\n'] = [] := by decide

theorem strip_nil : listStrip [] = [] := rfl

theorem strip_spc24 : listStrip [' ', ' ', ' ', ' ', ' ', ' ', ' ', ' ', ' ', ' ', ' ', ' ', ' ', ' ', ' ', ' ', ' ', ' ', ' ', ' ', ' ', ' ', ' ', ' '] = [' ', ' ', ' ', ' ', ' ', ' ', ' ', ' ', ' ', ' ', ' ', ' ', ' ', ' ', ' ', ' ', ' ', ' ', ' ', ' ', ' ', ' ', ' ', ' '] := by decide

theorem strip_o_render_interface : listStrip ['<', 'r', 'e', 'n', 'd', 'e', 'r', '_', 'i', 'n', 't', 'e', 'r', 'f', 'a', 'c', 'e', '>'] = ['<', 'r', 'e', 'n', 'd', 'e', 'r', '_', 'i', 'n', 't', 'e', 'r', 'f', 'a', 'c', 'e', '>'] := by decide

theorem strip_c_render_interface : listStrip ['<', '/', 'r', 'e', 'n', 'd', 'e', 'r', '_', 'i', 'n', 't', 'e', 'r', 'f', 'a', 'c', 'e', '>'] = ['<', '/', 'r', 'e', 'n', 'd', 'e', 'r', '_', 'i', 'n', 't', 'e', 'r', 'f', 'a', 'c', 'e', '>'] := by decide

theorem tagOkL_o_render_interface : TagOk ['<', 'r', 'e', 'n', 'd', 'e', 'r', '_', 'i', 'n', 't', 'e', 'r', 'f', 'a', 'c', 'e', '>'] := tagOk_of_check (by decide)

theorem tagOkL_c_render_interface : TagOk ['<', '/', 'r', 'e', 'n', 'd', 'e', 'r', '_', 'i', 'n', 't', 'e', 'r', 'f', 'a', 'c', 'e', '>'] := tagOk_of_check (by decide)

theorem strip_o_publish_render : listStrip ['<', 'p', 'u', 'b', 'l', 'i', 's', 'h', '_', 'r', 'e', 'n', 'd', 'e', 'r', '>'] = ['<', 'p', 'u', 'b', 'l', 'i', 's', 'h', '_', 'r', 'e', 'n', 'd', 'e', 'r', '>'] := by decide

theorem strip_c_publish_render : listStrip ['<', '/', 'p', 'u', 'b', 'l', 'i', 's', 'h', '_', 'r', 'e', 'n', 'd', 'e', 'r', '>'] = ['<', '/', 'p', 'u', 'b', 'l', 'i', 's', 'h', '_', 'r', 'e', 'n', 'd', 'e', 'r', '>'] := by decide

theorem tagOkL_o_publish_render : TagOk ['<', 'p', 'u', 'b', 'l', 'i', 's', 'h', '_', 'r', 'e', 'n', 'd', 'e', 'r', '>'] := tagOk_of_check (by decide)

theorem tagOkL_c_publish_render : TagOk ['<', '/', 'p', 'u', 'b', 'l', 'i', 's', 'h', '_', 'r', 'e', 'n', 'd', 'e', 'r', '>'] := tagOk_of_check (by decide)

theorem strip_o_renderer_type_name : listStrip ['<', 'r', 'e', 'n', 'd', 'e', 'r', 'e', 'r', '_', 't', 'y', 'p', 'e', '_', 'n', 'a', 'm', 'e', '>'] = ['<', 'r', 'e', 'n', 'd', 'e', 'r', 'e', 'r', '_', 't', 'y', 'p', 'e', '_', 'n', 'a', 'm', 'e', '>'] := by decide

theorem strip_c_renderer_type_name : listStrip ['<', '/', 'r', 'e', 'n', 'd', 'e', 'r', 'e', 'r', '_', 't', 'y', 'p', 'e', '_', 'n', 'a', 'm', 'e', '>'] = ['<', '/', 'r', 'e', 'n', 'd', 'e', 'r', 'e', 'r', '_', 't', 'y', 'p', 'e', '_', 'n', 'a', 'm', 'e', '>'] := by decide

theorem tagOkL_o_renderer_type_name : TagOk ['<', 'r', 'e', 'n', 'd', 'e', 'r', 'e', 'r', '_', 't', 'y', 'p', 'e', '_', 'n', 'a', 'm', 'e', '>'] := tagOk_of_check (by decide)

theorem tagOkL_c_renderer_type_name : TagOk ['<', '/', 'r', 'e', 'n', 'd', 'e', 'r', 'e', 'r', '_', 't', 'y', 'p', 'e', '_', 'n', 'a', 'm', 'e', '>'] := tagOk_of_check (by decide)

theorem strip_o_physics_engine_interface : listStrip ['<', 'p', 'h', 'y', 's', 'i', 'c', 's', '_', 'e', 'n', 'g', 'i', 'n', 'e', '_', 'i', 'n', 't', 'e', 'r', 'f', 'a', 'c', 'e', '>'] = ['<', 'p', 'h', 'y', 's', 'i', 'c', 's', '_', 'e', 'n', 'g', 'i', 'n', 'e', '_', 'i', 'n', 't', 'e', 'r', 'f', 'a', 'c', 'e', '>'] := by decide

theorem strip_c_physics_engine_interface : listStrip ['<', '/', 'p', 'h', 'y', 's', 'i', 'c', 's', '_', 'e', 'n', 'g', 'i', 'n', 'e', '_', 'i', 'n', 't', 'e', 'r', 'f', 'a', 'c', 'e', '>'] = ['<', '/', 'p', 'h', 'y', 's', 'i', 'c', 's', '_', 'e', 'n', 'g', 'i', 'n', 'e', '_', 'i', 'n', 't', 'e', 'r', 'f', 'a', 'c', 'e', '>'] := by decide

theorem tagOkL_o_physics_engine_interface : TagOk ['<', 'p', 'h', 'y', 's', 'i', 'c', 's', '_', 'e', 'n', 'g', 'i', 'n', 'e', '_', 'i', 'n', 't', 'e', 'r', 'f', 'a', 'c', 'e', '>'] := tagOk_of_check (by decide)

theorem tagOkL_c_physics_engine_interface : TagOk ['<', '/', 'p', 'h', 'y', 's', 'i', 'c', 's', '_', 'e', 'n', 'g', 'i', 'n', 'e', '_', 'i', 'n', 't', 'e', 'r', 'f', 'a', 'c', 'e', '>'] := tagOk_of_check (by decide)

theorem strip_o_init_state : listStrip ['<', 'i', 'n', 'i', 't', '_', 's', 't', 'a', 't', 'e', '>'] = ['<', 'i', 'n', 'i', 't', '_', 's', 't', 'a', 't', 'e', '>'] := by decide

theorem strip_c_init_state : listStrip ['<', '/', 'i', 'n', 'i', 't', '_', 's', 't', 'a', 't', 'e', '>'] = ['<', '/', 'i', 'n', 'i', 't', '_', 's', 't', 'a', 't', 'e', '>'] := by decide

theorem tagOkL_o_init_state : TagOk ['<', 'i', 'n', 'i', 't', '_', 's', 't', 'a', 't', 'e', '>'] := tagOk_of_check (by decide)

theorem tagOkL_c_init_state : TagOk ['<', '/', 'i', 'n', 'i', 't', '_', 's', 't', 'a', 't', 'e', '>'] := tagOk_of_check (by decide)

theorem strip_o_ConnectionType : listStrip ['<', 'C', 'o', 'n', 'n', 'e', 'c', 't', 'i', 'o', 'n', 'T', 'y', 'p', 'e', '>'] = ['<', 'C', 'o', 'n', 'n', 'e', 'c', 't', 'i', 'o', 'n', 'T', 'y', 'p', 'e', '>'] := by decide

theorem strip_c_ConnectionType : listStrip ['<', '/', 'C', 'o', 'n', 'n', 'e', 'c', 't', 'i', 'o', 'n', 'T', 'y', 'p', 'e', '>'] = ['<', '/', 'C', 'o', 'n', 'n', 'e', 'c', 't', 'i', 'o', 'n', 'T', 'y', 'p', 'e', '>'] := by decide

theorem tagOkL_o_ConnectionType : TagOk ['<', 'C', 'o', 'n', 'n', 'e', 'c', 't', 'i', 'o', 'n', 'T', 'y', 'p', 'e', '>'] := tagOk_of_check (by decide)

theorem tagOkL_c_ConnectionType : TagOk ['<', '/', 'C', 'o', 'n', 'n', 'e', 'c', 't', 'i', 'o', 'n', 'T', 'y', 'p', 'e', '>'] := tagOk_of_check (by decide)

theorem strip_o_uri : listStrip ['<', 'u', 'r', 'i', '>'] = ['<', 'u', 'r', 'i', '>'] := by decide

theorem strip_c_uri : listStrip ['<', '/', 'u', 'r', 'i', '>'] = ['<', '/', 'u', 'r', 'i', '>'] := by decide

theorem tagOkL_o_uri : TagOk ['<', 'u', 'r', 'i', '>'] := tagOk_of_check (by decide)

theorem tagOkL_c_uri : TagOk ['<', '/', 'u', 'r', 'i', '>'] := tagOk_of_check (by decide)

theorem strip_o_thrusters : listStrip ['<', 't', 'h', 'r', 'u', 's', 't', 'e', 'r', 's', '>'] = ['<', 't', 'h', 'r', 'u', 's', 't', 'e', 'r', 's', '>'] := by decide

theorem strip_c_thrusters : listStrip ['<', '/', 't', 'h', 'r', 'u', 's', 't', 'e', 'r', 's', '>'] = ['<', '/', 't', 'h', 'r', 'u', 's', 't', 'e', 'r', 's', '>'] := by decide

theorem tagOkL_o_thrusters : TagOk ['<', 't', 'h', 'r', 'u', 's', 't', 'e', 'r', 's', '>'] := tagOk_of_check (by decide)

theorem tagOkL_c_thrusters : TagOk ['<', '/', 't', 'h', 'r', 'u', 's', 't', 'e', 'r', 's', '>'] := tagOk_of_check (by decide)

theorem strip_o_waypoint_follower : listStrip ['<', 'w', 'a', 'y', 'p', 'o', 'i', 'n', 't', '_', 'f', 'o', 'l', 'l', 'o', 'w', 'e', 'r', '>'] = ['<', 'w', 'a', 'y', 'p', 'o', 'i', 'n', 't', '_', 'f', 'o', 'l', 'l', 'o', 'w', 'e', 'r', '>'] := by decide

theorem strip_c_waypoint_follower : listStrip ['<', '/', 'w', 'a', 'y', 'p', 'o', 'i', 'n', 't', '_', 'f', 'o', 'l', 'l', 'o', 'w', 'e', 'r', '>'] = ['<', '/', 'w', 'a', 'y', 'p', 'o', 'i', 'n', 't', '_', 'f', 'o', 'l', 'l', 'o', 'w', 'e', 'r', '>'] := by decide

theorem tagOkL_o_waypoint_follower : TagOk ['<', 'w', 'a', 'y', 'p', 'o', 'i', 'n', 't', '_', 'f', 'o', 'l', 'l', 'o', 'w', 'e', 'r', '>'] := tagOk_of_check (by decide)

theorem tagOkL_c_waypoint_follower : TagOk ['<', '/', 'w', 'a', 'y', 'p', 'o', 'i', 'n', 't', '_', 'f', 'o', 'l', 'l', 'o', 'w', 'e', 'r', '>'] := tagOk_of_check (by decide)

theorem strip_o_follower : listStrip ['<', 'f', 'o', 'l', 'l', 'o', 'w', 'e', 'r', '>'] = ['<', 'f', 'o', 'l', 'l', 'o', 'w', 'e', 'r', '>'] := by decide

theorem strip_c_follower : listStrip ['<', '/', 'f', 'o', 'l', 'l', 'o', 'w', 'e', 'r', '>'] = ['<', '/', 'f', 'o', 'l', 'l', 'o', 'w', 'e', 'r', '>'] := by decide

theorem tagOkL_o_follower : TagOk ['<', 'f', 'o', 'l', 'l', 'o', 'w', 'e', 'r', '>'] := tagOk_of_check (by decide)

theorem tagOkL_c_follower : TagOk ['<', '/', 'f', 'o', 'l', 'l', 'o', 'w', 'e', 'r', '>'] := tagOk_of_check (by decide)

theorem strip_o_loop : listStrip ['<', 'l', 'o', 'o', 'p', '>'] = ['<', 'l', 'o', 'o', 'p', '>'] := by decide

theorem strip_c_loop : listStrip ['<', '/', 'l', 'o', 'o', 'p', '>'] = ['<', '/', 'l', 'o', 'o', 'p', '>'] := by decide

theorem tagOkL_o_loop : TagOk ['<', 'l', 'o', 'o', 'p', '>'] := tagOk_of_check (by decide)

theorem tagOkL_c_loop : TagOk ['<', '/', 'l', 'o', 'o', 'p', '>'] := tagOk_of_check (by decide)

theorem strip_o_linear_acceleration_limit : listStrip ['<', 'l', 'i', 'n', 'e', 'a', 'r', '_', 'a', 'c', 'c', 'e', 'l', 'e', 'r', 'a', 't', 'i', 'o', 'n', '_', 'l', 'i', 'm', 'i', 't', '>'] = ['<', 'l', 'i', 'n', 'e', 'a', 'r', '_', 'a', 'c', 'c', 'e', 'l', 'e', 'r', 'a', 't', 'i', 'o', 'n', '_', 'l', 'i', 'm', 'i', 't', '>'] := by decide

theorem strip_c_linear_acceleration_limit : listStrip ['<', '/', 'l', 'i', 'n', 'e', 'a', 'r', '_', 'a', 'c', 'c', 'e', 'l', 'e', 'r', 'a', 't', 'i', 'o', 'n', '_', 'l', 'i', 'm', 'i', 't', '>'] = ['<', '/', 'l', 'i', 'n', 'e', 'a', 'r', '_', 'a', 'c', 'c', 'e', 'l', 'e', 'r', 'a', 't', 'i', 'o', 'n', '_', 'l', 'i', 'm', 'i', 't', '>'] := by decide

theorem tagOkL_o_linear_acceleration_limit : TagOk ['<', 'l', 'i', 'n', 'e', 'a', 'r', '_', 'a', 'c', 'c', 'e', 'l', 'e', 'r', 'a', 't', 'i', 'o', 'n', '_', 'l', 'i', 'm', 'i', 't', '>'] := tagOk_of_check (by decide)

theorem tagOkL_c_linear_acceleration_limit : TagOk ['<', '/', 'l', 'i', 'n', 'e', 'a', 'r', '_', 'a', 'c', 'c', 'e', 'l', 'e', 'r', 'a', 't', 'i', 'o', 'n', '_', 'l', 'i', 'm', 'i', 't', '>'] := tagOk_of_check (by decide)

theorem strip_o_angular_acceleration_limit : listStrip ['<', 'a', 'n', 'g', 'u', 'l', 'a', 'r', '_', 'a', 'c', 'c', 'e', 'l', 'e', 'r', 'a', 't', 'i', 'o', 'n', '_', 'l', 'i', 'm', 'i', 't', '>'] = ['<', 'a', 'n', 'g', 'u', 'l', 'a', 'r', '_', 'a', 'c', 'c', 'e', 'l', 'e', 'r', 'a', 't', 'i', 'o', 'n', '_', 'l', 'i', 'm', 'i', 't', '>'] := by decide

theorem strip_c_angular_acceleration_limit : listStrip ['<', '/', 'a', 'n', 'g', 'u', 'l', 'a', 'r', '_', 'a', 'c', 'c', 'e', 'l', 'e', 'r', 'a', 't', 'i', 'o', 'n', '_', 'l', 'i', 'm', 'i', 't', '>'] = ['<', '/', 'a', 'n', 'g', 'u', 'l', 'a', 'r', '_', 'a', 'c', 'c', 'e', 'l', 'e', 'r', 'a', 't', 'i', 'o', 'n', '_', 'l', 'i', 'm', 'i', 't', '>'] := by decide

theorem tagOkL_o_angular_acceleration_limit : TagOk ['<', 'a', 'n', 'g', 'u', 'l', 'a', 'r', '_', 'a', 'c', 'c', 'e', 'l', 'e', 'r', 'a', 't', 'i', 'o', 'n', '_', 'l', 'i', 'm', 'i', 't', '>'] := tagOk_of_check (by decide)

theorem tagOkL_c_angular_acceleration_limit : TagOk ['<', '/', 'a', 'n', 'g', 'u', 'l', 'a', 'r', '_', 'a', 'c', 'c', 'e', 'l', 'e', 'r', 'a', 't', 'i', 'o', 'n', '_', 'l', 'i', 'm', 'i', 't', '>'] := tagOk_of_check (by decide)

theorem strip_o_angular_velocity_limit : listStrip ['<', 'a', 'n', 'g', 'u', 'l', 'a', 'r', '_', 'v', 'e', 'l', 'o', 'c', 'i', 't', 'y', '_', 'l', 'i', 'm', 'i', 't', '>'] = ['<', 'a', 'n', 'g', 'u', 'l', 'a', 'r', '_', 'v', 'e', 'l', 'o', 'c', 'i', 't', 'y', '_', 'l', 'i', 'm', 'i', 't', '>'] := by decide

theorem strip_c_angular_velocity_limit : listStrip ['<', '/', 'a', 'n', 'g', 'u', 'l', 'a', 'r', '_', 'v', 'e', 'l', 'o', 'c', 'i', 't', 'y', '_', 'l', 'i', 'm', 'i', 't', '>'] = ['<', '/', 'a', 'n', 'g', 'u', 'l', 'a', 'r', '_', 'v', 'e', 'l', 'o', 'c', 'i', 't', 'y', '_', 'l', 'i', 'm', 'i', 't', '>'] := by decide

theorem tagOkL_o_angular_velocity_limit : TagOk ['<', 'a', 'n', 'g', 'u', 'l', 'a', 'r', '_', 'v', 'e', 'l', 'o', 'c', 'i', 't', 'y', '_', 'l', 'i', 'm', 'i', 't', '>'] := tagOk_of_check (by decide)

theorem tagOkL_c_angular_velocity_limit : TagOk ['<', '/', 'a', 'n', 'g', 'u', 'l', 'a', 'r', '_', 'v', 'e', 'l', 'o', 'c', 'i', 't', 'y', '_', 'l', 'i', 'm', 'i', 't', '>'] := tagOk_of_check (by decide)

theorem strip_o_waypoints : listStrip ['<', 'w', 'a', 'y', 'p', 'o', 'i', 'n', 't', 's', '>'] = ['<', 'w', 'a', 'y', 'p', 'o', 'i', 'n', 't', 's', '>'] := by decide

theorem strip_c_waypoints : listStrip ['<', '/', 'w', 'a', 'y', 'p', 'o', 'i', 'n', 't', 's', '>'] = ['<', '/', 'w', 'a', 'y', 'p', 'o', 'i', 'n', 't', 's', '>'] := by decide

theorem tagOkL_o_waypoints : TagOk ['<', 'w', 'a', 'y', 'p', 'o', 'i', 'n', 't', 's', '>'] := tagOk_of_check (by decide)

theorem tagOkL_c_waypoints : TagOk ['<', '/', 'w', 'a', 'y', 'p', 'o', 'i', 'n', 't', 's', '>'] := tagOk_of_check (by decide)

theorem strip_o_waypoint : listStrip ['<', 'w', 'a', 'y', 'p', 'o', 'i', 'n', 't', '>'] = ['<', 'w', 'a', 'y', 'p', 'o', 'i', 'n', 't', '>'] := by decide

theorem strip_c_waypoint : listStrip ['<', '/', 'w', 'a', 'y', 'p', 'o', 'i', 'n', 't', '>'] = ['<', '/', 'w', 'a', 'y', 'p', 'o', 'i', 'n', 't', '>'] := by decide

theorem tagOkL_o_waypoint : TagOk ['<', 'w', 'a', 'y', 'p', 'o', 'i', 'n', 't', '>'] := tagOk_of_check (by decide)

theorem tagOkL_c_waypoint : TagOk ['<', '/', 'w', 'a', 'y', 'p', 'o', 'i', 'n', 't', '>'] := tagOk_of_check (by decide)

theorem strip_o_line : listStrip ['<', 'l', 'i', 'n', 'e', '>'] = ['<', 'l', 'i', 'n', 'e', '>'] := by decide

theorem strip_c_line : listStrip ['<', '/', 'l', 'i', 'n', 'e', '>'] = ['<', '/', 'l', 'i', 'n', 'e', '>'] := by decide

theorem tagOkL_o_line : TagOk ['<', 'l', 'i', 'n', 'e', '>'] := tagOk_of_check (by decide)

theorem tagOkL_c_line : TagOk ['<', '/', 'l', 'i', 'n', 'e', '>'] := tagOk_of_check (by decide)

theorem strip_o_direction : listStrip ['<', 'd', 'i', 'r', 'e', 'c', 't', 'i', 'o', 'n', '>'] = ['<', 'd', 'i', 'r', 'e', 'c', 't', 'i', 'o', 'n', '>'] := by decide

theorem strip_c_direction : listStrip ['<', '/', 'd', 'i', 'r', 'e', 'c', 't', 'i', 'o', 'n', '>'] = ['<', '/', 'd', 'i', 'r', 'e', 'c', 't', 'i', 'o', 'n', '>'] := by decide

theorem tagOkL_o_direction : TagOk ['<', 'd', 'i', 'r', 'e', 'c', 't', 'i', 'o', 'n', '>'] := tagOk_of_check (by decide)

theorem tagOkL_c_direction : TagOk ['<', '/', 'd', 'i', 'r', 'e', 'c', 't', 'i', 'o', 'n', '>'] := tagOk_of_check (by decide)

theorem strip_o_length : listStrip ['<', 'l', 'e', 'n', 'g', 't', 'h', '>'] = ['<', 'l', 'e', 'n', 'g', 't', 'h', '>'] := by decide

theorem strip_c_length : listStrip ['<', '/', 'l', 'e', 'n', 'g', 't', 'h', '>'] = ['<', '/', 'l', 'e', 'n', 'g', 't', 'h', '>'] := by decide

theorem tagOkL_o_length : TagOk ['<', 'l', 'e', 'n', 'g', 't', 'h', '>'] := tagOk_of_check (by decide)

theorem tagOkL_c_length : TagOk ['<', '/', 'l', 'e', 'n', 'g', 't', 'h', '>'] := tagOk_of_check (by decide)

theorem strip_o_circle : listStrip ['<', 'c', 'i', 'r', 'c', 'l', 'e', '>'] = ['<', 'c', 'i', 'r', 'c', 'l', 'e', '>'] := by decide

theorem strip_c_circle : listStrip ['<', '/', 'c', 'i', 'r', 'c', 'l', 'e', '>'] = ['<', '/', 'c', 'i', 'r', 'c', 'l', 'e', '>'] := by decide

theorem tagOkL_o_circle : TagOk ['<', 'c', 'i', 'r', 'c', 'l', 'e', '>'] := tagOk_of_check (by decide)

theorem tagOkL_c_circle : TagOk ['<', '/', 'c', 'i', 'r', 'c', 'l', 'e', '>'] := tagOk_of_check (by decide)

theorem strip_o_radius : listStrip ['<', 'r', 'a', 'd', 'i', 'u', 's', '>'] = ['<', 'r', 'a', 'd', 'i', 'u', 's', '>'] := by decide

theorem strip_c_radius : listStrip ['<', '/', 'r', 'a', 'd', 'i', 'u', 's', '>'] = ['<', '/', 'r', 'a', 'd', 'i', 'u', 's', '>'] := by decide

theorem tagOkL_o_radius : TagOk ['<', 'r', 'a', 'd', 'i', 'u', 's', '>'] := tagOk_of_check (by decide)

theorem tagOkL_c_radius : TagOk ['<', '/', 'r', 'a', 'd', 'i', 'u', 's', '>'] := tagOk_of_check (by decide)

theorem strip_o_lotus_param : listStrip ['<', 'l', 'o', 't', 'u', 's', '_', 'p', 'a', 'r', 'a', 'm', '>'] = ['<', 'l', 'o', 't', 'u', 's', '_', 'p', 'a', 'r', 'a', 'm', '>'] := by decide

theorem strip_c_lotus_param : listStrip ['<', '/', 'l', 'o', 't', 'u', 's', '_', 'p', 'a', 'r', 'a', 'm', '>'] = ['<', '/', 'l', 'o', 't', 'u', 's', '_', 'p', 'a', 'r', 'a', 'm', '>'] := by decide

theorem tagOkL_o_lotus_param : TagOk ['<', 'l', 'o', 't', 'u', 's', '_', 'p', 'a', 'r', 'a', 'm', '>'] := tagOk_of_check (by decide)

theorem tagOkL_c_lotus_param : TagOk ['<', '/', 'l', 'o', 't', 'u', 's', '_', 'p', 'a', 'r', 'a', 'm', '>'] := tagOk_of_check (by decide)

theorem strip_o_aerial : listStrip ['<', 'a', 'e', 'r', 'i', 'a', 'l', '>'] = ['<', 'a', 'e', 'r', 'i', 'a', 'l', '>'] := by decide

theorem strip_c_aerial : listStrip ['<', '/', 'a', 'e', 'r', 'i', 'a', 'l', '>'] = ['<', '/', 'a', 'e', 'r', 'i', 'a', 'l', '>'] := by decide

theorem tagOkL_o_aerial : TagOk ['<', 'a', 'e', 'r', 'i', 'a', 'l', '>'] := tagOk_of_check (by decide)

theorem tagOkL_c_aerial : TagOk ['<', '/', 'a', 'e', 'r', 'i', 'a', 'l', '>'] := tagOk_of_check (by decide)

theorem strip_o_surface : listStrip ['<', 's', 'u', 'r', 'f', 'a', 'c', 'e', '>'] = ['<', 's', 'u', 'r', 'f', 'a', 'c', 'e', '>'] := by decide

theorem strip_c_surface : listStrip ['<', '/', 's', 'u', 'r', 'f', 'a', 'c', 'e', '>'] = ['<', '/', 's', 'u', 'r', 'f', 'a', 'c', 'e', '>'] := by decide

theorem tagOkL_o_surface : TagOk ['<', 's', 'u', 'r', 'f', 'a', 'c', 'e', '>'] := tagOk_of_check (by decide)

theorem tagOkL_c_surface : TagOk ['<', '/', 's', 'u', 'r', 'f', 'a', 'c', 'e', '>'] := tagOk_of_check (by decide)

theorem strip_o_underwater : listStrip ['<', 'u', 'n', 'd', 'e', 'r', 'w', 'a', 't', 'e', 'r', '>'] = ['<', 'u', 'n', 'd', 'e', 'r', 'w', 'a', 't', 'e', 'r', '>'] := by decide

theorem strip_c_underwater : listStrip ['<', '/', 'u', 'n', 'd', 'e', 'r', 'w', 'a', 't', 'e', 'r', '>'] = ['<', '/', 'u', 'n', 'd', 'e', 'r', 'w', 'a', 't', 'e', 'r', '>'] := by decide

theorem tagOkL_o_underwater : TagOk ['<', 'u', 'n', 'd', 'e', 'r', 'w', 'a', 't', 'e', 'r', '>'] := tagOk_of_check (by decide)

theorem tagOkL_c_underwater : TagOk ['<', '/', 'u', 'n', 'd', 'e', 'r', 'w', 'a', 't', 'e', 'r', '>'] := tagOk_of_check (by decide)

theorem strip_thrfrag_o : listStrip ['<', 't', 'h', 'r', 'u', 's', 't', 'e', 'r', 's'] = ['<', 't', 'h', 'r', 'u', 's', 't', 'e', 'r', 's'] := by decide

theorem strip_thrfrag_c : listStrip ['<', '/', 't', 'h', 'r', 'u', 's', 't', 'e', 'r', 's'] = ['<', '/', 't', 'h', 'r', 'u', 's', 't', 'e', 'r', 's'] := by decide

theorem strip_lbrack : listStrip ['<'] = ['<'] := by decide

theorem strip_rbrack : listStrip ['>'] = ['>'] := by decide

theorem strip_lbrack_slash : listStrip ['<', '/'] = ['<', '/'] := by decide

theorem strip_m_aerial : listStrip ['a', 'e', 'r', 'i', 'a', 'l'] = ['a', 'e', 'r', 'i', 'a', 'l'] := by decide

theorem strip_m_surface : listStrip ['s', 'u', 'r', 'f', 'a', 'c', 'e'] = ['s', 'u', 'r', 'f', 'a', 'c', 'e'] := by decide

theorem strip_m_underwater : listStrip ['u', 'n', 'd', 'e', 'r', 'w', 'a', 't', 'e', 'r'] = ['u', 'n', 'd', 'e', 'r', 'w', 'a', 't', 'e', 'r'] := by decide

theorem wsOk_sp4 : WsOk [' ', ' ', ' ', ' '] :=
  (by decide : ∀ c ∈ ([' ', ' ', ' ', ' '] : List Char), jsWs c = true)

theorem wsOk_sp6 : WsOk [' ', ' ', ' ', ' ', ' ', ' '] :=
  (by decide : ∀ c ∈ ([' ', ' ', ' ', ' ', ' ', ' '] : List Char), jsWs c = true)

theorem wsOk_sp8 : WsOk [' ', ' ', ' ', ' ', ' ', ' ', ' ', ' '] :=
  (by decide : ∀ c ∈ ([' ', ' ', ' ', ' ', ' ', ' ', ' ', ' '] : List Char), jsWs c = true)

theorem wsOk_sp10 : WsOk [' ', ' ', ' ', ' ', ' ', ' ', ' ', ' ', ' ', ' '] :=
  (by decide : ∀ c ∈ ([' ', ' ', ' ', ' ', ' ', ' ', ' ', ' ', ' ', ' '] : List Char), jsWs c = true)

theorem wsOk_sp12 : WsOk [' ', ' ', ' ', ' ', ' ', ' ', ' ', ' ', ' ', ' ', ' ', ' '] :=
  (by decide : ∀ c ∈ ([' ', ' ', ' ', ' ', ' ', ' ', ' ', ' ', ' ', ' ', ' ', ' '] : List Char), jsWs c = true)

theorem wsOk_sp14 : WsOk [' ', ' ', ' ', ' ', ' ', ' ', ' ', ' ', ' ', ' ', ' ', ' ', ' ', ' '] :=
  (by decide : ∀ c ∈ ([' ', ' ', ' ', ' ', ' ', ' ', ' ', ' ', ' ', ' ', ' ', ' ', ' ', ' '] : List Char), jsWs c = true)

theorem wsOk_sp16 : WsOk [' ', ' ', ' ', ' ', ' ', ' ', ' ', ' ', ' ', ' ', ' ', ' ', ' ', ' ', ' ', ' '] :=
  (by decide : ∀ c ∈ ([' ', ' ', ' ', ' ', ' ', ' ', ' ', ' ', ' ', ' ', ' ', ' ', ' ', ' ', ' ', ' '] : List Char), jsWs c = true)

theorem wsOk_sp24 : WsOk [' ', ' ', ' ', ' ', ' ', ' ', ' ', ' ', ' ', ' ', ' ', ' ', ' ', ' ', ' ', ' ', ' ', ' ', ' ', ' ', ' ', ' ', ' ', ' '] :=
  (by decide : ∀ c ∈ ([' ', ' ', ' ', ' ', ' ', ' ', ' ', ' ', ' ', ' ', ' ', ' ', ' ', ' ', ' ', ' ', ' ', ' ', ' ', ' ', ' ', ' ', ' ', ' '] : List Char), jsWs c = true)

theorem wsOk_sp34 : WsOk [' ', ' ', ' ', ' ', ' ', ' ', ' ', ' ', ' ', ' ', ' ', ' ', ' ', ' ', ' ', ' ', ' ', ' ', ' ', ' ', ' ', ' ', ' ', ' ', ' ', ' ', ' ', ' ', ' ', ' ', ' ', ' ', ' ', ' '] :=
  (by decide : ∀ c ∈ ([' ', ' ', ' ', ' ', ' ', ' ', ' ', ' ', ' ', ' ', ' ', ' ', ' ', ' ', ' ', ' ', ' ', ' ', ' ', ' ', ' ', ' ', ' ', ' ', ' ', ' ', ' ', ' ', ' ', ' ', ' ', ' ', ' ', ' '] : List Char), jsWs c = true)

theorem data_natStr (k : ℕ) : (natStr k).data = natDigits k := rfl

theorem strip_natDigits (k : ℕ) : listStrip (natDigits k) = natDigits k :=
  listStrip_eq_self _ (fun c hc =>
    (by decide : ∀ x ∈ ("0123456789").data, isNlTab x = false) c (mem_natDigits k c hc))

theorem contentNorm_data (s : String) :
    tjPiece (strippedTxt s) = (contentNorm s).data := by
  by_cases hC : (collapse (listStrip s.data)).all jsWs = true
  · simp [tjPiece, strippedTxt, contentNorm, hC]
  · simp [tjPiece, strippedTxt, contentNorm, hC]

theorem strJoin_cons (s : String) (rest : List String) :
    strJoin (s :: rest) = s ++ strJoin rest := rfl

theorem strIntercalate_cons (sep x : String) (xs : List String) :
    strIntercalate sep (x :: xs) = x ++ strJoin (xs.map (fun l => sep ++ l)) := by
  induction xs generalizing x with
  | nil =>
    show strIntercalate sep [x] = _
    apply String.ext
    simp [strIntercalate, strJoin]
  | cons y ys ih =>
    show strIntercalate sep (x :: y :: ys) = _
    rw [show strIntercalate sep (x :: y :: ys) = x ++ sep ++ strIntercalate sep (y :: ys) from rfl]
    rw [ih y]
    apply String.ext
    simp [strJoin]

theorem flat_render (cfg : VesselSpawnConfig) :
    listStrip (renderInterfaceOf cfg).data = flatPieces (renderPieces cfg) := by
  unfold renderInterfaceOf renderPieces
  cases hr : cfg.renderEnabled
  · simp only [hr, Bool.false_eq_true, if_false]
    decide
  · simp only [hr, if_true]
    simp only [String.data_append, listStrip_append, -String.reduceAppend, flatPieces,
      List.map_cons, List.map_nil, List.flatten_cons, List.flatten_nil, pieceRaw, strippedTxt]
    simp only [strip_nlsp6, strip_nlsp8, strip_o_render_interface, strip_c_render_interface,
      strip_o_publish_render, strip_c_publish_render, strip_o_renderer_type_name,
      strip_c_renderer_type_name]
    simp only [List.append_assoc, List.cons_append, List.nil_append, List.append_nil]

theorem vtail_render (cfg : VesselSpawnConfig) (rest : List Piece) (hrest : VTailGo rest) :
    VTailGo (renderPieces cfg ++ rest) := by
  unfold renderPieces
  cases hr : cfg.renderEnabled
  · simp only [hr, Bool.false_eq_true, if_false, List.nil_append]
    exact hrest
  · simp only [hr, if_true, List.cons_append, List.nil_append]
    simp [VTailGo, HeadIsTag, hrest, strippedTxt, tagOkL_o_render_interface,
      tagOkL_c_render_interface, tagOkL_o_publish_render, tagOkL_c_publish_render,
      tagOkL_o_renderer_type_name, tagOkL_c_renderer_type_name, txtOk_jsBool, txtOk_escape,
      wsOk_sp6, wsOk_sp8]

theorem tjPiece_tag (s : List Char) : tjPiece (.tag s) = s := rfl

theorem tjPiece_ws (w : List Char) : tjPiece (.ws w) = [] := rfl

theorem compact_render (cfg : VesselSpawnConfig) :
    ((renderPieces cfg).map tjPiece).flatten = (renderCompact cfg).data := by
  unfold renderPieces renderCompact
  cases hr : cfg.renderEnabled
  · simp [hr]
  · simp only [hr, if_true, List.map_cons, List.map_nil, List.flatten_cons, List.flatten_nil,
      tjPiece_tag, tjPiece_ws, contentNorm_data, contentNorm_jsBool, String.data_append,
      -String.reduceAppend, List.append_nil, List.append_assoc, List.cons_append,
      List.nil_append]

theorem strip_spc8 : listStrip [' ', ' ', ' ', ' ', ' ', ' ', ' ', ' '] =
    [' ', ' ', ' ', ' ', ' ', ' ', ' ', ' '] := by decide

theorem flatPieces_append (a b : List Piece) :
    flatPieces (a ++ b) = flatPieces a ++ flatPieces b := by
  simp [flatPieces]

theorem mem_enabledModeNames (pm : PhysicsModes) (m : String) (h : m ∈ enabledModeNames pm) :
    m = "aerial" ∨ m = "surface" ∨ m = "underwater" := by
  obtain ⟨a, s, u⟩ := pm
  cases a <;> cases s <;> cases u <;> simp [enabledModeNames, List.filter] at h <;> tauto

theorem tagOk_thr_open (k : ℕ) : TagOk ("<thrusters" ++ natStr k ++ ">").data := by
  refine ⟨("thrusters").data ++ natDigits k, ?_, ?_⟩
  · simp [String.data_append, data_natStr]
  · intro c hc
    rcases List.mem_append.mp hc with h1 | h1
    · exact (by decide : ∀ x ∈ ("thrusters").data, plainChar x = true) c h1
    · exact (by decide : ∀ x ∈ ("0123456789").data, plainChar x = true) c (mem_natDigits k c h1)

theorem tagOk_thr_close (k : ℕ) : TagOk ("</thrusters" ++ natStr k ++ ">").data := by
  refine ⟨("/thrusters").data ++ natDigits k, ?_, ?_⟩
  · simp [String.data_append, data_natStr]
  · intro c hc
    rcases List.mem_append.mp hc with h1 | h1
    · exact (by decide : ∀ x ∈ ("/thrusters").data, plainChar x = true) c h1
    · exact (by decide : ∀ x ∈ ("0123456789").data, plainChar x = true) c (mem_natDigits k c h1)

theorem flat_thrTail (idx : ℕ) (ts : List String) :
    listStrip (strJoin ((thrusterLines idx ts).map (fun l => "\n" ++ l))).data =
      flatPieces (thrusterPiecesRest idx ts) := by
  induction ts generalizing idx with
  | nil => simp [thrusterLines, thrusterPiecesRest, strJoin, flatPieces, listStrip]
  | cons t rest ih =>
    simp only [thrusterLines, List.map_cons, strJoin_cons, thrusterPiecesRest]
    simp only [String.data_append, listStrip_append, -String.reduceAppend, flatPieces,
      List.map_cons, List.flatten_cons, pieceRaw, strippedTxt, data_natStr]
    rw [ih]
    simp only [strip_nlc, strip_spc8, strip_thrfrag_o, strip_thrfrag_c, strip_rbrack,
      strip_natDigits, flatPieces]
    simp only [List.append_assoc, List.cons_append, List.nil_append, List.append_nil]

theorem flat_thrRegion (idx : ℕ) (ts : List String) :
    flatPieces (thrustersRegionPieces idx ts) =
      ("    ").data ++ listStrip (strIntercalate "\n" (thrusterLines idx ts)).data ++
        ("          ").data := by
  cases ts with
  | nil =>
    rw [show thrusterLines idx [] = [] from rfl,
      show thrustersRegionPieces idx [] =
        [.ws (("    ").data ++ ("          ").data)] from rfl]
    decide
  | cons t rest =>
    rw [show thrusterLines idx (t :: rest) =
      ("        " ++ ("<thrusters" ++ natStr (idx + 1) ++ ">") ++ escapeXml t ++
        ("</thrusters" ++ natStr (idx + 1) ++ ">")) :: thrusterLines (idx + 1) rest from rfl]
    rw [strIntercalate_cons]
    simp only [String.data_append, listStrip_append, -String.reduceAppend, data_natStr]
    rw [flat_thrTail (idx + 1) rest]
    simp only [thrustersRegionPieces, flatPieces, List.map_append, List.map_cons, List.map_nil,
      List.flatten_append, List.flatten_cons, List.flatten_nil, pieceRaw, strippedTxt]
    simp only [strip_spc8, strip_thrfrag_o, strip_thrfrag_c, strip_rbrack, strip_natDigits,
      data_natStr, String.data_append, -String.reduceAppend]
    simp only [List.append_assoc, List.cons_append, List.nil_append, List.append_nil]

theorem flat_modeBlock (mode : String) (config : PhysicsModeConfig)
    (hm : listStrip mode.data = mode.data) :
    listStrip (modeBlock mode config).data = flatPieces (modePieces mode config) := by
  simp only [modeBlock]
  simp only [String.data_append, listStrip_append, -String.reduceAppend]
  simp only [modePieces, flatPieces_append, flat_thrRegion]
  simp only [flatPieces, List.map_cons, List.map_nil, List.flatten_cons, List.flatten_nil,
    pieceRaw, strippedTxt, String.data_append, -String.reduceAppend]
  simp only [strip_nlsp8, strip_nlsp10, strip_nlsp4, strip_spc24, strip_o_ConnectionType,
    strip_c_ConnectionType, strip_o_uri, strip_c_uri, strip_o_thrusters, strip_c_thrusters,
    strip_lbrack, strip_rbrack, strip_lbrack_slash, hm]
  simp only [List.append_assoc, List.cons_append, List.nil_append, List.append_nil]

theorem flat_modeList (cfg : VesselSpawnConfig) (modes : List String)
    (hm : ∀ m ∈ modes, listStrip m.data = m.data) :
    listStrip (strJoin (modes.map (fun mode => modeBlock mode (physicsConfigOf cfg mode)))).data =
      flatPieces ((modes.map (fun mode => modePieces mode (physicsConfigOf cfg mode))).flatten) := by
  induction modes with
  | nil => simp only [List.map_nil]; decide
  | cons m ms ih =>
    simp only [List.map_cons, strJoin_cons, List.flatten_cons]
    simp only [String.data_append, listStrip_append, -String.reduceAppend]
    rw [flat_modeBlock m _ (hm m (by simp)), ih (fun x hx => hm x (by simp [hx]))]
    simp only [flatPieces_append]

theorem flat_phys (cfg : VesselSpawnConfig) :
    listStrip (physicsInterfaceOf cfg).data = flatPieces (physPieces cfg) := by
  unfold physicsInterfaceOf physPieces physicsPartsOf
  cases hp : cfg.physicsEnabled
  · simp only [hp, Bool.false_eq_true, if_false]
    decide
  · simp only [hp, if_true]
    simp only [String.data_append, listStrip_append, -String.reduceAppend]
    rw [flat_modeList cfg _ (fun m hmem => by
      rcases mem_enabledModeNames _ _ hmem with rfl | rfl | rfl <;> decide)]
    simp only [flatPieces_append, flatPieces, List.map_append, List.map_cons, List.map_nil,
      List.flatten_append, List.flatten_cons, List.flatten_nil, pieceRaw, strippedTxt]
    simp only [strip_nlsp6, strip_nlsp8, strip_o_physics_engine_interface,
      strip_c_physics_engine_interface, strip_o_init_state, strip_c_init_state]
    simp only [List.append_assoc, List.cons_append, List.nil_append, List.append_nil]

theorem vtail_thrRest (idx : ℕ) (ts : List String) (R : List Piece) (hR : VTailGo R) :
    VTailGo (thrusterPiecesRest idx ts ++ R) := by
  induction ts generalizing idx with
  | nil => simpa [thrusterPiecesRest] using hR
  | cons t rest ih =>
    exact ⟨(by decide : ∀ c ∈ ("        ").data, jsWs c = true), trivial,
      tagOk_thr_open _, txtOk_escape t, trivial, tagOk_thr_close _, ih _⟩

theorem vtail_thrRegion (idx : ℕ) (ts : List String) (R : List Piece) (hR : VTailGo R)
    (hhead : HeadIsTag R) : VTailGo (thrustersRegionPieces idx ts ++ R) := by
  cases ts with
  | nil =>
    exact ⟨(by decide : ∀ c ∈ ("    ").data ++ ("          ").data, jsWs c = true), hhead, hR⟩
  | cons t rest =>
    simp only [thrustersRegionPieces, List.cons_append, List.append_assoc, List.nil_append]
    exact ⟨(by decide : ∀ c ∈ ("    ").data ++ ("        ").data, jsWs c = true), trivial,
      tagOk_thr_open _, txtOk_escape t, trivial, tagOk_thr_close _,
      vtail_thrRest _ rest _
        ⟨(by decide : ∀ c ∈ ("          ").data, jsWs c = true), hhead, hR⟩⟩

theorem vtail_modePieces (mode : String) (config : PhysicsModeConfig) (R : List Piece)
    (hmode : mode = "aerial" ∨ mode = "surface" ∨ mode = "underwater") (hR : VTailGo R) :
    VTailGo (modePieces mode config ++ R) := by
  have hmo : TagOk ("<" ++ mode ++ ">").data := by
    rcases hmode with rfl | rfl | rfl <;> exact tagOk_of_check (by decide)
  have hmc : TagOk ("</" ++ mode ++ ">").data := by
    rcases hmode with rfl | rfl | rfl <;> exact tagOk_of_check (by decide)
  simp only [modePieces, List.cons_append, List.append_assoc, List.nil_append]
  exact ⟨(by decide : ∀ c ∈ ("        ").data, jsWs c = true), trivial, hmo,
    (by decide : ∀ c ∈ ("          ").data, jsWs c = true), trivial, tagOk_open_ConnectionType,
    txtOk_escape _, trivial, tagOk_close_ConnectionType,
    (by decide : ∀ c ∈ ("                        ").data ++ ("          ").data, jsWs c = true),
    trivial, tagOk_open_uri, txtOk_escape _, trivial, tagOk_close_uri,
    (by decide : ∀ c ∈ ("          ").data, jsWs c = true), trivial, tagOk_open_thrusters,
    vtail_thrRegion 0 config.thrusters _
      ⟨tagOk_close_thrusters, (by decide : ∀ c ∈ ("        ").data, jsWs c = true), trivial,
        hmc, hR⟩
      trivial⟩

theorem vtail_modeList (cfg : VesselSpawnConfig) (modes : List String) (R : List Piece)
    (hms : ∀ m ∈ modes, m = "aerial" ∨ m = "surface" ∨ m = "underwater") (hR : VTailGo R) :
    VTailGo ((modes.map (fun mode => modePieces mode (physicsConfigOf cfg mode))).flatten ++ R) := by
  induction modes with
  | nil => simpa using hR
  | cons m ms ih =>
    simp only [List.map_cons, List.flatten_cons, List.append_assoc]
    exact vtail_modePieces _ _ _ (hms m (by simp)) (ih (fun x hx => hms x (by simp [hx])))

theorem vtail_phys (cfg : VesselSpawnConfig) (R : List Piece) (hR : VTailGo R) :
    VTailGo (physPieces cfg ++ R) := by
  unfold physPieces
  cases hp : cfg.physicsEnabled
  · simpa [hp] using hR
  · simp only [hp, if_true, List.cons_append, List.append_assoc, List.nil_append]
    exact ⟨(by decide : ∀ c ∈ ("      ").data, jsWs c = true), trivial,
      tagOk_open_physics_engine_interface,
      vtail_modeList cfg _ _ (fun m hmem => mem_enabledModeNames _ _ hmem)
        ⟨(by decide : ∀ c ∈ ("        ").data, jsWs c = true), trivial, tagOk_open_init_state,
          txtOk_escape _, trivial, tagOk_close_init_state,
          (by decide : ∀ c ∈ ("      ").data, jsWs c = true), trivial,
          tagOk_close_physics_engine_interface, hR⟩⟩

theorem compact_thrRest (idx : ℕ) (ts : List String) :
    ((thrusterPiecesRest idx ts).map tjPiece).flatten = (thrustersCompact idx ts).data := by
  induction ts generalizing idx with
  | nil => rfl
  | cons t rest ih =>
    simp only [thrusterPiecesRest, thrustersCompact, List.map_cons, List.flatten_cons,
      tjPiece_tag, tjPiece_ws, contentNorm_data, String.data_append, -String.reduceAppend,
      List.nil_append]
    rw [ih]
    simp only [List.append_assoc, List.cons_append, List.nil_append, List.append_nil]

theorem compact_thrRegion (idx : ℕ) (ts : List String) :
    ((thrustersRegionPieces idx ts).map tjPiece).flatten = (thrustersCompact idx ts).data := by
  cases ts with
  | nil => rfl
  | cons t rest =>
    simp only [thrustersRegionPieces, thrustersCompact, List.map_cons, List.map_append,
      List.map_nil, List.flatten_cons, List.flatten_append, List.flatten_nil, tjPiece_tag,
      tjPiece_ws, contentNorm_data, String.data_append, -String.reduceAppend, List.nil_append]
    rw [compact_thrRest (idx + 1) rest]
    simp only [List.append_assoc, List.cons_append, List.nil_append, List.append_nil]

theorem compact_modeBlock (mode : String) (config : PhysicsModeConfig) :
    ((modePieces mode config).map tjPiece).flatten = (modeBlockCompact mode config).data := by
  simp only [modePieces, modeBlockCompact, List.map_append, List.map_cons, List.map_nil,
    List.flatten_append, List.flatten_cons, List.flatten_nil, tjPiece_tag, tjPiece_ws,
    contentNorm_data, compact_thrRegion, String.data_append, -String.reduceAppend]
  simp only [List.append_assoc, List.cons_append, List.nil_append, List.append_nil]

theorem compact_modeList (cfg : VesselSpawnConfig) (modes : List String) :
    (((modes.map (fun mode => modePieces mode (physicsConfigOf cfg mode))).flatten.map
        tjPiece).flatten) =
      (strJoin (modes.map (fun mode => modeBlockCompact mode (physicsConfigOf cfg mode)))).data := by
  induction modes with
  | nil => rfl
  | cons m ms ih =>
    simp only [List.map_cons, List.flatten_cons, strJoin_cons, List.map_append,
      List.flatten_append, String.data_append, -String.reduceAppend]
    rw [compact_modeBlock, ih]

theorem compact_phys (cfg : VesselSpawnConfig) :
    ((physPieces cfg).map tjPiece).flatten = (physicsCompact cfg).data := by
  unfold physPieces physicsCompact
  cases hp : cfg.physicsEnabled
  · simp [hp]
  · simp only [hp, if_true, List.map_append, List.map_cons, List.map_nil, List.flatten_append,
      List.flatten_cons, List.flatten_nil, tjPiece_tag, tjPiece_ws, contentNorm_data,
      String.data_append, -String.reduceAppend, List.nil_append]
    rw [compact_modeList cfg]
    simp only [List.append_assoc, List.cons_append, List.nil_append, List.append_nil]

theorem strip_spc1 : listStrip [' '] = [' '] := by decide

set_option maxRecDepth 10000 in
theorem flat_commonLimits (wf : WaypointFollowerState) :
    listStrip (commonLimits wf).data =
      ("      ").data ++ flatPieces (commonLimitsCorePieces wf) ++ ("    ").data := by
  unfold commonLimits
  simp only [String.data_append, listStrip_append, -String.reduceAppend]
  simp only [commonLimitsCorePieces, flatPieces, List.map_cons, List.map_nil, List.flatten_cons,
    List.flatten_nil, pieceRaw, strippedTxt]
  simp only [strip_nlsp6, strip_nlsp4, strip_o_loop, strip_c_loop,
    strip_o_linear_acceleration_limit, strip_c_linear_acceleration_limit,
    strip_o_angular_acceleration_limit, strip_c_angular_acceleration_limit,
    strip_o_angular_velocity_limit, strip_c_angular_velocity_limit]
  simp only [List.append_assoc, List.cons_append, List.nil_append, List.append_nil]

theorem flat_waypointsXml (wps : List WaypointLatLng) :
    listStrip (waypointsXml wps).data = flatPieces (waypointPieces wps) := by
  induction wps with
  | nil => simp only [waypointsXml, List.map_nil]; decide
  | cons wp rest ih =>
    rw [show waypointsXml (wp :: rest) =
      ("<waypoint>" ++ (jsNum wp.lat ++ " " ++ jsNum wp.lng) ++ "</waypoint>") ++
        waypointsXml rest from rfl]
    simp only [String.data_append, listStrip_append, -String.reduceAppend]
    rw [ih]
    simp only [waypointPieces, flatPieces, List.map_cons, List.flatten_cons, pieceRaw,
      strippedTxt, String.data_append, listStrip_append, -String.reduceAppend]
    simp only [strip_o_waypoint, strip_c_waypoint, strip_spc1, flatPieces]
    simp only [List.append_assoc, List.cons_append, List.nil_append, List.append_nil]

theorem flat_wfInner (wf : WaypointFollowerState) :
    flatPieces (wfInnerPieces wf) =
      ("        ").data ++ listStrip (strJoin (followersOf wf)).data ++ ("      ").data := by
  unfold wfInnerPieces followersOf
  by_cases h1 : wf.mode = "waypoints" ∧ wf.waypoints.length > 0
  · have h2 : ¬ wf.mode = "line" := fun h => absurd (h1.1.symm.trans h) (by decide)
    have h3 : ¬ wf.mode = "circle" := fun h => absurd (h1.1.symm.trans h) (by decide)
    rw [if_pos h1, if_pos h1, if_neg h2, if_neg h3]
    simp only [List.append_nil, List.nil_append, strJoin]
    simp only [String.data_append, listStrip_append, -String.reduceAppend]
    rw [flat_commonLimits, flat_waypointsXml]
    simp only [followerHeadPieces, flatPieces_append, flatPieces, List.map_append,
      List.map_cons, List.map_nil, List.flatten_append, List.flatten_cons, List.flatten_nil,
      pieceRaw, strippedTxt]
    simp only [strip_nlsp8, strip_nlsp10, strip_nlsp12, strip_o_follower, strip_c_follower,
      strip_o_waypoints, strip_c_waypoints, strip_nil]
    simp only [List.append_assoc, List.cons_append, List.nil_append, List.append_nil]
  · by_cases h2 : wf.mode = "line"
    · have h3 : ¬ wf.mode = "circle" := fun h => absurd (h2.symm.trans h) (by decide)
      rw [if_neg h1, if_pos h2, if_neg h1, if_pos h2, if_neg h3]
      simp only [List.append_nil, List.nil_append, strJoin]
      simp only [String.data_append, listStrip_append, -String.reduceAppend]
      rw [flat_commonLimits]
      simp only [followerHeadPieces, flatPieces_append, flatPieces, List.map_append,
        List.map_cons, List.map_nil, List.flatten_append, List.flatten_cons, List.flatten_nil,
        pieceRaw, strippedTxt]
      simp only [strip_nlsp8, strip_nlsp10, strip_nlsp12, strip_o_follower, strip_c_follower,
        strip_o_line, strip_c_line, strip_o_direction, strip_c_direction, strip_o_length,
        strip_c_length, strip_nil]
      simp only [List.append_assoc, List.cons_append, List.nil_append, List.append_nil]
    · by_cases h3 : wf.mode = "circle"
      · rw [if_neg h1, if_neg h2, if_pos h3, if_neg h1, if_neg h2, if_pos h3]
        simp only [List.append_nil, List.nil_append, strJoin]
        simp only [String.data_append, listStrip_append, -String.reduceAppend]
        rw [flat_commonLimits]
        simp only [followerHeadPieces, flatPieces_append, flatPieces, List.map_append,
          List.map_cons, List.map_nil, List.flatten_append, List.flatten_cons, List.flatten_nil,
          pieceRaw, strippedTxt]
        simp only [strip_nlsp8, strip_nlsp10, strip_nlsp12, strip_o_follower, strip_c_follower,
          strip_o_circle, strip_c_circle, strip_o_radius, strip_c_radius, strip_nil]
        simp only [List.append_assoc, List.cons_append, List.nil_append, List.append_nil]
      · rw [if_neg h1, if_neg h2, if_neg h3, if_neg h1, if_neg h2, if_neg h3]
        decide

theorem flat_wf (cfg : VesselSpawnConfig) :
    listStrip (wfInterfaceOf cfg).data = flatPieces (wfPieces cfg) := by
  unfold wfInterfaceOf wfPieces
  cases he : cfg.waypointFollower.enabled
  · simp only [he, Bool.false_eq_true, if_false]
    decide
  · simp only [he, if_true]
    simp only [String.data_append, listStrip_append, -String.reduceAppend]
    simp only [flatPieces_append, flat_wfInner]
    simp only [flatPieces, List.map_cons, List.map_nil, List.flatten_cons, List.flatten_nil,
      pieceRaw]
    simp only [strip_nlsp6, strip_nlsp8, strip_o_waypoint_follower, strip_c_waypoint_follower]
    simp only [List.append_assoc, List.cons_append, List.nil_append, List.append_nil]

theorem vtail_wpList (wps : List WaypointLatLng) (R : List Piece) (hR : VTailGo R) :
    VTailGo (waypointPieces wps ++ R) := by
  induction wps with
  | nil => simpa [waypointPieces] using hR
  | cons wp rest ih =>
    exact ⟨tagOk_open_waypoint, txtOk_pair _ _, trivial, tagOk_close_waypoint, ih⟩

theorem vtail_wfInner (wf : WaypointFollowerState) (R : List Piece) (hR : VTailGo R)
    (hhead : HeadIsTag R) : VTailGo (wfInnerPieces wf ++ R) := by
  unfold wfInnerPieces
  by_cases h1 : wf.mode = "waypoints" ∧ wf.waypoints.length > 0
  · rw [if_pos h1]
    rcases hwps : wf.waypoints with _ | ⟨wp, wrest⟩
    · rw [hwps] at h1
      exact absurd h1.2 (by simp)
    · simp only [followerHeadPieces, commonLimitsCorePieces, hwps, List.cons_append,
        List.append_assoc, List.nil_append]
      exact ⟨(by decide : ∀ c ∈ ("        ").data ++ ("        ").data, jsWs c = true), trivial,
        tagOk_open_follower,
        (by decide : ∀ c ∈ ("          ").data ++ ("      ").data, jsWs c = true), trivial,
        tagOk_open_loop, txtOk_jsBool _, trivial, tagOk_close_loop,
        (by decide : ∀ c ∈ ("      ").data, jsWs c = true), trivial,
        tagOk_open_linear_acceleration_limit, txtOk_jsNum _, trivial,
        tagOk_close_linear_acceleration_limit,
        (by decide : ∀ c ∈ ("      ").data, jsWs c = true), trivial,
        tagOk_open_angular_acceleration_limit, txtOk_jsNum _, trivial,
        tagOk_close_angular_acceleration_limit,
        (by decide : ∀ c ∈ ("      ").data, jsWs c = true), trivial,
        tagOk_open_angular_velocity_limit, txtOk_jsNum _, trivial,
        tagOk_close_angular_velocity_limit,
        (by decide : ∀ c ∈ ("    ").data ++ ("          ").data, jsWs c = true), trivial,
        tagOk_open_waypoints,
        (by decide : ∀ c ∈ ("            ").data, jsWs c = true), trivial,
        vtail_wpList (wp :: wrest) _
          ⟨(by decide : ∀ c ∈ ("          ").data, jsWs c = true), trivial,
            tagOk_close_waypoints,
            (by decide : ∀ c ∈ ("        ").data, jsWs c = true), trivial,
            tagOk_close_follower,
            (by decide : ∀ c ∈ ("      ").data, jsWs c = true), hhead, hR⟩⟩
  · rw [if_neg h1]
    by_cases h2 : wf.mode = "line"
    · rw [if_pos h2]
      simp only [followerHeadPieces, commonLimitsCorePieces, List.cons_append,
        List.append_assoc, List.nil_append]
      exact ⟨(by decide : ∀ c ∈ ("        ").data ++ ("        ").data, jsWs c = true), trivial,
        tagOk_open_follower,
        (by decide : ∀ c ∈ ("          ").data ++ ("      ").data, jsWs c = true), trivial,
        tagOk_open_loop, txtOk_jsBool _, trivial, tagOk_close_loop,
        (by decide : ∀ c ∈ ("      ").data, jsWs c = true), trivial,
        tagOk_open_linear_acceleration_limit, txtOk_jsNum _, trivial,
        tagOk_close_linear_acceleration_limit,
        (by decide : ∀ c ∈ ("      ").data, jsWs c = true), trivial,
        tagOk_open_angular_acceleration_limit, txtOk_jsNum _, trivial,
        tagOk_close_angular_acceleration_limit,
        (by decide : ∀ c ∈ ("      ").data, jsWs c = true), trivial,
        tagOk_open_angular_velocity_limit, txtOk_jsNum _, trivial,
        tagOk_close_angular_velocity_limit,
        (by decide : ∀ c ∈ ("    ").data ++ ("          ").data, jsWs c = true), trivial,
        tagOk_open_line,
        (by decide : ∀ c ∈ ("            ").data, jsWs c = true), trivial,
        tagOk_open_direction, txtOk_jsNum _, trivial, tagOk_close_direction,
        (by decide : ∀ c ∈ ("            ").data, jsWs c = true), trivial,
        tagOk_open_length, txtOk_jsNum _, trivial, tagOk_close_length,
        (by decide : ∀ c ∈ ("          ").data, jsWs c = true), trivial, tagOk_close_line,
        (by decide : ∀ c ∈ ("        ").data, jsWs c = true), trivial, tagOk_close_follower,
        (by decide : ∀ c ∈ ("      ").data, jsWs c = true), hhead, hR⟩
    · rw [if_neg h2]
      by_cases h3 : wf.mode = "circle"
      · rw [if_pos h3]
        simp only [followerHeadPieces, commonLimitsCorePieces, List.cons_append,
          List.append_assoc, List.nil_append]
        exact ⟨(by decide : ∀ c ∈ ("        ").data ++ ("        ").data, jsWs c = true),
          trivial, tagOk_open_follower,
          (by decide : ∀ c ∈ ("          ").data ++ ("      ").data, jsWs c = true), trivial,
          tagOk_open_loop, txtOk_jsBool _, trivial, tagOk_close_loop,
          (by decide : ∀ c ∈ ("      ").data, jsWs c = true), trivial,
          tagOk_open_linear_acceleration_limit, txtOk_jsNum _, trivial,
          tagOk_close_linear_acceleration_limit,
          (by decide : ∀ c ∈ ("      ").data, jsWs c = true), trivial,
          tagOk_open_angular_acceleration_limit, txtOk_jsNum _, trivial,
          tagOk_close_angular_acceleration_limit,
          (by decide : ∀ c ∈ ("      ").data, jsWs c = true), trivial,
          tagOk_open_angular_velocity_limit, txtOk_jsNum _, trivial,
          tagOk_close_angular_velocity_limit,
          (by decide : ∀ c ∈ ("    ").data ++ ("          ").data, jsWs c = true), trivial,
          tagOk_open_circle,
          (by decide : ∀ c ∈ ("            ").data, jsWs c = true), trivial,
          tagOk_open_radius, txtOk_jsNum _, trivial, tagOk_close_radius,
          (by decide : ∀ c ∈ ("          ").data, jsWs c = true), trivial, tagOk_close_circle,
          (by decide : ∀ c ∈ ("        ").data, jsWs c = true), trivial, tagOk_close_follower,
          (by decide : ∀ c ∈ ("      ").data, jsWs c = true), hhead, hR⟩
      · rw [if_neg h3]
        exact ⟨(by decide : ∀ c ∈ ("        ").data ++ ("      ").data, jsWs c = true),
          hhead, hR⟩

theorem vtail_wf (cfg : VesselSpawnConfig) (R : List Piece) (hR : VTailGo R) :
    VTailGo (wfPieces cfg ++ R) := by
  unfold wfPieces
  cases he : cfg.waypointFollower.enabled
  · simpa [he] using hR
  · simp only [he, if_true, List.cons_append, List.append_assoc, List.nil_append]
    exact ⟨(by decide : ∀ c ∈ ("      ").data, jsWs c = true), trivial,
      tagOk_open_waypoint_follower,
      vtail_wfInner cfg.waypointFollower _ ⟨tagOk_close_waypoint_follower, hR⟩ trivial⟩

theorem compact_commonCore (wf : WaypointFollowerState) :
    ((commonLimitsCorePieces wf).map tjPiece).flatten = (commonLimitsCompact wf).data := by
  simp only [commonLimitsCorePieces, commonLimitsCompact, List.map_cons, List.map_nil,
    List.flatten_cons, List.flatten_nil, tjPiece_tag, tjPiece_ws, contentNorm_data,
    contentNorm_jsBool, contentNorm_jsNum, String.data_append, -String.reduceAppend]
  simp only [List.append_assoc, List.cons_append, List.nil_append, List.append_nil]

theorem compact_wpList (wps : List WaypointLatLng) :
    ((waypointPieces wps).map tjPiece).flatten = (waypointsCompact wps).data := by
  induction wps with
  | nil => rfl
  | cons wp rest ih =>
    rw [show waypointsCompact (wp :: rest) =
      ("<waypoint>" ++ (jsNum wp.lat ++ " " ++ jsNum wp.lng) ++ "</waypoint>") ++
        waypointsCompact rest from rfl]
    simp only [waypointPieces, List.map_cons, List.flatten_cons, tjPiece_tag, contentNorm_data,
      contentNorm_pair, String.data_append, -String.reduceAppend]
    rw [ih]
    simp only [List.append_assoc, List.cons_append, List.nil_append, List.append_nil]

theorem compact_wfInner (wf : WaypointFollowerState) :
    ((wfInnerPieces wf).map tjPiece).flatten = (strJoin (followersCompactOf wf)).data := by
  unfold wfInnerPieces followersCompactOf
  by_cases h1 : wf.mode = "waypoints" ∧ wf.waypoints.length > 0
  · have h2 : ¬ wf.mode = "line" := fun h => absurd (h1.1.symm.trans h) (by decide)
    have h3 : ¬ wf.mode = "circle" := fun h => absurd (h1.1.symm.trans h) (by decide)
    rw [if_pos h1, if_pos h1, if_neg h2, if_neg h3]
    simp only [List.append_nil, List.nil_append, strJoin]
    simp only [followerHeadPieces, List.map_append, List.map_cons, List.map_nil,
      List.flatten_append, List.flatten_cons, List.flatten_nil, tjPiece_tag, tjPiece_ws,
      compact_commonCore, compact_wpList, String.data_append, -String.reduceAppend]
    simp only [List.append_assoc, List.cons_append, List.nil_append, List.append_nil]
  · by_cases h2 : wf.mode = "line"
    · have h3 : ¬ wf.mode = "circle" := fun h => absurd (h2.symm.trans h) (by decide)
      rw [if_neg h1, if_pos h2, if_neg h1, if_pos h2, if_neg h3]
      simp only [List.append_nil, List.nil_append, strJoin]
      simp only [followerHeadPieces, List.map_append, List.map_cons, List.map_nil,
        List.flatten_append, List.flatten_cons, List.flatten_nil, tjPiece_tag, tjPiece_ws,
        contentNorm_data, contentNorm_jsNum, compact_commonCore, String.data_append,
        -String.reduceAppend]
      simp only [List.append_assoc, List.cons_append, List.nil_append, List.append_nil]
    · by_cases h3 : wf.mode = "circle"
      · rw [if_neg h1, if_neg h2, if_pos h3, if_neg h1, if_neg h2, if_pos h3]
        simp only [List.append_nil, List.nil_append, strJoin]
        simp only [followerHeadPieces, List.map_append, List.map_cons, List.map_nil,
          List.flatten_append, List.flatten_cons, List.flatten_nil, tjPiece_tag, tjPiece_ws,
          contentNorm_data, contentNorm_jsNum, compact_commonCore, String.data_append,
          -String.reduceAppend]
        simp only [List.append_assoc, List.cons_append, List.nil_append, List.append_nil]
      · rw [if_neg h1, if_neg h2, if_neg h3, if_neg h1, if_neg h2, if_neg h3]
        decide

theorem compact_wf (cfg : VesselSpawnConfig) :
    ((wfPieces cfg).map tjPiece).flatten = (wfCompact cfg).data := by
  unfold wfPieces wfCompact
  cases he : cfg.waypointFollower.enabled
  · simp [he]
  · simp only [he, if_true, List.map_append, List.map_cons, List.map_nil, List.flatten_append,
      List.flatten_cons, List.flatten_nil, tjPiece_tag, tjPiece_ws, compact_wfInner,
      String.data_append, -String.reduceAppend, List.nil_append]
    simp only [List.append_assoc, List.cons_append, List.nil_append, List.append_nil]

theorem vtail_body (cfg : VesselSpawnConfig) : VTailGo (bodyPieces cfg) := by
  unfold bodyPieces
  simp only [List.append_assoc]
  have h0 : VTailGo [Piece.tag ("</lotus_param>").data] := ⟨tagOk_close_lotus_param, trivial⟩
  exact vtail_render cfg _ (vtail_phys cfg _ (vtail_wf cfg _ h0))

theorem flat_body (cfg : VesselSpawnConfig) :
    listStrip (rawLotusParamXML cfg).data =
      ("<lotus_param>").data ++ flatPieces (bodyPieces cfg) := by
  unfold rawLotusParamXML bodyPieces
  simp only [String.data_append, listStrip_append, -String.reduceAppend]
  rw [flat_render, flat_phys, flat_wf]
  simp only [flatPieces_append, strip_o_lotus_param, strip_c_lotus_param, flatPieces,
    List.map_append, List.map_cons, List.map_nil, List.flatten_append, List.flatten_cons,
    List.flatten_nil, pieceRaw]
  simp only [List.append_assoc, List.cons_append, List.nil_append, List.append_nil]

theorem compact_body (cfg : VesselSpawnConfig) :
    ((bodyPieces cfg).map tjPiece).flatten =
      (renderCompact cfg).data ++ ((physicsCompact cfg).data ++ ((wfCompact cfg).data ++
        ("</lotus_param>").data)) := by
  unfold bodyPieces
  simp only [List.map_append, List.flatten_append, compact_render, compact_phys, compact_wf,
    List.map_cons, List.map_nil, List.flatten_cons, List.flatten_nil, tjPiece_tag,
    List.append_nil, List.append_assoc]

theorem jsTrimList_wrap (Y : List Char) :
    jsTrimList ('<' :: Y ++ ['>']) = '<' :: Y ++ ['>'] := by
  unfold jsTrimList trimLeft trimRight
  rw [List.cons_append, List.dropWhile_cons, if_neg (by decide)]
  have h1 : ('<' :: (Y ++ ['>'])).reverse = '>' :: (Y.reverse ++ ['<']) := by simp
  rw [h1, List.dropWhile_cons, if_neg (by decide), ← h1, List.reverse_reverse,
    ← List.cons_append]

/-- The serializer's output coincides with its compact characterization: the
document with all inter-tag whitespace removed, escaped and content-normalized
string fields, and verbatim numeric and boolean fields. -/
theorem generate_eq_compact (cfg : VesselSpawnConfig) :
    generateLotusParamXML cfg = serializeCompact cfg := by
  apply String.ext
  show jsTrimList (tagJoin (collapse (listStrip (rawLotusParamXML cfg).data))) =
    (serializeCompact cfg).data
  rw [flat_body]
  have hv := vtail_body cfg
  have hcol : collapse (("<lotus_param>").data ++ flatPieces (bodyPieces cfg)) =
      ("<lotus_param>").data ++ ((bodyPieces cfg).map cPiece).flatten := by
    rw [show ("<lotus_param>").data ++ flatPieces (bodyPieces cfg) =
        ("<lotus_param").data ++ '>' :: flatPieces (bodyPieces cfg) from by
      rw [show ("<lotus_param>").data = ("<lotus_param").data ++ ['>'] from by decide]
      simp]
    show collapseGo .norm _ = _
    rw [collapseGo_append_last_nonws ("<lotus_param").data '>' (by decide) _ .norm]
    rw [show collapseGo CMode.norm (("<lotus_param").data ++ ['>']) =
        ("<lotus_param").data ++ ['>'] from collapseGo_norm_of_no_ws _ (by decide)]
    rw [show collapseGo CMode.norm (flatPieces (bodyPieces cfg)) =
        collapse (flatPieces (bodyPieces cfg)) from rfl]
    rw [collapse_pieces _ hv]
    rw [show ("<lotus_param").data ++ ['>'] = ("<lotus_param>").data from by decide]
  rw [hcol]
  have htj : tagJoin (("<lotus_param>").data ++ ((bodyPieces cfg).map cPiece).flatten) =
      ("<lotus_param>").data ++ ((bodyPieces cfg).map tjPiece).flatten := by
    show tagJoinGo .norm _ = _
    rw [show ("<lotus_param>").data ++ ((bodyPieces cfg).map cPiece).flatten =
        ("<lotus_param").data ++ '>' :: ((bodyPieces cfg).map cPiece).flatten from by
      rw [show ("<lotus_param>").data = ("<lotus_param").data ++ ['>'] from by decide]
      simp]
    rw [tagJoinGo_norm_append_no_gt ("<lotus_param").data (by decide) _]
    rw [tagJoinGo_norm_gtChar]
    rw [tagJoin_pieces _ hv]
    rw [show ("<lotus_param").data ++ '>' :: ((bodyPieces cfg).map tjPiece).flatten =
        ("<lotus_param>").data ++ ((bodyPieces cfg).map tjPiece).flatten from by
      rw [show ("<lotus_param>").data = ("<lotus_param").data ++ ['>'] from by decide]
      simp]
  rw [htj, compact_body]
  have hshape : ("<lotus_param>").data ++ ((renderCompact cfg).data ++
      ((physicsCompact cfg).data ++ ((wfCompact cfg).data ++ ("</lotus_param>").data))) =
      '<' :: (("lotus_param>").data ++ ((renderCompact cfg).data ++
        ((physicsCompact cfg).data ++ ((wfCompact cfg).data ++ ("</lotus_param").data)))) ++
        ['>'] := by
    rw [show ("<lotus_param>").data = '<' :: ("lotus_param>").data from by decide,
      show ("</lotus_param>").data = ("</lotus_param").data ++ ['>'] from by decide]
    simp [List.append_assoc, List.cons_append]
  rw [hshape, jsTrimList_wrap, ← hshape]
  simp only [serializeCompact, String.data_append, -String.reduceAppend, List.append_assoc]

theorem isFolTag_tagP (s : List Char) :
    isFolTag (Piece.tag s) = decide (s = ("<follower>").data) := rfl

@[simp]
theorem isFolTag_wsP (w : List Char) : isFolTag (Piece.ws w) = false := rfl

@[simp]
theorem isFolTag_txtP (x : List Char) : isFolTag (Piece.txt x) = false := rfl

@[simp]
theorem folf_o_render_interface : isFolTag (Piece.tag ['<', 'r', 'e', 'n', 'd', 'e', 'r', '_', 'i', 'n', 't', 'e', 'r', 'f', 'a', 'c', 'e', '>']) = false := by decide

@[simp]
theorem folf_c_render_interface : isFolTag (Piece.tag ['<', '/', 'r', 'e', 'n', 'd', 'e', 'r', '_', 'i', 'n', 't', 'e', 'r', 'f', 'a', 'c', 'e', '>']) = false := by decide

@[simp]
theorem folf_o_publish_render : isFolTag (Piece.tag ['<', 'p', 'u', 'b', 'l', 'i', 's', 'h', '_', 'r', 'e', 'n', 'd', 'e', 'r', '>']) = false := by decide

@[simp]
theorem folf_c_publish_render : isFolTag (Piece.tag ['<', '/', 'p', 'u', 'b', 'l', 'i', 's', 'h', '_', 'r', 'e', 'n', 'd', 'e', 'r', '>']) = false := by decide

@[simp]
theorem folf_o_renderer_type_name : isFolTag (Piece.tag ['<', 'r', 'e', 'n', 'd', 'e', 'r', 'e', 'r', '_', 't', 'y', 'p', 'e', '_', 'n', 'a', 'm', 'e', '>']) = false := by decide

@[simp]
theorem folf_c_renderer_type_name : isFolTag (Piece.tag ['<', '/', 'r', 'e', 'n', 'd', 'e', 'r', 'e', 'r', '_', 't', 'y', 'p', 'e', '_', 'n', 'a', 'm', 'e', '>']) = false := by decide

@[simp]
theorem folf_o_physics_engine_interface : isFolTag (Piece.tag ['<', 'p', 'h', 'y', 's', 'i', 'c', 's', '_', 'e', 'n', 'g', 'i', 'n', 'e', '_', 'i', 'n', 't', 'e', 'r', 'f', 'a', 'c', 'e', '>']) = false := by decide

@[simp]
theorem folf_c_physics_engine_interface : isFolTag (Piece.tag ['<', '/', 'p', 'h', 'y', 's', 'i', 'c', 's', '_', 'e', 'n', 'g', 'i', 'n', 'e', '_', 'i', 'n', 't', 'e', 'r', 'f', 'a', 'c', 'e', '>']) = false := by decide

@[simp]
theorem folf_o_init_state : isFolTag (Piece.tag ['<', 'i', 'n', 'i', 't', '_', 's', 't', 'a', 't', 'e', '>']) = false := by decide

@[simp]
theorem folf_c_init_state : isFolTag (Piece.tag ['<', '/', 'i', 'n', 'i', 't', '_', 's', 't', 'a', 't', 'e', '>']) = false := by decide

@[simp]
theorem folf_o_ConnectionType : isFolTag (Piece.tag ['<', 'C', 'o', 'n', 'n', 'e', 'c', 't', 'i', 'o', 'n', 'T', 'y', 'p', 'e', '>']) = false := by decide

@[simp]
theorem folf_c_ConnectionType : isFolTag (Piece.tag ['<', '/', 'C', 'o', 'n', 'n', 'e', 'c', 't', 'i', 'o', 'n', 'T', 'y', 'p', 'e', '>']) = false := by decide

@[simp]
theorem folf_o_uri : isFolTag (Piece.tag ['<', 'u', 'r', 'i', '>']) = false := by decide

@[simp]
theorem folf_c_uri : isFolTag (Piece.tag ['<', '/', 'u', 'r', 'i', '>']) = false := by decide

@[simp]
theorem folf_o_thrusters : isFolTag (Piece.tag ['<', 't', 'h', 'r', 'u', 's', 't', 'e', 'r', 's', '>']) = false := by decide

@[simp]
theorem folf_c_thrusters : isFolTag (Piece.tag ['<', '/', 't', 'h', 'r', 'u', 's', 't', 'e', 'r', 's', '>']) = false := by decide

@[simp]
theorem folf_o_waypoint_follower : isFolTag (Piece.tag ['<', 'w', 'a', 'y', 'p', 'o', 'i', 'n', 't', '_', 'f', 'o', 'l', 'l', 'o', 'w', 'e', 'r', '>']) = false := by decide

@[simp]
theorem folf_c_waypoint_follower : isFolTag (Piece.tag ['<', '/', 'w', 'a', 'y', 'p', 'o', 'i', 'n', 't', '_', 'f', 'o', 'l', 'l', 'o', 'w', 'e', 'r', '>']) = false := by decide

@[simp]
theorem folf_o_loop : isFolTag (Piece.tag ['<', 'l', 'o', 'o', 'p', '>']) = false := by decide

@[simp]
theorem folf_c_loop : isFolTag (Piece.tag ['<', '/', 'l', 'o', 'o', 'p', '>']) = false := by decide

@[simp]
theorem folf_o_linear_acceleration_limit : isFolTag (Piece.tag ['<', 'l', 'i', 'n', 'e', 'a', 'r', '_', 'a', 'c', 'c', 'e', 'l', 'e', 'r', 'a', 't', 'i', 'o', 'n', '_', 'l', 'i', 'm', 'i', 't', '>']) = false := by decide

@[simp]
theorem folf_c_linear_acceleration_limit : isFolTag (Piece.tag ['<', '/', 'l', 'i', 'n', 'e', 'a', 'r', '_', 'a', 'c', 'c', 'e', 'l', 'e', 'r', 'a', 't', 'i', 'o', 'n', '_', 'l', 'i', 'm', 'i', 't', '>']) = false := by decide

@[simp]
theorem folf_o_angular_acceleration_limit : isFolTag (Piece.tag ['<', 'a', 'n', 'g', 'u', 'l', 'a', 'r', '_', 'a', 'c', 'c', 'e', 'l', 'e', 'r', 'a', 't', 'i', 'o', 'n', '_', 'l', 'i', 'm', 'i', 't', '>']) = false := by decide

@[simp]
theorem folf_c_angular_acceleration_limit : isFolTag (Piece.tag ['<', '/', 'a', 'n', 'g', 'u', 'l', 'a', 'r', '_', 'a', 'c', 'c', 'e', 'l', 'e', 'r', 'a', 't', 'i', 'o', 'n', '_', 'l', 'i', 'm', 'i', 't', '>']) = false := by decide

@[simp]
theorem folf_o_angular_velocity_limit : isFolTag (Piece.tag ['<', 'a', 'n', 'g', 'u', 'l', 'a', 'r', '_', 'v', 'e', 'l', 'o', 'c', 'i', 't', 'y', '_', 'l', 'i', 'm', 'i', 't', '>']) = false := by decide

@[simp]
theorem folf_c_angular_velocity_limit : isFolTag (Piece.tag ['<', '/', 'a', 'n', 'g', 'u', 'l', 'a', 'r', '_', 'v', 'e', 'l', 'o', 'c', 'i', 't', 'y', '_', 'l', 'i', 'm', 'i', 't', '>']) = false := by decide

@[simp]
theorem folf_o_waypoints : isFolTag (Piece.tag ['<', 'w', 'a', 'y', 'p', 'o', 'i', 'n', 't', 's', '>']) = false := by decide

@[simp]
theorem folf_c_waypoints : isFolTag (Piece.tag ['<', '/', 'w', 'a', 'y', 'p', 'o', 'i', 'n', 't', 's', '>']) = false := by decide

@[simp]
theorem folf_o_waypoint : isFolTag (Piece.tag ['<', 'w', 'a', 'y', 'p', 'o', 'i', 'n', 't', '>']) = false := by decide

@[simp]
theorem folf_c_waypoint : isFolTag (Piece.tag ['<', '/', 'w', 'a', 'y', 'p', 'o', 'i', 'n', 't', '>']) = false := by decide

@[simp]
theorem folf_o_line : isFolTag (Piece.tag ['<', 'l', 'i', 'n', 'e', '>']) = false := by decide

@[simp]
theorem folf_c_line : isFolTag (Piece.tag ['<', '/', 'l', 'i', 'n', 'e', '>']) = false := by decide

@[simp]
theorem folf_o_direction : isFolTag (Piece.tag ['<', 'd', 'i', 'r', 'e', 'c', 't', 'i', 'o', 'n', '>']) = false := by decide

@[simp]
theorem folf_c_direction : isFolTag (Piece.tag ['<', '/', 'd', 'i', 'r', 'e', 'c', 't', 'i', 'o', 'n', '>']) = false := by decide

@[simp]
theorem folf_o_length : isFolTag (Piece.tag ['<', 'l', 'e', 'n', 'g', 't', 'h', '>']) = false := by decide

@[simp]
theorem folf_c_length : isFolTag (Piece.tag ['<', '/', 'l', 'e', 'n', 'g', 't', 'h', '>']) = false := by decide

@[simp]
theorem folf_o_circle : isFolTag (Piece.tag ['<', 'c', 'i', 'r', 'c', 'l', 'e', '>']) = false := by decide

@[simp]
theorem folf_c_circle : isFolTag (Piece.tag ['<', '/', 'c', 'i', 'r', 'c', 'l', 'e', '>']) = false := by decide

@[simp]
theorem folf_o_radius : isFolTag (Piece.tag ['<', 'r', 'a', 'd', 'i', 'u', 's', '>']) = false := by decide

@[simp]
theorem folf_c_radius : isFolTag (Piece.tag ['<', '/', 'r', 'a', 'd', 'i', 'u', 's', '>']) = false := by decide

@[simp]
theorem folf_o_lotus_param : isFolTag (Piece.tag ['<', 'l', 'o', 't', 'u', 's', '_', 'p', 'a', 'r', 'a', 'm', '>']) = false := by decide

@[simp]
theorem folf_c_lotus_param : isFolTag (Piece.tag ['<', '/', 'l', 'o', 't', 'u', 's', '_', 'p', 'a', 'r', 'a', 'm', '>']) = false := by decide

@[simp]
theorem folf_o_follower : isFolTag (Piece.tag ['<', 'f', 'o', 'l', 'l', 'o', 'w', 'e', 'r', '>']) = true := by decide

@[simp]
theorem folf_c_follower : isFolTag (Piece.tag ['<', '/', 'f', 'o', 'l', 'l', 'o', 'w', 'e', 'r', '>']) = false := by decide

@[simp]
theorem folf_o_m_aerial : isFolTag (Piece.tag ['<', 'a', 'e', 'r', 'i', 'a', 'l', '>']) = false := by decide

@[simp]
theorem folf_c_m_aerial : isFolTag (Piece.tag ['<', '/', 'a', 'e', 'r', 'i', 'a', 'l', '>']) = false := by decide

@[simp]
theorem folf_o_m_surface : isFolTag (Piece.tag ['<', 's', 'u', 'r', 'f', 'a', 'c', 'e', '>']) = false := by decide

@[simp]
theorem folf_c_m_surface : isFolTag (Piece.tag ['<', '/', 's', 'u', 'r', 'f', 'a', 'c', 'e', '>']) = false := by decide

@[simp]
theorem folf_o_m_underwater : isFolTag (Piece.tag ['<', 'u', 'n', 'd', 'e', 'r', 'w', 'a', 't', 'e', 'r', '>']) = false := by decide

@[simp]
theorem folf_c_m_underwater : isFolTag (Piece.tag ['<', '/', 'u', 'n', 'd', 'e', 'r', 'w', 'a', 't', 'e', 'r', '>']) = false := by decide


@[simp]
theorem folf_thr_open (k : ℕ) :
    isFolTag (Piece.tag (("<thrusters" ++ natStr k ++ ">").data)) = false := by
  rw [isFolTag_tagP]
  refine decide_eq_false ?_
  intro h
  rw [String.data_append, String.data_append,
    show ("<thrusters").data = '<' :: 't' :: ("hrusters").data from by decide,
    show ("<follower>").data = '<' :: 'f' :: ("ollower>").data from by decide] at h
  simp only [List.cons_append] at h
  exact absurd ((List.cons.inj ((List.cons.inj h).2)).1) (by decide)

@[simp]
theorem folf_thr_close (k : ℕ) :
    isFolTag (Piece.tag (("</thrusters" ++ natStr k ++ ">").data)) = false := by
  rw [isFolTag_tagP]
  refine decide_eq_false ?_
  intro h
  rw [String.data_append, String.data_append,
    show ("</thrusters").data = '<' :: '/' :: ("thrusters").data from by decide,
    show ("<follower>").data = '<' :: 'f' :: ("ollower>").data from by decide] at h
  simp only [List.cons_append] at h
  exact absurd ((List.cons.inj ((List.cons.inj h).2)).1) (by decide)

theorem isPrefixOf_append_self (l r : List Char) : (l.isPrefixOf (l ++ r)) = true := by
  rw [List.isPrefixOf_iff_prefix]
  exact ⟨r, rfl⟩

/-- No occurrence of the follower tag can start inside a bracket-free block. -/
theorem countOcc_append_no_lt (l r : List Char) (hl : ∀ c ∈ l, ¬ c = '<') :
    countOcc ("<follower>").data (l ++ r) = countOcc ("<follower>").data r := by
  induction l with
  | nil => rfl
  | cons c t ih =>
    rw [List.cons_append]
    simp only [countOcc]
    have hc : ¬ c = '<' := hl c (List.mem_cons_self c t)
    have hpre : ((("<follower>").data).isPrefixOf (c :: (t ++ r))) = false := by
      cases hb : (("<follower>").data).isPrefixOf (c :: (t ++ r)) with
      | false => rfl
      | true =>
        exfalso
        rw [show ("<follower>").data = '<' :: ("follower>").data from by decide,
          List.isPrefixOf_iff_prefix] at hb
        obtain ⟨u, hu⟩ := hb
        rw [List.cons_append] at hu
        exact hc ((List.cons.inj hu).1).symm
    rw [hpre, ih (fun d hd => hl d (List.mem_cons_of_mem c hd))]
    simp

/-- A full tag is a prefix of another tag region only when the tag names
coincide: the closing bracket pins the length. -/
theorem prefixTag_eq : ∀ (fm : List Char), (∀ c ∈ fm, ¬ c = '>') →
    ∀ (mid r : List Char), (∀ c ∈ mid, ¬ c = '>') →
    ((fm ++ ['>']).isPrefixOf (mid ++ '>' :: r)) = true → fm = mid := by
  intro fm
  induction fm with
  | nil =>
    intro _ mid r hm h
    cases mid with
    | nil => rfl
    | cons m mt =>
      exfalso
      rw [List.nil_append, List.cons_append, List.isPrefixOf_iff_prefix] at h
      obtain ⟨u, hu⟩ := h
      rw [List.cons_append] at hu
      exact hm m (List.mem_cons_self m mt) ((List.cons.inj hu).1).symm
  | cons f ft ih =>
    intro hf mid r hm h
    cases mid with
    | nil =>
      exfalso
      rw [List.cons_append, List.nil_append, List.isPrefixOf_iff_prefix] at h
      obtain ⟨u, hu⟩ := h
      rw [List.cons_append] at hu
      exact hf f (List.mem_cons_self f ft) ((List.cons.inj hu).1)
    | cons m mt =>
      rw [List.cons_append, List.cons_append, List.isPrefixOf_iff_prefix] at h
      obtain ⟨u, hu⟩ := h
      rw [List.cons_append] at hu
      have h1 : f = m := (List.cons.inj hu).1
      have h2 : ((ft ++ ['>']).isPrefixOf (mt ++ '>' :: r)) = true := by
        rw [List.isPrefixOf_iff_prefix]
        exact ⟨u, (List.cons.inj hu).2⟩
      rw [h1, ih (fun c hc => hf c (List.mem_cons_of_mem f hc)) mt r
        (fun c hc => hm c (List.mem_cons_of_mem m hc)) h2]

/-- Splitting the occurrence count at a leading well-formed tag: the tag either
is the follower opening tag or contributes nothing, and no occurrence can
straddle the boundary. -/
theorem countOcc_tag_append (s r : List Char) (hs : TagOk s) :
    countOcc ("<follower>").data (s ++ r) =
      (if s = ("<follower>").data then 1 else 0) + countOcc ("<follower>").data r := by
  obtain ⟨mid, hseq, hmid⟩ := hs
  subst hseq
  rw [List.cons_append, List.cons_append, List.append_assoc,
    show (['>'] : List Char) ++ r = '>' :: r from rfl]
  simp only [countOcc]
  have htail : countOcc ("<follower>").data (mid ++ '>' :: r) =
      countOcc ("<follower>").data r := by
    rw [show mid ++ '>' :: r = (mid ++ ['>']) ++ r from by
      rw [List.append_assoc]
      rfl]
    refine countOcc_append_no_lt (mid ++ ['>']) r ?_
    intro c hc
    rcases List.mem_append.mp hc with h1 | h1
    · exact ne_lt_of_plainChar (hmid c h1)
    · rw [List.mem_singleton.mp h1]
      decide
  rw [htail]
  by_cases he : ('<' :: (mid ++ ['>']) : List Char) = ("<follower>").data
  · rw [if_pos he,
      show '<' :: (mid ++ '>' :: r) = ('<' :: (mid ++ ['>'])) ++ r from by
        simp [List.cons_append, List.append_assoc],
      he, isPrefixOf_append_self]
    simp
  · rw [if_neg he]
    have hpre : ((("<follower>").data).isPrefixOf ('<' :: (mid ++ '>' :: r))) = false := by
      cases hb : (("<follower>").data).isPrefixOf ('<' :: (mid ++ '>' :: r)) with
      | false => rfl
      | true =>
        exfalso
        rw [show ("<follower>").data = '<' :: (("follower").data ++ ['>']) from by decide,
          List.isPrefixOf_iff_prefix] at hb
        obtain ⟨u, hu⟩ := hb
        rw [List.cons_append] at hu
        have h2 : ((("follower").data ++ ['>']).isPrefixOf (mid ++ '>' :: r)) = true := by
          rw [List.isPrefixOf_iff_prefix]
          exact ⟨u, (List.cons.inj hu).2⟩
        have h4 := prefixTag_eq ("follower").data (by decide) mid r
          (fun c hc => ne_gt_of_plainChar (hmid c hc)) h2
        apply he
        rw [← h4]
        decide
    rw [hpre]
    simp

/-- Occurrences of the follower tag in the normalized document are exactly the
follower tag pieces: text content is bracket-free, inter-tag whitespace is
gone, and every other tag differs from the pattern. -/
theorem countOcc_fol_flatten : ∀ (ps : List Piece), VTailGo ps →
    countOcc ("<follower>").data ((ps.map tjPiece).flatten) = List.countP isFolTag ps := by
  intro ps
  induction ps with
  | nil =>
    intro _
    decide
  | cons p t ih =>
    intro hv
    cases p with
    | tag s =>
      obtain ⟨hs, hrest⟩ := hv
      rw [List.map_cons, List.flatten_cons, tjPiece_tag, countOcc_tag_append s _ hs,
        ih hrest, List.countP_cons]
      by_cases h : s = ("<follower>").data
      · rw [if_pos h, show isFolTag (Piece.tag s) = true from by
          rw [isFolTag_tagP, h]
          decide, if_pos (Eq.refl true)]
        exact Nat.add_comm 1 _
      · rw [if_neg h, show isFolTag (Piece.tag s) = false from by
          rw [isFolTag_tagP]
          exact decide_eq_false h]
        simp
    | ws w =>
      obtain ⟨hw, hh, hrest⟩ := hv
      rw [List.map_cons, List.flatten_cons, tjPiece_ws, List.nil_append, ih hrest,
        List.countP_cons, isFolTag_wsP]
      simp
    | txt x =>
      obtain ⟨hx, hh, hrest⟩ := hv
      rw [List.map_cons, List.flatten_cons]
      have hseg : ∀ c ∈ tjPiece (Piece.txt x), ¬ c = '<' := by
        intro c hc
        by_cases hall : (collapse x).all jsWs
        · rw [show tjPiece (Piece.txt x) = [] from by simp [tjPiece, hall]] at hc
          exact absurd hc (List.not_mem_nil c)
        · rw [show tjPiece (Piece.txt x) = collapse x from by simp [tjPiece, hall]] at hc
          rcases mem_collapseGo .norm x c hc with h1 | h1 | ⟨w, hw, _⟩
          · exact (hx c h1).1
          · rw [h1]
            decide
          · simp at hw
      rw [countOcc_append_no_lt _ _ hseg, ih hrest, List.countP_cons, isFolTag_txtP]
      simp

/-- The follower-tag occurrence count of the whole output, reduced to a count
over the document pieces. -/
theorem countOcc_fol_generate (cfg : VesselSpawnConfig) :
    countOcc ("<follower>").data (generateLotusParamXML cfg).data =
      List.countP isFolTag (bodyPieces cfg) := by
  rw [generate_eq_compact]
  have hdata : (serializeCompact cfg).data =
      ("<lotus_param>").data ++ ((bodyPieces cfg).map tjPiece).flatten := by
    rw [compact_body]
    simp only [serializeCompact, String.data_append, -String.reduceAppend, List.append_assoc]
  rw [hdata, countOcc_tag_append _ _ tagOk_open_lotus_param,
    countOcc_fol_flatten _ (vtail_body cfg), if_neg (by decide)]
  simp

theorem countP_fol_render (cfg : VesselSpawnConfig) :
    List.countP isFolTag (renderPieces cfg) = 0 := by
  unfold renderPieces
  cases hr : cfg.renderEnabled
  · simp [hr]
  · simp only [hr, if_true, List.countP_cons, List.countP_nil, strippedTxt, isFolTag_txtP,
      isFolTag_wsP, folf_o_render_interface, folf_c_render_interface, folf_o_publish_render,
      folf_c_publish_render, folf_o_renderer_type_name, folf_c_renderer_type_name]
    simp

theorem countP_fol_thrRest : ∀ (l : List String) (k : ℕ),
    List.countP isFolTag (thrusterPiecesRest k l) = 0 := by
  intro l
  induction l with
  | nil =>
    intro k
    rfl
  | cons a t ih =>
    intro k
    simp only [thrusterPiecesRest, List.countP_cons, strippedTxt, isFolTag_txtP, isFolTag_wsP,
      folf_thr_open, folf_thr_close, ih (k + 1)]
    simp

theorem countP_fol_thrRegion (k : ℕ) (l : List String) :
    List.countP isFolTag (thrustersRegionPieces k l) = 0 := by
  cases l with
  | nil =>
    simp [thrustersRegionPieces, List.countP_cons, isFolTag_wsP]
  | cons a t =>
    simp only [thrustersRegionPieces, List.countP_cons, List.countP_append, List.countP_nil,
      strippedTxt, isFolTag_txtP, isFolTag_wsP, folf_thr_open, folf_thr_close,
      countP_fol_thrRest]
    simp

theorem countP_fol_mode (mode : String) (config : PhysicsModeConfig)
    (hm : mode = "aerial" ∨ mode = "surface" ∨ mode = "underwater") :
    List.countP isFolTag (modePieces mode config) = 0 := by
  rcases hm with h | h | h <;> subst h <;>
    simp only [modePieces, List.countP_append, List.countP_cons, List.countP_nil, strippedTxt,
      isFolTag_txtP, isFolTag_wsP, folf_o_m_aerial, folf_c_m_aerial, folf_o_m_surface,
      folf_c_m_surface, folf_o_m_underwater, folf_c_m_underwater, folf_o_ConnectionType,
      folf_c_ConnectionType, folf_o_uri, folf_c_uri, folf_o_thrusters, folf_c_thrusters,
      countP_fol_thrRegion] <;>
    simp

theorem countP_fol_modeList (cfg : VesselSpawnConfig) :
    ∀ (names : List String), (∀ m ∈ names, m = "aerial" ∨ m = "surface" ∨ m = "underwater") →
    List.countP isFolTag
      ((names.map (fun mode => modePieces mode (physicsConfigOf cfg mode))).flatten) = 0 := by
  intro names
  induction names with
  | nil =>
    intro _
    rfl
  | cons a t ih =>
    intro h
    rw [List.map_cons, List.flatten_cons, List.countP_append,
      countP_fol_mode a _ (h a (List.mem_cons_self a t)),
      ih (fun m hm => h m (List.mem_cons_of_mem a hm))]

theorem countP_fol_phys (cfg : VesselSpawnConfig) :
    List.countP isFolTag (physPieces cfg) = 0 := by
  unfold physPieces
  cases hp : cfg.physicsEnabled
  · simp [hp]
  · simp only [hp, if_true, List.countP_append, List.countP_cons, List.countP_nil, strippedTxt,
      isFolTag_txtP, isFolTag_wsP, folf_o_physics_engine_interface,
      folf_c_physics_engine_interface, folf_o_init_state, folf_c_init_state]
    rw [countP_fol_modeList cfg _ (fun m hm => mem_enabledModeNames cfg.physicsModes m hm)]
    simp

theorem countP_fol_commonCore (wf : WaypointFollowerState) :
    List.countP isFolTag (commonLimitsCorePieces wf) = 0 := by
  simp only [commonLimitsCorePieces, List.countP_cons, List.countP_nil, strippedTxt,
    isFolTag_txtP, isFolTag_wsP, folf_o_loop, folf_c_loop, folf_o_linear_acceleration_limit,
    folf_c_linear_acceleration_limit, folf_o_angular_acceleration_limit,
    folf_c_angular_acceleration_limit, folf_o_angular_velocity_limit,
    folf_c_angular_velocity_limit]
  simp

theorem countP_fol_head (wf : WaypointFollowerState) :
    List.countP isFolTag (followerHeadPieces wf) = 1 := by
  simp only [followerHeadPieces, List.countP_append, List.countP_cons, List.countP_nil,
    isFolTag_wsP, folf_o_follower, countP_fol_commonCore]
  simp

theorem countP_fol_wpList : ∀ (l : List WaypointLatLng),
    List.countP isFolTag (waypointPieces l) = 0 := by
  intro l
  induction l with
  | nil => rfl
  | cons a t ih =>
    simp only [waypointPieces, List.countP_cons, strippedTxt, isFolTag_txtP,
      folf_o_waypoint, folf_c_waypoint, ih]
    simp

theorem countP_fol_wfInner (wf : WaypointFollowerState) :
    List.countP isFolTag (wfInnerPieces wf) = (followersOf wf).length := by
  unfold wfInnerPieces followersOf
  by_cases h1 : wf.mode = "waypoints" ∧ wf.waypoints.length > 0
  · have h2 : ¬ wf.mode = "line" := fun h => absurd (h1.1.symm.trans h) (by decide)
    have h3 : ¬ wf.mode = "circle" := fun h => absurd (h1.1.symm.trans h) (by decide)
    rw [if_pos h1, if_pos h1, if_neg h2, if_neg h3]
    simp only [List.countP_append, List.countP_cons, List.countP_nil, countP_fol_head,
      countP_fol_wpList, isFolTag_wsP, folf_o_waypoints, folf_c_waypoints, folf_c_follower]
    simp
  · rw [if_neg h1, if_neg h1]
    by_cases h2 : wf.mode = "line"
    · have h3 : ¬ wf.mode = "circle" := fun h => absurd (h2.symm.trans h) (by decide)
      rw [if_pos h2, if_pos h2, if_neg h3]
      simp only [List.countP_append, List.countP_cons, List.countP_nil, countP_fol_head,
        isFolTag_wsP, strippedTxt, isFolTag_txtP, folf_o_line, folf_c_line, folf_o_direction,
        folf_c_direction, folf_o_length, folf_c_length, folf_c_follower]
      simp
    · rw [if_neg h2, if_neg h2]
      by_cases h3 : wf.mode = "circle"
      · rw [if_pos h3, if_pos h3]
        simp only [List.countP_append, List.countP_cons, List.countP_nil, countP_fol_head,
          isFolTag_wsP, strippedTxt, isFolTag_txtP, folf_o_circle, folf_c_circle,
          folf_o_radius, folf_c_radius, folf_c_follower]
        simp
      · rw [if_neg h3, if_neg h3]
        simp [List.countP_cons, isFolTag_wsP]

theorem countP_fol_body (cfg : VesselSpawnConfig) (he : cfg.waypointFollower.enabled = true) :
    List.countP isFolTag (bodyPieces cfg) = (followersOf cfg.waypointFollower).length := by
  unfold bodyPieces wfPieces
  simp only [he, if_true, List.countP_append, List.countP_cons, List.countP_nil,
    countP_fol_render, countP_fol_phys, countP_fol_wfInner, isFolTag_wsP,
    folf_o_waypoint_follower, folf_c_waypoint_follower, folf_c_lotus_param]
  simp

theorem noWW_tail {c : Char} {t : List Char} (h : NoWW (c :: t)) : NoWW t := by
  cases t with
  | nil => trivial
  | cons d t2 => exact h.2

theorem noWW_cons_nonws (a : Char) (l : List Char) (ha : jsWs a = false) (h : NoWW l) :
    NoWW (a :: l) := by
  cases l with
  | nil => trivial
  | cons b t => exact ⟨fun hp => by rw [ha] at hp; exact absurd hp.1 (by simp), h⟩

theorem noWW_cons_ws (a : Char) (l : List Char)
    (hh : ∀ c, l.head? = some c → jsWs c = false) (h : NoWW l) : NoWW (a :: l) := by
  cases l with
  | nil => trivial
  | cons b t =>
    exact ⟨fun hp => by rw [hh b rfl] at hp; exact absurd hp.2 (by simp), h⟩

theorem noWW_head_of_ws {c : Char} {t : List Char} (h : NoWW (c :: t)) (hc : jsWs c = true) :
    ∀ d, t.head? = some d → jsWs d = false := by
  cases t with
  | nil => intro d hd; cases hd
  | cons e t2 =>
    intro d hd
    have h2 : e = d := by injection hd
    subst h2
    cases he : jsWs e
    · rfl
    · exact absurd ⟨hc, he⟩ h.1

theorem noWW_collapseGo (l : List Char) :
    NoWW (collapseGo .norm l) ∧ NoWW (collapseGo .inRun l) ∧
    (∀ c, (collapseGo .inRun l).head? = some c → jsWs c = false) ∧
    (∀ w, NoWW (collapseGo (.pend w) l)) := by
  induction l with
  | nil =>
    refine ⟨trivial, trivial, ?_, fun w => trivial⟩
    intro c hc
    cases hc
  | cons c t ih =>
    by_cases hc : jsWs c = true
    · refine ⟨?_, ?_, ?_, ?_⟩
      · rw [show collapseGo .norm (c :: t) = collapseGo (.pend c) t from by
          rw [collapseGo, if_pos hc]]
        exact ih.2.2.2 c
      · rw [show collapseGo .inRun (c :: t) = collapseGo .inRun t from by
          rw [collapseGo, if_pos hc]]
        exact ih.2.1
      · rw [show collapseGo .inRun (c :: t) = collapseGo .inRun t from by
          rw [collapseGo, if_pos hc]]
        exact ih.2.2.1
      · intro w
        rw [show collapseGo (.pend w) (c :: t) = ' ' :: collapseGo .inRun t from by
          rw [collapseGo, if_pos hc]]
        exact noWW_cons_ws ' ' _ ih.2.2.1 ih.2.1
    · rw [Bool.not_eq_true] at hc
      refine ⟨?_, ?_, ?_, ?_⟩
      · rw [show collapseGo .norm (c :: t) = c :: collapseGo .norm t from by
          rw [collapseGo, if_neg (by simp [hc])]]
        exact noWW_cons_nonws c _ hc ih.1
      · rw [show collapseGo .inRun (c :: t) = c :: collapseGo .norm t from by
          rw [collapseGo, if_neg (by simp [hc])]]
        exact noWW_cons_nonws c _ hc ih.1
      · rw [show collapseGo .inRun (c :: t) = c :: collapseGo .norm t from by
          rw [collapseGo, if_neg (by simp [hc])]]
        intro d hd
        injection hd with h2
        subst h2
        exact hc
      · intro w
        rw [show collapseGo (.pend w) (c :: t) = w :: c :: collapseGo .norm t from by
          rw [collapseGo, if_neg (by simp [hc])]]
        refine noWW_cons_ws w _ ?_ (noWW_cons_nonws c _ hc ih.1)
        intro d hd
        injection hd with h2
        subst h2
        exact hc

theorem noWW_collapse (l : List Char) : NoWW (collapse l) := (noWW_collapseGo l).1

theorem collapse_eq_self_of_noWW (l : List Char) (h : NoWW l) :
    collapseGo .norm l = l ∧
    (∀ w, (∀ d, l.head? = some d → jsWs d = false) → collapseGo (.pend w) l = w :: l) := by
  induction l with
  | nil => exact ⟨rfl, fun w _ => rfl⟩
  | cons c t ih =>
    have ht := noWW_tail h
    have iht := ih ht
    constructor
    · by_cases hc : jsWs c = true
      · rw [show collapseGo .norm (c :: t) = collapseGo (.pend c) t from by
          rw [collapseGo, if_pos hc]]
        exact iht.2 c (noWW_head_of_ws h hc)
      · rw [Bool.not_eq_true] at hc
        rw [show collapseGo .norm (c :: t) = c :: collapseGo .norm t from by
          rw [collapseGo, if_neg (by simp [hc])]]
        rw [iht.1]
    · intro w hhead
      have hc : jsWs c = false := hhead c rfl
      rw [show collapseGo (.pend w) (c :: t) = w :: c :: collapseGo .norm t from by
        rw [collapseGo, if_neg (by simp [hc])]]
      rw [iht.1]

theorem noNlTab_listStrip (l : List Char) : NoNlTab (listStrip l) := by
  intro c hc
  have := List.of_mem_filter hc
  simpa using this

theorem noNlTab_collapse (l : List Char) (h : NoNlTab l) : NoNlTab (collapse l) := by
  intro c hc
  rcases mem_collapseGo _ _ _ hc with h1 | h1 | ⟨w, hw, -⟩
  · exact h c h1
  · subst h1; decide
  · cases hw

theorem tagJoinGo_norm_other (c : Char) (X : List Char) (h : ¬ c = '>') :
    tagJoinGo .norm (c :: X) = c :: tagJoinGo .norm X := by
  rw [tagJoinGo, if_neg h]

theorem tagJoinGo_gt_ws (acc : List Char) (c : Char) (t : List Char) (h : jsWs c = true) :
    tagJoinGo (.gt acc) (c :: t) = tagJoinGo (.gt (c :: acc)) t := by
  rw [tagJoinGo, if_pos h]

theorem tagJoinGo_gt_gtChar (acc t : List Char) :
    tagJoinGo (.gt acc) ('>' :: t) = '>' :: acc.reverse ++ tagJoinGo (.gt []) t := by
  rw [tagJoinGo, if_neg (by decide), if_neg (by decide), if_pos rfl]

theorem tagJoinGo_gt_head (acc l : List Char) :
    (tagJoinGo (.gt acc) l).head? = some '>' := by
  induction l generalizing acc with
  | nil => rfl
  | cons c t ih =>
    by_cases hws : jsWs c = true
    · rw [tagJoinGo_gt_ws _ _ _ hws]
      exact ih _
    · by_cases hlt : c = '<'
      · subst hlt
        rw [tagJoinGo_gt_lt]
        rfl
      · by_cases hgt : c = '>'
        · subst hgt
          rw [tagJoinGo_gt_gtChar]
          rfl
        · rw [tagJoinGo_gt_other _ _ _ (by simp [hws]) hlt hgt]
          rfl

theorem tagJoinGo_norm_headNonWs (l : List Char)
    (hl : ∀ c, l.head? = some c → jsWs c = false) :
    ∀ c, (tagJoinGo .norm l).head? = some c → jsWs c = false := by
  cases l with
  | nil => intro c hc; cases hc
  | cons d t =>
    by_cases hd : d = '>'
    · subst hd
      rw [tagJoinGo_norm_gtChar]
      intro c hc
      rw [tagJoinGo_gt_head] at hc
      have h2 : '>' = c := by injection hc
      subst h2
      decide
    · rw [tagJoinGo_norm_other d t hd]
      intro c hc
      have h2 : d = c := by injection hc
      subst h2
      exact hl d rfl

theorem mem_tagJoinGo (l : List Char) (c : Char) :
    ∀ m, c ∈ tagJoinGo m l → c ∈ l ∨ c = '>' ∨ c = '<' ∨ ∃ acc, m = .gt acc ∧ c ∈ acc := by
  induction l with
  | nil =>
    intro m hc
    cases m with
    | norm => cases hc
    | gt acc =>
      rcases List.mem_cons.mp hc with rfl | hc2
      · exact Or.inr (Or.inl rfl)
      · exact Or.inr (Or.inr (Or.inr ⟨acc, rfl, List.mem_reverse.mp hc2⟩))
  | cons d t ih =>
    intro m hc
    cases m with
    | norm =>
      by_cases hd : d = '>'
      · subst hd
        rw [tagJoinGo_norm_gtChar] at hc
        rcases ih (.gt []) hc with h1 | h1 | h1 | ⟨acc, heq, hm⟩
        · exact Or.inl (List.mem_cons_of_mem _ h1)
        · exact Or.inr (Or.inl h1)
        · exact Or.inr (Or.inr (Or.inl h1))
        · have : acc = ([] : List Char) := by injection heq with h2; exact h2.symm
          subst this
          cases hm
      · rw [tagJoinGo_norm_other d t hd] at hc
        rcases List.mem_cons.mp hc with rfl | hc2
        · exact Or.inl (List.mem_cons_self _ _)
        · rcases ih .norm hc2 with h1 | h1 | h1 | ⟨acc, heq, -⟩
          · exact Or.inl (List.mem_cons_of_mem _ h1)
          · exact Or.inr (Or.inl h1)
          · exact Or.inr (Or.inr (Or.inl h1))
          · cases heq
    | gt acc =>
      by_cases hws : jsWs d = true
      · rw [tagJoinGo_gt_ws _ _ _ hws] at hc
        rcases ih (.gt (d :: acc)) hc with h1 | h1 | h1 | ⟨acc2, heq, hm⟩
        · exact Or.inl (List.mem_cons_of_mem _ h1)
        · exact Or.inr (Or.inl h1)
        · exact Or.inr (Or.inr (Or.inl h1))
        · have h2 : d :: acc = acc2 := by injection heq
          rw [← h2] at hm
          rcases List.mem_cons.mp hm with rfl | hm2
          · exact Or.inl (List.mem_cons_self _ _)
          · exact Or.inr (Or.inr (Or.inr ⟨acc, rfl, hm2⟩))
      · by_cases hlt : d = '<'
        · subst hlt
          rw [tagJoinGo_gt_lt] at hc
          rcases List.mem_cons.mp hc with rfl | hc2
          · exact Or.inr (Or.inl rfl)
          · rcases List.mem_cons.mp hc2 with rfl | hc3
            · exact Or.inr (Or.inr (Or.inl rfl))
            · rcases ih .norm hc3 with h1 | h1 | h1 | ⟨acc2, heq, -⟩
              · exact Or.inl (List.mem_cons_of_mem _ h1)
              · exact Or.inr (Or.inl h1)
              · exact Or.inr (Or.inr (Or.inl h1))
              · cases heq
        · by_cases hgt : d = '>'
          · subst hgt
            rw [tagJoinGo_gt_gtChar] at hc
            rcases List.mem_cons.mp hc with rfl | hc2
            · exact Or.inr (Or.inl rfl)
            · rcases List.mem_append.mp hc2 with h1 | h1
              · exact Or.inr (Or.inr (Or.inr ⟨acc, rfl, List.mem_reverse.mp h1⟩))
              · rcases ih (.gt []) h1 with h2 | h2 | h2 | ⟨acc2, heq, hm⟩
                · exact Or.inl (List.mem_cons_of_mem _ h2)
                · exact Or.inr (Or.inl h2)
                · exact Or.inr (Or.inr (Or.inl h2))
                · have : acc2 = ([] : List Char) := by injection heq with h3; exact h3.symm
                  subst this
                  cases hm
          · rw [tagJoinGo_gt_other _ _ _ (by simp [hws]) hlt hgt] at hc
            rcases List.mem_cons.mp hc with rfl | hc2
            · exact Or.inr (Or.inl rfl)
            · rcases List.mem_append.mp hc2 with h1 | h1
              · exact Or.inr (Or.inr (Or.inr ⟨acc, rfl, List.mem_reverse.mp h1⟩))
              · rcases List.mem_cons.mp h1 with rfl | h2
                · exact Or.inl (List.mem_cons_self _ _)
                · rcases ih .norm h2 with h3 | h3 | h3 | ⟨acc2, heq, -⟩
                  · exact Or.inl (List.mem_cons_of_mem _ h3)
                  · exact Or.inr (Or.inl h3)
                  · exact Or.inr (Or.inr (Or.inl h3))
                  · cases heq

theorem noNlTab_tagJoin (l : List Char) (h : NoNlTab l) : NoNlTab (tagJoin l) := by
  intro c hc
  rcases mem_tagJoinGo l c .norm hc with h1 | h1 | h1 | ⟨acc, heq, -⟩
  · exact h c h1
  · subst h1; decide
  · subst h1; decide
  · cases heq

theorem noWW_tagJoinGo (l : List Char) :
    NoWW l →
    NoWW (tagJoinGo .norm l) ∧ NoWW (tagJoinGo (.gt []) l) ∧
      (∀ w, (∀ c, l.head? = some c → jsWs c = false) → NoWW (tagJoinGo (.gt [w]) l)) := by
  induction l with
  | nil =>
    intro _
    refine ⟨trivial, trivial, fun w _ => ?_⟩
    exact noWW_cons_nonws '>' [w] (by decide) trivial
  | cons c t ih =>
    intro h
    have iht := ih (noWW_tail h)
    refine ⟨?_, ?_, ?_⟩
    · by_cases hgt : c = '>'
      · subst hgt
        rw [tagJoinGo_norm_gtChar]
        exact iht.2.1
      · rw [tagJoinGo_norm_other c t hgt]
        by_cases hws : jsWs c = true
        · exact noWW_cons_ws c _
            (tagJoinGo_norm_headNonWs t (noWW_head_of_ws h hws)) iht.1
        · exact noWW_cons_nonws c _ (by simp [hws]) iht.1
    · by_cases hws : jsWs c = true
      · rw [tagJoinGo_gt_ws _ _ _ hws]
        exact iht.2.2 c (noWW_head_of_ws h hws)
      · by_cases hlt : c = '<'
        · subst hlt
          rw [tagJoinGo_gt_lt]
          exact noWW_cons_nonws '>' _ (by decide)
            (noWW_cons_nonws '<' _ (by decide) iht.1)
        · by_cases hgt : c = '>'
          · subst hgt
            rw [tagJoinGo_gt_gtChar]
            rw [show ('>' :: ([] : List Char).reverse ++ tagJoinGo (.gt []) t) =
              '>' :: tagJoinGo (.gt []) t from rfl]
            exact noWW_cons_nonws '>' _ (by decide) iht.2.1
          · rw [tagJoinGo_gt_other _ _ _ (by simp [hws]) hlt hgt]
            rw [show ('>' :: ([] : List Char).reverse ++ c :: tagJoinGo .norm t) =
              '>' :: c :: tagJoinGo .norm t from rfl]
            exact noWW_cons_nonws '>' _ (by decide)
              (noWW_cons_nonws c _ (by simp [hws]) iht.1)
    · intro w hhead
      have hcn : jsWs c = false := hhead c rfl
      by_cases hlt : c = '<'
      · subst hlt
        rw [tagJoinGo_gt_lt]
        exact noWW_cons_nonws '>' _ (by decide)
          (noWW_cons_nonws '<' _ (by decide) iht.1)
      · by_cases hgt : c = '>'
        · subst hgt
          rw [tagJoinGo_gt_gtChar]
          rw [show ('>' :: ([w] : List Char).reverse ++ tagJoinGo (.gt []) t) =
            '>' :: w :: tagJoinGo (.gt []) t from rfl]
          refine noWW_cons_nonws '>' _ (by decide) ?_
          refine noWW_cons_ws w _ ?_ iht.2.1
          intro d hd
          rw [tagJoinGo_gt_head] at hd
          have h2 : '>' = d := by injection hd
          subst h2
          decide
        · rw [tagJoinGo_gt_other _ _ _ hcn hlt hgt]
          rw [show ('>' :: ([w] : List Char).reverse ++ c :: tagJoinGo .norm t) =
            '>' :: w :: c :: tagJoinGo .norm t from rfl]
          refine noWW_cons_nonws '>' _ (by decide) ?_
          refine noWW_cons_ws w _ ?_ (noWW_cons_nonws c _ hcn iht.1)
          intro d hd
          have h2 : c = d := by injection hd
          subst h2
          exact hcn

theorem noWW_tagJoin (l : List Char) (h : NoWW l) : NoWW (tagJoin l) :=
  ((noWW_tagJoinGo l) h).1

theorem dropWhile_ws_append (w rest : List Char) (hw : ∀ x ∈ w, jsWs x = true) :
    (w ++ rest).dropWhile jsWs = rest.dropWhile jsWs := by
  induction w with
  | nil => rfl
  | cons a w2 ih =>
    simp only [List.cons_append, List.dropWhile_cons]
    rw [if_pos (hw a (List.mem_cons_self a w2))]
    exact ih fun x hx => hw x (List.mem_cons_of_mem a hx)

theorem takeWhile_ws_append_cons (w : List Char) (c : Char) (rest : List Char)
    (hw : ∀ x ∈ w, jsWs x = true) (hc : jsWs c = false) :
    (w ++ c :: rest).takeWhile jsWs = w := by
  induction w with
  | nil =>
    simp only [List.nil_append, List.takeWhile_cons]
    rw [if_neg (by simp [hc])]
  | cons a w2 ih =>
    simp only [List.cons_append, List.takeWhile_cons]
    rw [if_pos (hw a (List.mem_cons_self a w2))]
    rw [ih fun x hx => hw x (List.mem_cons_of_mem a hx)]

theorem noStart_of_head_nonws (t : List Char)
    (h : ∀ c, t.head? = some c → jsWs c = false) : NoStart t := by
  intro hAB
  obtain ⟨h1, h2⟩ := hAB
  cases t with
  | nil => exact h1 rfl
  | cons d t2 =>
    rw [List.takeWhile_cons, if_neg (by simp [h d rfl])] at h1
    exact h1 rfl

theorem noStart_ws_headNonWs (acc rest : List Char) (hacc : ∀ x ∈ acc, jsWs x = true)
    (hrest : ∀ c, rest.head? = some c → jsWs c = false ∧ ¬ c = '<') :
    NoStart (acc ++ rest) := by
  intro hAB
  obtain ⟨h1, h2⟩ := hAB
  rw [dropWhile_ws_append acc rest hacc] at h2
  cases rest with
  | nil => simp at h2
  | cons r rest2 =>
    have hr := hrest r rfl
    rw [List.dropWhile_cons, if_neg (by simp [hr.1])] at h2
    have h3 : r = '<' := by injection h2
    exact hr.2 h3

theorem noMatch_ws_append (acc rest : List Char) (hacc : ∀ x ∈ acc, jsWs x = true)
    (h : NoMatch rest) : NoMatch (acc ++ rest) := by
  induction acc with
  | nil => simpa using h
  | cons a acc2 ih =>
    refine ⟨fun ha => ?_, ih fun x hx => hacc x (List.mem_cons_of_mem a hx)⟩
    have := hacc a (List.mem_cons_self a acc2)
    rw [ha] at this
    exact absurd this (by decide)

theorem noStart_all_ws (t : List Char) (h : ∀ x ∈ t, jsWs x = true) : NoStart t := by
  intro hAB
  obtain ⟨h1, h2⟩ := hAB
  have hd := dropWhile_ws_append t [] h
  simp only [List.append_nil] at hd
  rw [hd] at h2
  cases h2

theorem noMatch_tagJoinGo (l : List Char) :
    NoMatch (tagJoinGo .norm l) ∧
      ∀ acc, (∀ x ∈ acc, jsWs x = true) → NoMatch (tagJoinGo (.gt acc) l) := by
  induction l with
  | nil =>
    refine ⟨trivial, fun acc hacc => ?_⟩
    have haccr : ∀ x ∈ acc.reverse, jsWs x = true :=
      fun x hx => hacc x (List.mem_reverse.mp hx)
    refine ⟨fun _ => noStart_all_ws _ haccr, ?_⟩
    have h2 := noMatch_ws_append acc.reverse [] haccr trivial
    simpa using h2
  | cons c t ih =>
    refine ⟨?_, ?_⟩
    · by_cases hgt : c = '>'
      · subst hgt
        rw [tagJoinGo_norm_gtChar]
        exact ih.2 [] (by intro x hx; cases hx)
      · rw [tagJoinGo_norm_other c t hgt]
        exact ⟨fun hc => absurd hc hgt, ih.1⟩
    · intro acc hacc
      have haccr : ∀ x ∈ acc.reverse, jsWs x = true :=
        fun x hx => hacc x (List.mem_reverse.mp hx)
      by_cases hws : jsWs c = true
      · rw [tagJoinGo_gt_ws _ _ _ hws]
        exact ih.2 (c :: acc) (by
          intro x hx
          rcases List.mem_cons.mp hx with rfl | hx2
          · exact hws
          · exact hacc x hx2)
      · by_cases hlt : c = '<'
        · subst hlt
          rw [tagJoinGo_gt_lt]
          refine ⟨fun _ => ?_, ⟨fun h2 => absurd h2 (by decide), ih.1⟩⟩
          exact noStart_of_head_nonws _ (by
            intro d hd
            have h2 : '<' = d := by injection hd
            subst h2
            decide)
        · by_cases hgt : c = '>'
          · subst hgt
            rw [tagJoinGo_gt_gtChar]
            refine ⟨fun _ => ?_, ?_⟩
            · refine noStart_ws_headNonWs acc.reverse _ haccr ?_
              intro d hd
              rw [tagJoinGo_gt_head] at hd
              have h2 : '>' = d := by injection hd
              subst h2
              exact ⟨by decide, by decide⟩
            · exact noMatch_ws_append acc.reverse _ haccr (ih.2 [] (by intro x hx; cases hx))
          · rw [tagJoinGo_gt_other _ _ _ (by simp [hws]) hlt hgt]
            refine ⟨fun _ => ?_, ?_⟩
            · refine noStart_ws_headNonWs acc.reverse _ haccr ?_
              intro d hd
              have h2 : c = d := by injection hd
              subst h2
              exact ⟨by simp [hws], hlt⟩
            · exact noMatch_ws_append acc.reverse _ haccr ⟨fun h2 => absurd h2 hgt, ih.1⟩

theorem noMatch_tagJoin (l : List Char) : NoMatch (tagJoin l) := (noMatch_tagJoinGo l).1

theorem tagJoin_eq_self_of_noMatch (l : List Char) :
    (NoMatch l → tagJoinGo .norm l = l) ∧
      (∀ acc, (∀ x ∈ acc, jsWs x = true) → NoMatch l → NoStart (acc.reverse ++ l) →
        tagJoinGo (.gt acc) l = '>' :: acc.reverse ++ l) := by
  induction l with
  | nil =>
    refine ⟨fun _ => rfl, fun acc _ _ _ => ?_⟩
    simp [tagJoinGo]
  | cons c t ih =>
    refine ⟨?_, ?_⟩
    · intro h
      by_cases hgt : c = '>'
      · subst hgt
        rw [tagJoinGo_norm_gtChar]
        have := ih.2 [] (by intro x hx; cases hx) h.2 (by simpa using h.1 rfl)
        simpa using this
      · rw [tagJoinGo_norm_other c t hgt, ih.1 h.2]
    · intro acc hacc h hns
      have haccr : ∀ x ∈ acc.reverse, jsWs x = true :=
        fun x hx => hacc x (List.mem_reverse.mp hx)
      by_cases hws : jsWs c = true
      · rw [tagJoinGo_gt_ws _ _ _ hws]
        have hrec := ih.2 (c :: acc) (by
            intro x hx
            rcases List.mem_cons.mp hx with rfl | hx2
            · exact hws
            · exact hacc x hx2) h.2 (by
          simpa [List.append_assoc] using hns)
        rw [hrec]
        simp
      · by_cases hlt : c = '<'
        · subst hlt
          have hacc0 : acc = [] := by
            by_contra hne
            apply hns
            constructor
            · rw [takeWhile_ws_append_cons acc.reverse '<' t haccr (by decide)]
              simpa using hne
            · rw [dropWhile_ws_append _ _ haccr, List.dropWhile_cons,
                if_neg (by decide)]
              rfl
          subst hacc0
          rw [tagJoinGo_gt_lt, ih.1 h.2]
          simp
        · by_cases hgt : c = '>'
          · subst hgt
            rw [tagJoinGo_gt_gtChar]
            have hrec := ih.2 [] (by intro x hx; cases hx) h.2 (by simpa using h.1 rfl)
            rw [hrec]
            simp
          · rw [tagJoinGo_gt_other _ _ _ (by simp [hws]) hlt hgt, ih.1 h.2]

theorem dropWhile_idem (p : Char → Bool) (l : List Char) :
    (l.dropWhile p).dropWhile p = l.dropWhile p := by
  cases hd : l.dropWhile p with
  | nil => rfl
  | cons d r =>
    have h0 := List.head?_dropWhile_not p l
    rw [hd] at h0
    simp at h0
    rw [List.dropWhile_cons, if_neg (by simp [h0])]

theorem trimLeft_eq_self_of_head (l : List Char)
    (h : ∀ c, l.head? = some c → jsWs c = false) : trimLeft l = l := by
  cases l with
  | nil => rfl
  | cons c t =>
    show List.dropWhile jsWs (c :: t) = c :: t
    rw [List.dropWhile_cons, if_neg (by simp [h c rfl])]

theorem dropWhile_suffix_ex (l : List Char) : ∃ u, u ++ l.dropWhile jsWs = l := by
  induction l with
  | nil => exact ⟨[], rfl⟩
  | cons c t ih =>
    by_cases hc : jsWs c = true
    · rw [List.dropWhile_cons, if_pos hc]
      obtain ⟨u, hu⟩ := ih
      exact ⟨c :: u, by rw [List.cons_append, hu]⟩
    · rw [List.dropWhile_cons, if_neg (by simp [hc])]
      exact ⟨[], rfl⟩

theorem trimRight_prefix (l : List Char) : ∃ v, trimRight l ++ v = l := by
  obtain ⟨u, hu⟩ := dropWhile_suffix_ex l.reverse
  refine ⟨u.reverse, ?_⟩
  show (l.reverse.dropWhile jsWs).reverse ++ u.reverse = l
  rw [← List.reverse_append, hu, List.reverse_reverse]

theorem jsTrimList_infix (l : List Char) : ∃ u v, l = u ++ (jsTrimList l ++ v) := by
  obtain ⟨u, hu⟩ := dropWhile_suffix_ex l
  obtain ⟨v, hv⟩ := trimRight_prefix (trimLeft l)
  refine ⟨u, v, ?_⟩
  rw [show jsTrimList l = trimRight (trimLeft l) from rfl, hv,
    show trimLeft l = l.dropWhile jsWs from rfl, hu]

theorem jsTrimList_head (l : List Char) (c : Char)
    (h : (jsTrimList l).head? = some c) : jsWs c = false := by
  obtain ⟨v, hv⟩ := trimRight_prefix (trimLeft l)
  cases hjt : jsTrimList l with
  | nil => rw [hjt] at h; cases h
  | cons d r =>
    rw [hjt] at h
    have hdc : d = c := by injection h
    subst hdc
    have h2 : (trimLeft l).head? = some d := by
      rw [← hv, show trimRight (trimLeft l) = jsTrimList l from rfl, hjt]
      rfl
    have h3 := List.head?_dropWhile_not jsWs l
    rw [show l.dropWhile jsWs = trimLeft l from rfl, h2] at h3
    simpa using h3

theorem trimRight_idem (y : List Char) : trimRight (trimRight y) = trimRight y := by
  show ((trimRight y).reverse.dropWhile jsWs).reverse = trimRight y
  rw [show trimRight y = (y.reverse.dropWhile jsWs).reverse from rfl, List.reverse_reverse,
    dropWhile_idem]

theorem jsTrimList_idem (l : List Char) : jsTrimList (jsTrimList l) = jsTrimList l := by
  show trimRight (trimLeft (trimRight (trimLeft l))) = trimRight (trimLeft l)
  rw [show trimLeft (trimRight (trimLeft l)) = trimRight (trimLeft l) from
    trimLeft_eq_self_of_head _ (fun c hc => jsTrimList_head l c hc)]
  exact trimRight_idem _

theorem noWW_append_left (u v : List Char) (h : NoWW (u ++ v)) : NoWW u := by
  induction u with
  | nil => trivial
  | cons a u2 ih =>
    cases u2 with
    | nil => trivial
    | cons b u3 =>
      simp only [List.cons_append] at h
      exact ⟨h.1, ih h.2⟩

theorem noWW_append_right (u v : List Char) (h : NoWW (u ++ v)) : NoWW v := by
  induction u with
  | nil => simpa using h
  | cons a u2 ih =>
    simp only [List.cons_append] at h
    exact ih (noWW_tail h)

theorem dropWhile_append_head (t v : List Char) (c : Char)
    (h : (t.dropWhile jsWs).head? = some c) : ((t ++ v).dropWhile jsWs).head? = some c := by
  induction t with
  | nil => cases h
  | cons a t2 ih =>
    by_cases ha : jsWs a = true
    · rw [List.dropWhile_cons, if_pos ha] at h
      rw [List.cons_append, List.dropWhile_cons, if_pos ha]
      exact ih h
    · rw [List.dropWhile_cons, if_neg (by simp [ha])] at h
      rw [List.cons_append, List.dropWhile_cons, if_neg (by simp [ha])]
      exact h

theorem takeWhile_append_ne_nil (t v : List Char) (h : t.takeWhile jsWs ≠ []) :
    (t ++ v).takeWhile jsWs ≠ [] := by
  cases t with
  | nil => simp at h
  | cons a t2 =>
    by_cases ha : jsWs a = true
    · rw [List.cons_append, List.takeWhile_cons, if_pos ha]
      simp
    · rw [List.takeWhile_cons, if_neg (by simp [ha])] at h
      simp at h

theorem noStart_append_left (t v : List Char) (h : NoStart (t ++ v)) : NoStart t := by
  intro hAB
  obtain ⟨h1, h2⟩ := hAB
  exact h ⟨takeWhile_append_ne_nil t v h1, dropWhile_append_head t v '<' h2⟩

theorem noMatch_append_left (u v : List Char) (h : NoMatch (u ++ v)) : NoMatch u := by
  induction u with
  | nil => trivial
  | cons a u2 ih =>
    rw [List.cons_append] at h
    exact ⟨fun ha => noStart_append_left u2 v (h.1 ha), ih h.2⟩

theorem noMatch_append_right (u v : List Char) (h : NoMatch (u ++ v)) : NoMatch v := by
  induction u with
  | nil => simpa using h
  | cons a u2 ih =>
    rw [List.cons_append] at h
    exact ih h.2

/-- C5: the four-step whitespace-normalization chain (newline/tab removal, run
collapse, tag-gap join, trim) is idempotent: normalizing an already-normalized
document is a no-op, so every string that is its own normalization output is
left unchanged. -/
theorem normalizeXml_idempotent (s : String) :
    normalizeXml (normalizeXml s) = normalizeXml s := by
  apply String.ext
  show jsTrimList (tagJoin (collapse (listStrip
      (jsTrimList (tagJoin (collapse (listStrip s.data))))))) =
    jsTrimList (tagJoin (collapse (listStrip s.data)))
  have h1 : NoNlTab (tagJoin (collapse (listStrip s.data))) :=
    noNlTab_tagJoin _ (noNlTab_collapse _ (noNlTab_listStrip _))
  have h2 : NoWW (tagJoin (collapse (listStrip s.data))) :=
    noWW_tagJoin _ (noWW_collapse _)
  have h3 : NoMatch (tagJoin (collapse (listStrip s.data))) := noMatch_tagJoin _
  obtain ⟨u, v, huv⟩ := jsTrimList_infix (tagJoin (collapse (listStrip s.data)))
  have hT1 : NoNlTab (jsTrimList (tagJoin (collapse (listStrip s.data)))) := by
    intro c hc
    refine h1 c ?_
    rw [huv]
    exact List.mem_append.mpr (Or.inr (List.mem_append.mpr (Or.inl hc)))
  have hT2 : NoWW (jsTrimList (tagJoin (collapse (listStrip s.data)))) :=
    noWW_append_left _ v (noWW_append_right u _ (by rw [← huv]; exact h2))
  have hT3 : NoMatch (jsTrimList (tagJoin (collapse (listStrip s.data)))) :=
    noMatch_append_left _ v (noMatch_append_right u _ (by rw [← huv]; exact h3))
  rw [listStrip_eq_self _ hT1]
  rw [show collapse (jsTrimList (tagJoin (collapse (listStrip s.data)))) =
    jsTrimList (tagJoin (collapse (listStrip s.data))) from
    (collapse_eq_self_of_noWW _ hT2).1]
  rw [show tagJoin (jsTrimList (tagJoin (collapse (listStrip s.data)))) =
    jsTrimList (tagJoin (collapse (listStrip s.data))) from
    (tagJoin_eq_self_of_noMatch _).1 hT3]
  exact jsTrimList_idem _

theorem escChain (l : List Char) :
    ((((l.flatMap (fun x => if x = '&' then ("&amp;").data else [x])).flatMap
          (fun x => if x = '<' then ("&lt;").data else [x])).flatMap
        (fun x => if x = '>' then ("&gt;").data else [x])).flatMap
      (fun x => if x = '"' then ("&quot;").data else [x])).flatMap
      (fun x => if x = '\'' then ("&apos;").data else [x]) = escList l := by
  induction l with
  | nil => rfl
  | cons c t ih =>
    simp only [List.flatMap_cons, List.flatMap_append]
    rw [ih]
    congr 1
    by_cases h1 : c = '&'
    · subst h1; decide
    · by_cases h2 : c = '<'
      · subst h2; decide
      · by_cases h3 : c = '>'
        · subst h3; decide
        · by_cases h4 : c = '"'
          · subst h4; decide
          · by_cases h5 : c = '\''
            · subst h5; decide
            · simp [h1, h2, h3, h4, h5, escChar, List.flatMap_cons, List.flatMap_nil,
                escList]

theorem data_escapeXml (s : String) : (escapeXml s).data = escList s.data :=
  escChain s.data

theorem escapedOk_escList (l : List Char) : EscapedOk (escList l) := by
  induction l with
  | nil => exact .nil
  | cons c t ih =>
    show EscapedOk (escChar c ++ escList t)
    by_cases h1 : c = '&'
    · subst h1
      exact EscapedOk.amp _ ih
    · by_cases h2 : c = '<'
      · subst h2
        exact EscapedOk.lt _ ih
      · by_cases h3 : c = '>'
        · subst h3
          exact EscapedOk.gt _ ih
        · by_cases h4 : c = '"'
          · subst h4
            exact EscapedOk.quot _ ih
          · by_cases h5 : c = '\''
            · subst h5
              exact EscapedOk.apos _ ih
            · rw [show escChar c = [c] from by simp [escChar, h1, h2, h3, h4, h5]]
              exact EscapedOk.safe c _ h1 h2 h3 h4 h5 ih

theorem wsNotReserved (c : Char) (h : jsWs c = true) :
    c ≠ '&' ∧ c ≠ '<' ∧ c ≠ '>' ∧ c ≠ '"' ∧ c ≠ '\'' := by
  refine ⟨?_, ?_, ?_, ?_, ?_⟩ <;>
    { intro heq; rw [heq] at h; exact absurd h (by decide) }

theorem listStrip_cons_keep (c : Char) (X : List Char) (hc : isNlTab c = false) :
    listStrip (c :: X) = c :: listStrip X := by
  simp [listStrip, List.filter_cons, hc]

theorem escapedOk_listStrip (l : List Char) (h : EscapedOk l) : EscapedOk (listStrip l) := by
  induction h with
  | nil => exact .nil
  | safe c t h1 h2 h3 h4 h5 ht ih =>
    by_cases hc : isNlTab c = true
    · rw [show listStrip (c :: t) = listStrip t from by simp [listStrip, List.filter_cons, hc]]
      exact ih
    · rw [listStrip_cons_keep c t (by simpa using hc)]
      exact .safe c _ h1 h2 h3 h4 h5 ih
  | amp t ht ih =>
    rw [listStrip_cons_keep _ _ (by decide), listStrip_cons_keep _ _ (by decide),
      listStrip_cons_keep _ _ (by decide), listStrip_cons_keep _ _ (by decide),
      listStrip_cons_keep _ _ (by decide)]
    exact .amp _ ih
  | lt t ht ih =>
    rw [listStrip_cons_keep _ _ (by decide), listStrip_cons_keep _ _ (by decide),
      listStrip_cons_keep _ _ (by decide), listStrip_cons_keep _ _ (by decide)]
    exact .lt _ ih
  | gt t ht ih =>
    rw [listStrip_cons_keep _ _ (by decide), listStrip_cons_keep _ _ (by decide),
      listStrip_cons_keep _ _ (by decide), listStrip_cons_keep _ _ (by decide)]
    exact .gt _ ih
  | quot t ht ih =>
    rw [listStrip_cons_keep _ _ (by decide), listStrip_cons_keep _ _ (by decide),
      listStrip_cons_keep _ _ (by decide), listStrip_cons_keep _ _ (by decide),
      listStrip_cons_keep _ _ (by decide), listStrip_cons_keep _ _ (by decide)]
    exact .quot _ ih
  | apos t ht ih =>
    rw [listStrip_cons_keep _ _ (by decide), listStrip_cons_keep _ _ (by decide),
      listStrip_cons_keep _ _ (by decide), listStrip_cons_keep _ _ (by decide),
      listStrip_cons_keep _ _ (by decide), listStrip_cons_keep _ _ (by decide)]
    exact .apos _ ih

theorem collapseGo_norm_step (c : Char) (X : List Char) (hc : jsWs c = false) :
    collapseGo .norm (c :: X) = c :: collapseGo .norm X := by
  rw [collapseGo, if_neg (by simp [hc])]

theorem collapseGo_pend_step (w c : Char) (X : List Char) (hc : jsWs c = false) :
    collapseGo (.pend w) (c :: X) = w :: c :: collapseGo .norm X := by
  rw [collapseGo, if_neg (by simp [hc])]

theorem collapseGo_inRun_step (c : Char) (X : List Char) (hc : jsWs c = false) :
    collapseGo .inRun (c :: X) = c :: collapseGo .norm X := by
  rw [collapseGo, if_neg (by simp [hc])]

theorem escapedOk_collapseGo (l : List Char) (h : EscapedOk l) :
    ∀ m : CMode, (∀ w, m = CMode.pend w → jsWs w = true) → EscapedOk (collapseGo m l) := by
  induction h with
  | nil =>
    intro m hm
    cases m with
    | norm => exact .nil
    | pend w =>
      have hres := wsNotReserved w (hm w rfl)
      exact .safe w [] hres.1 hres.2.1 hres.2.2.1 hres.2.2.2.1 hres.2.2.2.2 .nil
    | inRun => exact .nil
  | safe c t h1 h2 h3 h4 h5 ht ih =>
    intro m hm
    by_cases hws : jsWs c = true
    · cases m with
      | norm =>
        rw [show collapseGo .norm (c :: t) = collapseGo (.pend c) t from by
          rw [collapseGo, if_pos hws]]
        exact ih (.pend c) (fun w hw => by
          have h6 : c = w := by injection hw
          rw [← h6]; exact hws)
      | pend w =>
        rw [show collapseGo (.pend w) (c :: t) = ' ' :: collapseGo .inRun t from by
          rw [collapseGo, if_pos hws]]
        exact .safe ' ' _ (by decide) (by decide) (by decide) (by decide) (by decide)
          (ih .inRun (fun w2 hw2 => by cases hw2))
      | inRun =>
        rw [show collapseGo .inRun (c :: t) = collapseGo .inRun t from by
          rw [collapseGo, if_pos hws]]
        exact ih .inRun (fun w2 hw2 => by cases hw2)
    · have hcf : jsWs c = false := by simpa using hws
      cases m with
      | norm =>
        rw [collapseGo_norm_step c t hcf]
        exact .safe c _ h1 h2 h3 h4 h5 (ih .norm (fun _ hw => by cases hw))
      | pend w =>
        have hres := wsNotReserved w (hm w rfl)
        rw [collapseGo_pend_step w c t hcf]
        exact .safe w _ hres.1 hres.2.1 hres.2.2.1 hres.2.2.2.1 hres.2.2.2.2
          (.safe c _ h1 h2 h3 h4 h5 (ih .norm (fun _ hw => by cases hw)))
      | inRun =>
        rw [collapseGo_inRun_step c t hcf]
        exact .safe c _ h1 h2 h3 h4 h5 (ih .norm (fun _ hw => by cases hw))
  | amp t ht ih =>
    intro m hm
    cases m with
    | norm =>
      rw [collapseGo_norm_step _ _ (by decide), collapseGo_norm_step _ _ (by decide),
        collapseGo_norm_step _ _ (by decide), collapseGo_norm_step _ _ (by decide),
        collapseGo_norm_step _ _ (by decide)]
      exact .amp _ (ih .norm (fun _ hw => by cases hw))
    | pend w =>
      have hres := wsNotReserved w (hm w rfl)
      rw [collapseGo_pend_step _ _ _ (by decide), collapseGo_norm_step _ _ (by decide),
        collapseGo_norm_step _ _ (by decide), collapseGo_norm_step _ _ (by decide),
        collapseGo_norm_step _ _ (by decide)]
      exact .safe w _ hres.1 hres.2.1 hres.2.2.1 hres.2.2.2.1 hres.2.2.2.2
        (.amp _ (ih .norm (fun _ hw => by cases hw)))
    | inRun =>
      rw [collapseGo_inRun_step _ _ (by decide), collapseGo_norm_step _ _ (by decide),
        collapseGo_norm_step _ _ (by decide), collapseGo_norm_step _ _ (by decide),
        collapseGo_norm_step _ _ (by decide)]
      exact .amp _ (ih .norm (fun _ hw => by cases hw))
  | lt t ht ih =>
    intro m hm
    cases m with
    | norm =>
      rw [collapseGo_norm_step _ _ (by decide), collapseGo_norm_step _ _ (by decide),
        collapseGo_norm_step _ _ (by decide), collapseGo_norm_step _ _ (by decide)]
      exact .lt _ (ih .norm (fun _ hw => by cases hw))
    | pend w =>
      have hres := wsNotReserved w (hm w rfl)
      rw [collapseGo_pend_step _ _ _ (by decide), collapseGo_norm_step _ _ (by decide),
        collapseGo_norm_step _ _ (by decide), collapseGo_norm_step _ _ (by decide)]
      exact .safe w _ hres.1 hres.2.1 hres.2.2.1 hres.2.2.2.1 hres.2.2.2.2
        (.lt _ (ih .norm (fun _ hw => by cases hw)))
    | inRun =>
      rw [collapseGo_inRun_step _ _ (by decide), collapseGo_norm_step _ _ (by decide),
        collapseGo_norm_step _ _ (by decide), collapseGo_norm_step _ _ (by decide)]
      exact .lt _ (ih .norm (fun _ hw => by cases hw))
  | gt t ht ih =>
    intro m hm
    cases m with
    | norm =>
      rw [collapseGo_norm_step _ _ (by decide), collapseGo_norm_step _ _ (by decide),
        collapseGo_norm_step _ _ (by decide), collapseGo_norm_step _ _ (by decide)]
      exact .gt _ (ih .norm (fun _ hw => by cases hw))
    | pend w =>
      have hres := wsNotReserved w (hm w rfl)
      rw [collapseGo_pend_step _ _ _ (by decide), collapseGo_norm_step _ _ (by decide),
        collapseGo_norm_step _ _ (by decide), collapseGo_norm_step _ _ (by decide)]
      exact .safe w _ hres.1 hres.2.1 hres.2.2.1 hres.2.2.2.1 hres.2.2.2.2
        (.gt _ (ih .norm (fun _ hw => by cases hw)))
    | inRun =>
      rw [collapseGo_inRun_step _ _ (by decide), collapseGo_norm_step _ _ (by decide),
        collapseGo_norm_step _ _ (by decide), collapseGo_norm_step _ _ (by decide)]
      exact .gt _ (ih .norm (fun _ hw => by cases hw))
  | quot t ht ih =>
    intro m hm
    cases m with
    | norm =>
      rw [collapseGo_norm_step _ _ (by decide), collapseGo_norm_step _ _ (by decide),
        collapseGo_norm_step _ _ (by decide), collapseGo_norm_step _ _ (by decide),
        collapseGo_norm_step _ _ (by decide), collapseGo_norm_step _ _ (by decide)]
      exact .quot _ (ih .norm (fun _ hw => by cases hw))
    | pend w =>
      have hres := wsNotReserved w (hm w rfl)
      rw [collapseGo_pend_step _ _ _ (by decide), collapseGo_norm_step _ _ (by decide),
        collapseGo_norm_step _ _ (by decide), collapseGo_norm_step _ _ (by decide),
        collapseGo_norm_step _ _ (by decide), collapseGo_norm_step _ _ (by decide)]
      exact .safe w _ hres.1 hres.2.1 hres.2.2.1 hres.2.2.2.1 hres.2.2.2.2
        (.quot _ (ih .norm (fun _ hw => by cases hw)))
    | inRun =>
      rw [collapseGo_inRun_step _ _ (by decide), collapseGo_norm_step _ _ (by decide),
        collapseGo_norm_step _ _ (by decide), collapseGo_norm_step _ _ (by decide),
        collapseGo_norm_step _ _ (by decide), collapseGo_norm_step _ _ (by decide)]
      exact .quot _ (ih .norm (fun _ hw => by cases hw))
  | apos t ht ih =>
    intro m hm
    cases m with
    | norm =>
      rw [collapseGo_norm_step _ _ (by decide), collapseGo_norm_step _ _ (by decide),
        collapseGo_norm_step _ _ (by decide), collapseGo_norm_step _ _ (by decide),
        collapseGo_norm_step _ _ (by decide), collapseGo_norm_step _ _ (by decide)]
      exact .apos _ (ih .norm (fun _ hw => by cases hw))
    | pend w =>
      have hres := wsNotReserved w (hm w rfl)
      rw [collapseGo_pend_step _ _ _ (by decide), collapseGo_norm_step _ _ (by decide),
        collapseGo_norm_step _ _ (by decide), collapseGo_norm_step _ _ (by decide),
        collapseGo_norm_step _ _ (by decide), collapseGo_norm_step _ _ (by decide)]
      exact .safe w _ hres.1 hres.2.1 hres.2.2.1 hres.2.2.2.1 hres.2.2.2.2
        (.apos _ (ih .norm (fun _ hw => by cases hw)))
    | inRun =>
      rw [collapseGo_inRun_step _ _ (by decide), collapseGo_norm_step _ _ (by decide),
        collapseGo_norm_step _ _ (by decide), collapseGo_norm_step _ _ (by decide),
        collapseGo_norm_step _ _ (by decide), collapseGo_norm_step _ _ (by decide)]
      exact .apos _ (ih .norm (fun _ hw => by cases hw))

theorem escapedOk_collapse (l : List Char) (h : EscapedOk l) : EscapedOk (collapse l) :=
  escapedOk_collapseGo l h .norm (fun _ hw => by cases hw)

theorem escapedOk_contentNorm (s : String) : EscapedOk (contentNorm (escapeXml s)).data := by
  unfold contentNorm
  by_cases hC : (collapse (listStrip (escapeXml s).data)).all jsWs = true
  · rw [if_pos hC]
    exact .nil
  · rw [if_neg hC]
    show EscapedOk (collapse (listStrip (escapeXml s).data))
    refine escapedOk_collapse _ (escapedOk_listStrip _ ?_)
    rw [data_escapeXml]
    exact escapedOk_escList _

theorem strJoin_infix (x : String) (l : List String) (h : x ∈ l) :
    x.data <:+: (strJoin l).data := by
  induction l with
  | nil => cases h
  | cons y t ih =>
    rcases List.mem_cons.mp h with rfl | h2
    · rw [show strJoin (x :: t) = x ++ strJoin t from rfl, String.data_append]
      exact (List.prefix_append _ _).isInfix
    · rw [show strJoin (y :: t) = y ++ strJoin t from rfl, String.data_append]
      exact (ih h2).trans (List.suffix_append _ _).isInfix

theorem thrusters_infix_modeBlock (mode : String) (config : PhysicsModeConfig) :
    ("<thrusters>" ++ thrustersCompact 0 config.thrusters ++ "</thrusters>").data <:+:
      (modeBlockCompact mode config).data := by
  refine ⟨(("<" ++ mode ++ ">") ++ "<ConnectionType>" ++
      contentNorm (escapeXml config.connectionType) ++ "</ConnectionType>" ++ "<uri>" ++
      contentNorm (escapeXml config.uri) ++ "</uri>").data,
    (("</" ++ mode ++ ">")).data, ?_⟩
  simp only [modeBlockCompact, String.data_append, -String.reduceAppend, List.append_assoc]

theorem mode_infix_phys (cfg : VesselSpawnConfig) (m : String)
    (hp : cfg.physicsEnabled = true) (hm : m ∈ enabledModeNames cfg.physicsModes) :
    (modeBlockCompact m (physicsConfigOf cfg m)).data <:+: (physicsCompact cfg).data := by
  have h1 : (modeBlockCompact m (physicsConfigOf cfg m)).data <:+:
      (strJoin ((enabledModeNames cfg.physicsModes).map
        (fun mode => modeBlockCompact mode (physicsConfigOf cfg mode)))).data :=
    strJoin_infix _ _ (List.mem_map_of_mem _ hm)
  refine h1.trans ⟨("<physics_engine_interface>").data,
    ("<init_state>" ++ contentNorm (escapeXml cfg.initState) ++ "</init_state>" ++
      "</physics_engine_interface>").data, ?_⟩
  simp only [physicsCompact, hp, if_true, String.data_append, -String.reduceAppend,
    List.append_assoc]

theorem phys_infix_serialize (cfg : VesselSpawnConfig) :
    (physicsCompact cfg).data <:+: (serializeCompact cfg).data := by
  refine ⟨("<lotus_param>" ++ renderCompact cfg).data,
    (wfCompact cfg ++ "</lotus_param>").data, ?_⟩
  simp only [serializeCompact, String.data_append, -String.reduceAppend, List.append_assoc]

theorem elemOk_spec (item : JsValue) :
    (elemOk item = .ok true ↔
      (hasTruthyField item "vessel_name" && hasTruthyField item "pose") = true) ∧
    (elemOk item = .ok true ∨ elemOk item = .ok false ∨ elemOk item = .error ()) := by
  cases item with
  | obj fields =>
    by_cases hv : truthy ((fields.lookup "vessel_name").getD .undefv) = true
    · by_cases hpo : truthy ((fields.lookup "pose").getD .undefv) = true
      · simp [elemOk, getProp, hasTruthyField, hv, hpo, bind, Except.bind, pure, Except.pure]
      · simp [elemOk, getProp, hasTruthyField, hv, hpo, bind, Except.bind, pure, Except.pure]
    · simp [elemOk, getProp, hasTruthyField, hv, bind, Except.bind, pure, Except.pure]
  | undefv => simp [elemOk, getProp, hasTruthyField, bind, Except.bind, pure, Except.pure]
  | nullv => simp [elemOk, getProp, hasTruthyField, bind, Except.bind, pure, Except.pure]
  | boolv b =>
    simp [elemOk, getProp, hasTruthyField, truthy, bind, Except.bind, pure, Except.pure]
  | numv q =>
    simp [elemOk, getProp, hasTruthyField, truthy, bind, Except.bind, pure, Except.pure]
  | strv s =>
    simp [elemOk, getProp, hasTruthyField, truthy, bind, Except.bind, pure, Except.pure]
  | arr elems =>
    simp [elemOk, getProp, hasTruthyField, truthy, bind, Except.bind, pure, Except.pure]

theorem everyOk_spec (elems : List JsValue) :
    everyOk elems = .ok true ↔
      elems.all (fun item =>
        hasTruthyField item "vessel_name" && hasTruthyField item "pose") = true := by
  induction elems with
  | nil => simp [everyOk]
  | cons item rest ih =>
    rcases (elemOk_spec item).2 with he | he | he
    · have hp := (elemOk_spec item).1.mp he
      rw [show everyOk (item :: rest) = everyOk rest from by rw [everyOk, he]]
      simp [List.all_cons, hp, ih]
    · have hp : (hasTruthyField item "vessel_name" && hasTruthyField item "pose") = false := by
        cases hval : (hasTruthyField item "vessel_name" && hasTruthyField item "pose")
        · rfl
        · have := (elemOk_spec item).1.mpr hval
          rw [he] at this
          simp at this
      rw [show everyOk (item :: rest) = .ok false from by rw [everyOk, he]]
      simp [List.all_cons, hp]
    · have hp : (hasTruthyField item "vessel_name" && hasTruthyField item "pose") = false := by
        cases hval : (hasTruthyField item "vessel_name" && hasTruthyField item "pose")
        · rfl
        · have := (elemOk_spec item).1.mpr hval
          rw [he] at this
          simp at this
      rw [show everyOk (item :: rest) = .error () from by rw [everyOk, he]]
      simp [List.all_cons, hp]

theorem connectStep_already (st : WSClientState) (h : st.ws.isSome = true) :
    (connectStep st).state = st ∧ (connectStep st).created = false ∧
      (connectStep st).log =
        ["WebSocket connecting.", "WebSocket is already connected."] := by
  unfold connectStep
  rw [if_pos h]
  exact ⟨rfl, rfl, rfl⟩

theorem disconnect_keeps_ws (st : WSClientState) :
    (disconnectStep st).ws.isSome = st.ws.isSome := by
  obtain ⟨ws⟩ := st
  cases ws <;> simp [disconnectStep]

theorem runOps_connected (ops : List ClientOp) :
    ∀ st : WSClientState, st.ws.isSome = true →
      (runOps st ops).2 = 0 ∧ (runOps st ops).1.ws.isSome = true := by
  induction ops with
  | nil => intro st h; exact ⟨rfl, h⟩
  | cons op ops ih =>
    intro st h
    cases op with
    | connect =>
      have hstep : stepOp st .connect = (st, 0) := by
        simp [stepOp, connectStep, h]
      rw [runOps, hstep]
      exact ⟨by simp [(ih st h).1], (ih st h).2⟩
    | disconnect =>
      have hstep : stepOp st .disconnect = (disconnectStep st, 0) := rfl
      have hs : (disconnectStep st).ws.isSome = true := by
        rw [disconnect_keeps_ws]
        exact h
      rw [runOps, hstep]
      exact ⟨by simp [(ih _ hs).1], (ih _ hs).2⟩

theorem socketsCreated_le_one (ops : List ClientOp) : socketsCreated ops ≤ 1 := by
  suffices h : ∀ st : WSClientState, (runOps st ops).2 ≤ (if st.ws.isSome then 0 else 1) by
    have h2 := h initialClientState
    unfold socketsCreated
    simp only [initialClientState] at h2
    calc (runOps ⟨none⟩ ops).2 ≤ _ := h2
      _ ≤ 1 := by split <;> omega
  induction ops with
  | nil => intro st; simp [runOps]
  | cons op ops ih =>
    intro st
    cases op with
    | connect =>
      by_cases h : st.ws.isSome = true
      · have hstep : stepOp st .connect = (st, 0) := by
          simp [stepOp, connectStep, h]
        rw [runOps, hstep]
        have h0 := (runOps_connected ops st h).1
        simp [h0, h]
      · have hnone : st.ws = none := by
          cases hw : st.ws with
          | none => rfl
          | some c => rw [hw] at h; simp at h
        have hstep : stepOp st .connect = (⟨some ⟨false⟩⟩, 1) := by
          simp [stepOp, connectStep, hnone]
        rw [runOps, hstep]
        have h0 := (runOps_connected ops ⟨some ⟨false⟩⟩ rfl).1
        simp [h0, hnone]
    | disconnect =>
      have hstep : stepOp st .disconnect = (disconnectStep st, 0) := rfl
      rw [runOps, hstep]
      have hd := disconnect_keeps_ws st
      have h2 := ih (disconnectStep st)
      rw [hd] at h2
      simpa using h2

/-- C1: for every configuration in which every optional block (render, physics,
waypoint follower) is disabled, the serializer returns exactly
`<lotus_param></lotus_param>`, with no inner whitespace, regardless of the
values stored in the disabled blocks' fields. -/
theorem C1_minimal_document (cfg : VesselSpawnConfig) (h1 : cfg.renderEnabled = false)
    (h2 : cfg.physicsEnabled = false) (h3 : cfg.waypointFollower.enabled = false) :
    generateLotusParamXML cfg = "<lotus_param></lotus_param>" := by
  rw [generate_eq_compact]
  unfold serializeCompact renderCompact physicsCompact wfCompact
  rw [h1, h2, h3]
  simp only [Bool.false_eq_true, if_false]
  apply String.ext
  decide

theorem C1_minimal_document_witness :
    generateLotusParamXML defaultCfg = "<lotus_param></lotus_param>" :=
  C1_minimal_document defaultCfg rfl rfl rfl

/-- C2 (amended): with the waypoint-follower block enabled, mode `waypoints`
and an empty waypoint list, no `<follower>` element is emitted, but the output
is not identical to the disabled-block output: an empty
`<waypoint_follower></waypoint_follower>` element remains before the closing
root tag. -/
theorem C2_empty_waypoints (cfg : VesselSpawnConfig)
    (he : cfg.waypointFollower.enabled = true)
    (hm : cfg.waypointFollower.mode = "waypoints")
    (hw : cfg.waypointFollower.waypoints = []) :
    ∃ doc : String,
      generateLotusParamXML (disableWF cfg) = doc ++ "</lotus_param>" ∧
      generateLotusParamXML cfg =
        doc ++ "<waypoint_follower></waypoint_follower>" ++ "</lotus_param>" := by
  refine ⟨"<lotus_param>" ++ renderCompact cfg ++ physicsCompact cfg, ?_, ?_⟩
  · rw [generate_eq_compact]
    have hwf : wfCompact (disableWF cfg) = "" := by
      unfold wfCompact disableWF
      simp
    unfold serializeCompact
    rw [hwf]
    rw [show renderCompact (disableWF cfg) = renderCompact cfg from rfl,
      show physicsCompact (disableWF cfg) = physicsCompact cfg from rfl]
    apply String.ext
    simp [String.data_append]
  · rw [generate_eq_compact]
    have hwf : wfCompact cfg = "<waypoint_follower></waypoint_follower>" := by
      unfold wfCompact followersCompactOf
      rw [if_pos he]
      have hc1 : ¬(cfg.waypointFollower.mode = "waypoints" ∧
          cfg.waypointFollower.waypoints.length > 0) := by
        rw [hm, hw]
        simp
      have hc2 : ¬ cfg.waypointFollower.mode = "line" := by
        rw [hm]
        decide
      have hc3 : ¬ cfg.waypointFollower.mode = "circle" := by
        rw [hm]
        decide
      rw [if_neg hc1, if_neg hc2, if_neg hc3]
      apply String.ext
      decide
    unfold serializeCompact
    rw [hwf]

theorem C2_empty_waypoints_witness :
    ∃ doc : String,
      generateLotusParamXML (disableWF emptyWaypointsCfg) = doc ++ "</lotus_param>" ∧
      generateLotusParamXML emptyWaypointsCfg =
        doc ++ "<waypoint_follower></waypoint_follower>" ++ "</lotus_param>" :=
  C2_empty_waypoints emptyWaypointsCfg rfl rfl rfl

set_option maxRecDepth 100000 in
theorem C2_counterexample :
    generateLotusParamXML emptyWaypointsCfg ≠
      generateLotusParamXML (disableWF emptyWaypointsCfg) := by
  decide

/-- C3: the serializer's output is its compact form, in which every string
field (renderer type, connection type, URI, thruster names, initial state)
enters only as `contentNorm (escapeXml …)`; every such embedded form carries
the five reserved markup characters only inside complete escape sequences
(`&amp;` `&lt;` `&gt;` `&quot;` `&apos;`), while numeric and boolean fields
are rendered verbatim, with no escaping applied. -/
theorem C3_escaping (cfg : VesselSpawnConfig) (s : String) (q : ℚ) (b : Bool) :
    generateLotusParamXML cfg = serializeCompact cfg ∧
    EscapedOk (contentNorm (escapeXml s)).data ∧
    contentNorm (jsNum q) = jsNum q ∧ contentNorm (jsBool b) = jsBool b :=
  ⟨generate_eq_compact cfg, escapedOk_contentNorm s, contentNorm_jsNum q,
    contentNorm_jsBool b⟩

/-- Mutual exclusivity of the three follower branches: the internal follower
list holds at most one element, and exactly one precisely when a branch
condition holds. -/
theorem followersOf_spec (wf : WaypointFollowerState) :
    (followersOf wf).length ≤ 1 ∧
    ((followersOf wf).length = 1 ↔
      ((wf.mode = "waypoints" ∧ wf.waypoints.length > 0) ∨ wf.mode = "line" ∨
        wf.mode = "circle")) := by
  unfold followersOf
  by_cases h1 : wf.mode = "waypoints" ∧ wf.waypoints.length > 0
  · have h2 : ¬ wf.mode = "line" := fun h => absurd (h1.1.symm.trans h) (by decide)
    have h3 : ¬ wf.mode = "circle" := fun h => absurd (h1.1.symm.trans h) (by decide)
    rw [if_pos h1, if_neg h2, if_neg h3]
    simp [h1]
  · by_cases h2 : wf.mode = "line"
    · have h3 : ¬ wf.mode = "circle" := fun h => absurd (h2.symm.trans h) (by decide)
      rw [if_neg h1, if_pos h2, if_neg h3]
      simp [h2]
    · by_cases h3 : wf.mode = "circle"
      · rw [if_neg h1, if_neg h2, if_pos h3]
        simp [h3]
      · rw [if_neg h1, if_neg h2, if_neg h3]
        simp [h1, h2, h3]

/-- C4 (amended): output-level follower count — for every config with the
waypoint-follower block enabled, the number of occurrences of the substring
`<follower>` in the serialized output equals the length of the internal
follower list, is at most one (the three mode branches are mutually
exclusive), and is exactly one iff a mode branch fires: waypoints mode with a
nonempty waypoint list, line mode, or circle mode.  With no mode selected, or
waypoints mode with an empty list, no follower element is emitted. -/
theorem C4_followers (cfg : VesselSpawnConfig)
    (he : cfg.waypointFollower.enabled = true) :
    countOcc ("<follower>").data (generateLotusParamXML cfg).data =
      (followersOf cfg.waypointFollower).length ∧
    countOcc ("<follower>").data (generateLotusParamXML cfg).data ≤ 1 ∧
    (countOcc ("<follower>").data (generateLotusParamXML cfg).data = 1 ↔
      ((cfg.waypointFollower.mode = "waypoints" ∧
          cfg.waypointFollower.waypoints.length > 0) ∨
        cfg.waypointFollower.mode = "line" ∨ cfg.waypointFollower.mode = "circle")) := by
  have hc : countOcc ("<follower>").data (generateLotusParamXML cfg).data =
      (followersOf cfg.waypointFollower).length :=
    (countOcc_fol_generate cfg).trans (countP_fol_body cfg he)
  refine ⟨hc, ?_, ?_⟩
  · rw [hc]
    exact (followersOf_spec cfg.waypointFollower).1
  · rw [hc]
    exact (followersOf_spec cfg.waypointFollower).2

theorem C4_followers_witness :
    noModeCfg.waypointFollower.enabled = true ∧
    (countOcc ("<follower>").data (generateLotusParamXML noModeCfg).data =
        (followersOf noModeCfg.waypointFollower).length ∧
      countOcc ("<follower>").data (generateLotusParamXML noModeCfg).data ≤ 1 ∧
      (countOcc ("<follower>").data (generateLotusParamXML noModeCfg).data = 1 ↔
        ((noModeCfg.waypointFollower.mode = "waypoints" ∧
            noModeCfg.waypointFollower.waypoints.length > 0) ∨
          noModeCfg.waypointFollower.mode = "line" ∨
          noModeCfg.waypointFollower.mode = "circle"))) :=
  ⟨rfl, C4_followers noModeCfg rfl⟩

set_option maxRecDepth 100000 in
theorem C4_counterexample :
    noModeCfg.waypointFollower.enabled = true ∧
      countOcc ("<follower>").data (generateLotusParamXML noModeCfg).data = 0 := by
  decide

/-- C6 (amended): for every enabled physics mode, the output contains the
mode's `<thrusters>` region exactly as `thrustersCompact 0 ts`: one element
per thruster, named by 1-based positional index in the order of the
user-entered list, but holding the escaped and whitespace-normalized content
`contentNorm (escapeXml t)` rather than the raw thruster string. -/
theorem C6_thrusters_escaped (cfg : VesselSpawnConfig) (m : String)
    (hp : cfg.physicsEnabled = true) (hm : m ∈ enabledModeNames cfg.physicsModes) :
    ("<thrusters>" ++ thrustersCompact 0 (physicsConfigOf cfg m).thrusters ++
      "</thrusters>").data <:+: (generateLotusParamXML cfg).data := by
  rw [generate_eq_compact]
  exact ((thrusters_infix_modeBlock m (physicsConfigOf cfg m)).trans
    (mode_infix_phys cfg m hp hm)).trans (phys_infix_serialize cfg)

theorem C6_thrusters_escaped_witness :
    ("<thrusters>" ++
      thrustersCompact 0 (physicsConfigOf ampThrusterCfg "aerial").thrusters ++
      "</thrusters>").data <:+: (generateLotusParamXML ampThrusterCfg).data :=
  C6_thrusters_escaped ampThrusterCfg "aerial" rfl (by decide)

set_option maxRecDepth 100000 in
theorem C6_counterexample :
    ¬ (("<thrusters1>&</thrusters1>").data <:+:
        (generateLotusParamXML ampThrusterCfg).data) ∧
      (("<thrusters1>&amp;</thrusters1>").data <:+:
        (generateLotusParamXML ampThrusterCfg).data) := by
  decide

/-- C7: the vessel-data callback is invoked exactly on messages that parse to
an array in which every element has a truthy `vessel_name` and a truthy
`pose` field; such a message delivers its whole batch with no diagnostics,
and every other message is dropped with exactly one diagnostic, leaving the
previously delivered batch unchanged. -/
theorem C7_message_validation (msg : InMessage) (prev : List JsValue) :
    ((handleMessage msg).callback.isSome = specValidMessage msg) ∧
    (specValidMessage msg = true →
      (handleMessage msg).callback = some (batchOf msg) ∧
      (handleMessage msg).warns = 0 ∧ (handleMessage msg).errors = 0 ∧
      deliveredAfter prev (handleMessage msg) = batchOf msg) ∧
    (specValidMessage msg = false →
      (handleMessage msg).callback = none ∧
      (handleMessage msg).warns + (handleMessage msg).errors = 1 ∧
      deliveredAfter prev (handleMessage msg) = prev) := by
  cases msg with
  | malformed => simp [handleMessage, specValidMessage, deliveredAfter]
  | value v =>
    cases v with
    | arr elems =>
      have hsv : specValidMessage (.value (.arr elems)) =
          elems.all (fun item =>
            hasTruthyField item "vessel_name" && hasTruthyField item "pose") := rfl
      have hh : handleMessage (.value (.arr elems)) =
          match everyOk elems with
          | .ok true => ⟨some elems, 0, 0⟩
          | .ok false => ⟨none, 1, 0⟩
          | .error _ => ⟨none, 0, 1⟩ := rfl
      rcases heo : everyOk elems with u | b
      · have hall : elems.all (fun item =>
            hasTruthyField item "vessel_name" && hasTruthyField item "pose") = false := by
          cases hval : elems.all (fun item =>
              hasTruthyField item "vessel_name" && hasTruthyField item "pose")
          · rfl
          · have h2 := (everyOk_spec elems).mpr hval
            rw [heo] at h2
            simp at h2
        rw [hh, heo]
        simp [hsv, hall, deliveredAfter]
      · cases b
        · have hall : elems.all (fun item =>
              hasTruthyField item "vessel_name" && hasTruthyField item "pose") = false := by
            cases hval : elems.all (fun item =>
                hasTruthyField item "vessel_name" && hasTruthyField item "pose")
            · rfl
            · have h2 := (everyOk_spec elems).mpr hval
              rw [heo] at h2
              simp at h2
          rw [hh, heo]
          simp [hsv, hall, deliveredAfter]
        · have hall := (everyOk_spec elems).mp heo
          rw [hh, heo]
          simp [hsv, hall, deliveredAfter, batchOf]
    | undefv => simp [handleMessage, specValidMessage, deliveredAfter]
    | nullv => simp [handleMessage, specValidMessage, deliveredAfter]
    | boolv b => simp [handleMessage, specValidMessage, deliveredAfter]
    | numv q => simp [handleMessage, specValidMessage, deliveredAfter]
    | strv s => simp [handleMessage, specValidMessage, deliveredAfter]
    | obj fields => simp [handleMessage, specValidMessage, deliveredAfter]

/-- C8: calling `connect()` while the client already holds a WebSocket is a
logged no-op: the state is untouched, no new socket is created, and the two
informational log lines are emitted with no error. -/
theorem C8_connect_noop (st : WSClientState) (h : st.ws.isSome = true) :
    (connectStep st).state = st ∧ (connectStep st).created = false ∧
      (connectStep st).log =
        ["WebSocket connecting.", "WebSocket is already connected."] :=
  connectStep_already st h

theorem C8_connect_noop_witness :
    (connectStep ⟨some ⟨false⟩⟩).state = (⟨some ⟨false⟩⟩ : WSClientState) ∧
      (connectStep ⟨some ⟨false⟩⟩).created = false ∧
      (connectStep ⟨some ⟨false⟩⟩).log =
        ["WebSocket connecting.", "WebSocket is already connected."] :=
  C8_connect_noop ⟨some ⟨false⟩⟩ rfl

/-- C9: the marker icon is a pair whose width is `0.5 + zoom` (0.5 at zoom 0,
10.5 at zoom 10) and whose height is always 1.625 times the width. -/
theorem C9_icon_size (z : ℚ) :
    getIconSize z = [0.5 + z, (0.5 + z) * 1.625] ∧
      getIconSize 0 = [0.5, 0.5 * 1.625] ∧ getIconSize 10 = [10.5, 10.5 * 1.625] := by
  refine ⟨rfl, ?_, ?_⟩
  · show [(0.5 : ℚ) + 0, (0.5 + 0) * 1.625] = [0.5, 0.5 * 1.625]
    norm_num
  · show [(0.5 : ℚ) + 10, (0.5 + 10) * 1.625] = [10.5, 10.5 * 1.625]
    norm_num

/-- C10: over one client instance's lifetime at most one WebSocket is ever
created, whatever sequence of `connect`/`disconnect` calls is made:
`disconnect()` never clears the stored `ws` reference, and every `connect()`
on a client whose `ws` is set is a no-op that creates nothing. -/
theorem C10_single_socket (ops : List ClientOp) :
    socketsCreated ops ≤ 1 ∧
    (∀ st : WSClientState, (disconnectStep st).ws.isSome = st.ws.isSome) ∧
    (∀ st : WSClientState, st.ws.isSome = true →
      (connectStep st).state = st ∧ (connectStep st).created = false) :=
  ⟨socketsCreated_le_one ops, disconnect_keeps_ws,
    fun st h => ⟨(connectStep_already st h).1, (connectStep_already st h).2.1⟩⟩

end Lotus
